import Mathlib

/-! # Group assignments of an application: reconciliation of declared and fetched state

A shallow embedding of `okta/resource_okta_app_group_assignments.go` and of the
helpers `camelCaseToUnderscore`, `noChangeInObjectFromUnmarshaledJSON`,
`conditionalValidator` and `Intersection` of `okta/utils.go`, and of
`getSearchCriteria` of `okta/data_source_okta_user.go`.

Conventions of the embedding

* Go `int` and `int64` are both taken as 64-bit, so the conversions
  `int(*p)` and `int64Ptr(n)` are the identity; priorities are never used in
  arithmetic, only copied and compared, and are held as `Int`.
* A Go `map[string]T` is an association list with one entry per key
  (`GoMap`).  Wherever the source ranges over a map the embedding ranges over
  the entries in list order; the theorems quantify over every such list, hence
  over every iteration order.
* `encoding/json`, `sort.Slice` and `schema.ResourceData` are libraries.  The
  first two are passed in as an interface (`JSONLib`, `SliceSorter`), so the
  theorems hold for every implementation that meets the interface; the third
  is modelled from its documented contract (`ResourceData.GetOk_priority`,
  `ResourceData.GetChange_group`).
* Where the order of a `range` over a map shows in the result
  (`splitAssignmentsTargets`), that order is a parameter (`MapRange`), known
  only to visit every entry once.
* The external system is a parameter (`Client`): what each call answers in a
  state of the system, and the state it leaves.  A `World` pairs that state
  with the record of the calls issued so far and of their answers; the
  functions of the resource that call the transport take a `World` and return
  one.
* The capacity of the slice a conversion `[]rune(s)` returns is left to the
  runtime.  Where it shows in the result (`camelCaseToUnderscore`), the spare
  capacity is a parameter and the theorems quantify over it.
-/

namespace Okta

/-! ## Library values -/

/-- A Go value of type `interface{}` as produced by `encoding/json`: `nil`,
`bool`, `float64` (held as the text `encoding/json` renders it, which is unique
for each `float64`), `string`, `[]interface{}` or `map[string]interface{}`. -/
inductive JSONValue where
  | null
  | bool (b : Bool)
  | number (text : String)
  | string (s : String)
  | array (items : List JSONValue)
  | object (fields : List (String × JSONValue))

/-- The Go comparison `v == nil` on an `interface{}` value. -/
def JSONValue.isNil : JSONValue → Bool
  | .null => true
  | _ => false

/-- A Go `map[string]T`: association list, one entry per key. -/
abbrev GoMap (β : Type) := List (String × β)

namespace GoMap

/-- The Go lookup `v, ok := m[k]`. -/
def get? {β : Type} (m : GoMap β) (k : String) : Option β :=
  List.lookup k m

/-- The `ok` of the Go lookup `_, ok := m[k]`. -/
def contains {β : Type} (m : GoMap β) (k : String) : Bool :=
  (m.get? k).isSome

/-- The Go assignment `m[k] = v`: overwrite the entry of `k`, or add one. -/
def set {β : Type} (m : GoMap β) (k : String) (v : β) : GoMap β :=
  if m.contains k then m.map (fun e => if e.1 = k then (k, v) else e)
  else m ++ [(k, v)]

/-- The Go `len(m)`. -/
def len {β : Type} (m : GoMap β) : Nat := m.length

/-- The keys of the map. -/
def keys {β : Type} (m : GoMap β) : List String := m.map Prod.fst

end GoMap

/-- The two functions of `encoding/json` the resource calls.  `Unmarshal s`
is `json.Unmarshal([]byte(s), &v)` for `var v interface{}`, `none` standing for
a non-nil error.  `Marshal v` is `json.Marshal(v)`; it cannot fail on a value
that itself came out of `encoding/json`. -/
structure JSONLib where
  Unmarshal : String → Option JSONValue
  Marshal : JSONValue → String

/-- The call `json.Unmarshal([]byte(s), &m)` for `m := make(map[string]interface{})`:
an object fills the map (`some (some m)`), the literal `null` sets the map to
nil without error (`some none`), every other text is an error (`none`). -/
def JSONLib.UnmarshalMap (J : JSONLib) (s : String) : Option (Option (GoMap JSONValue)) :=
  match J.Unmarshal s with
  | some (.object m) => some (some m)
  | some .null => some none
  | _ => none

/-- The call `sort.Slice(xs, func(i, j int) bool { return key[xs[i]] < key[xs[j]] })`.
`sort.Slice` is not stable, so all that is known of the outcome is that it is a
rearrangement of the input in which no element is followed by one with a
smaller key, and that it is computed from the keys of the elements alone. -/
structure SliceSorter where
  sortBy : (String → Int) → List String → List String
  perm : ∀ key l, (sortBy key l).Perm l
  sorted : ∀ key l, (sortBy key l).Pairwise (fun x y => key x ≤ key y)
  congr : ∀ key1 key2 l, (∀ x ∈ l, key1 x = key2 x) → sortBy key1 l = sortBy key2 l

/-! ## Data model -/

/-- Modelled from the spec: the struct `sdk.ApplicationGroupAssignment`, whose
declaration is not part of the sources at hand; the three fields the resource
reads and writes.  `PriorityPtr` is a `*int64` (`none` for `nil`), `Profile`
an `interface{}`. -/
structure ApplicationGroupAssignment where
  Id : String
  PriorityPtr : Option Int
  Profile : JSONValue

/-- One element of the `group` list in its `map[string]interface{}` form: the
key `id` is always there, the keys `priority` and `profile` may be missing. -/
structure TFGroup where
  id : String
  priority : Option Int
  profile : Option String
deriving DecidableEq

/-- One `group` block as written by the owner: `priority` is `none` when the
attribute is omitted; `profile` is a required string. -/
structure GroupBlock where
  id : String
  priority : Option Int
  profile : String
deriving DecidableEq

/-- The part of `schema.ResourceData` the resource reads and writes: the
attributes `app_id` and `group` as they are now, the `group` list of the prior
state (the old side of `GetChange`), and the resource id. -/
structure ResourceData where
  app_id : String
  group : List GroupBlock
  group_old : List GroupBlock := []
  id : String := ""
deriving DecidableEq

namespace ResourceData

/-- The call `d.GetOk(fmt.Sprintf("group.%d.priority", i))`.  The SDK documents
`GetOk` as returning "the data for the given key and whether or not the key has
been set to a non-zero value": for a `TypeInt` attribute the second result is
`false` both when the attribute is omitted and when it is set to `0`. -/
def GetOk_priority (d : ResourceData) (i : Nat) : Int × Bool :=
  match d.group.get? i with
  | some g =>
    match g.priority with
    | some n => (n, n != 0)
    | none => (0, false)
  | none => (0, false)

/-- The call `d.Get(fmt.Sprintf("group.%d.profile", i))`; the zero value `""`
when there is no such element. -/
def Get_profile (d : ResourceData) (i : Nat) : String :=
  match d.group.get? i with
  | some g => g.profile
  | none => ""

/-- The call `d.Get(fmt.Sprintf("group.%d.id", i))`. -/
def Get_id (d : ResourceData) (i : Nat) : String :=
  match d.group.get? i with
  | some g => g.id
  | none => ""

/-- The call `d.Get("group")`: every element carries all three keys, an omitted
`priority` reading as the zero value. -/
def Get_group (d : ResourceData) : List TFGroup :=
  d.group.map (fun g => { id := g.id, priority := some (g.priority.getD 0), profile := some g.profile })

/-- The call `d.GetOk("group")`: the second result is `false` for the zero
value of a list, the empty list. -/
def GetOk_group (d : ResourceData) : List TFGroup × Bool :=
  (d.Get_group, !d.group.isEmpty)

/-- The call `d.GetChange("group")`: the list of the prior state and the list
as it is now.  The SDK builds every element with one entry for each attribute
of the schema, an attribute that is not set reading as its zero value, so the
keys `priority` and `profile` are there in every element of both lists. -/
def GetChange_group (d : ResourceData) : List TFGroup × List TFGroup :=
  (d.group_old.map (fun g =>
      { id := g.id, priority := some (g.priority.getD 0), profile := some g.profile }),
    d.Get_group)

/-- The call `d.SetId(v)`. -/
def SetId (d : ResourceData) (v : String) : ResourceData :=
  { d with id := v }

/-- The call `d.Set("group", v)`: a key that is missing from an element is left
unset.  The call cannot fail on elements of the shape of the schema. -/
def Set_group (d : ResourceData) (v : List TFGroup) : ResourceData :=
  { d with group := v.map (fun g =>
      { id := g.id, priority := g.priority, profile := g.profile.getD "" }) }

end ResourceData

/-- A Go `error`: made by `errors.New` or by the transport, or made by
`fmt.Errorf` with the verb `%w`, which keeps the error it wraps. -/
inductive GoError where
  | new (msg : String)
  | wrap (msg : String) (cause : GoError)
deriving DecidableEq

/-- The method `Error()`. -/
def GoError.Error : GoError → String
  | .new msg => msg
  | .wrap msg _ => msg

/-- Modelled from the spec: the struct `sdk.Response`, whose declaration is not
part of the sources at hand; the two fields of the embedded `http.Response`
that the resource reads. -/
structure Response where
  StatusCode : Int
  Status : String
deriving DecidableEq

/-- The constant `http.StatusNotFound`. -/
def http.StatusNotFound : Int := 404

/-- The severity of a diagnostic of the package `diag`. -/
inductive Severity where
  | Error
  | Warning
deriving DecidableEq

/-- One `diag.Diagnostic`. -/
structure Diagnostic where
  severity : Severity
  Summary : String
deriving DecidableEq

/-- The type `diag.Diagnostics`; `nil` is the empty list. -/
abbrev Diagnostics := List Diagnostic

/-- The call `diag.Errorf(format, ...)`, given the formatted message: one
diagnostic of severity error. -/
def diag.Errorf (msg : String) : Diagnostics :=
  [{ severity := .Error, Summary := msg }]

/-- A call to the external system. -/
inductive Call where
  | CreateApplicationGroupAssignment (appID groupID : String)
      (assignment : ApplicationGroupAssignment)
  | DeleteApplicationGroupAssignment (appID groupID : String)
  | listApplicationGroupAssignments (appID : String)

/-- Whether the call is a create-or-update. -/
def Call.isCreate : Call → Bool
  | .CreateApplicationGroupAssignment _ _ _ => true
  | _ => false

/-- Whether the call is a delete. -/
def Call.isDelete : Call → Bool
  | .DeleteApplicationGroupAssignment _ _ => true
  | _ => false

/-- The group the call is about, if it is about one. -/
def Call.groupID : Call → Option String
  | .CreateApplicationGroupAssignment _ groupID _ => some groupID
  | .DeleteApplicationGroupAssignment _ groupID => some groupID
  | .listApplicationGroupAssignments _ => none

/-- A call as it was issued, with the response and the error it came back with. -/
structure CallRecord where
  call : Call
  resp : Option Response
  err : Option GoError

/-- The external system as the resource sees it: what each call answers in a
state `σ` of the system and the state it leaves.  `create` answers for
`client.Application.CreateApplicationGroupAssignment` (the assignment it also
returns is dropped by every caller), `delete` for
`client.Application.DeleteApplicationGroupAssignment`, `list` for
`listApplicationGroupAssignments`, whose first result is `none` for a nil slice. -/
structure Client (σ : Type) where
  create : σ → String → String → ApplicationGroupAssignment → σ × Option Response × Option GoError
  delete : σ → String → String → σ × Option Response × Option GoError
  list : σ → String → σ × Option (List ApplicationGroupAssignment) × Option Response × Option GoError

/-- The external system together with the record of the calls issued so far,
oldest first. -/
structure World (σ : Type) where
  state : σ
  calls : List CallRecord

/-- The call `client.Application.CreateApplicationGroupAssignment(ctx, appID, groupID, assignment)`. -/
def Client.CreateApplicationGroupAssignment {σ : Type} (T : Client σ) (w : World σ)
    (appID groupID : String) (assignment : ApplicationGroupAssignment) :
    World σ × Option Response × Option GoError :=
  let r := T.create w.state appID groupID assignment
  ({ state := r.1
     calls := w.calls ++ [{ call := .CreateApplicationGroupAssignment appID groupID assignment
                            resp := r.2.1, err := r.2.2 }] }, r.2.1, r.2.2)

/-- The call `client.Application.DeleteApplicationGroupAssignment(ctx, appID, groupID)`. -/
def Client.DeleteApplicationGroupAssignment {σ : Type} (T : Client σ) (w : World σ)
    (appID groupID : String) : World σ × Option Response × Option GoError :=
  let r := T.delete w.state appID groupID
  ({ state := r.1
     calls := w.calls ++ [{ call := .DeleteApplicationGroupAssignment appID groupID
                            resp := r.2.1, err := r.2.2 }] }, r.2.1, r.2.2)

/-- The call `listApplicationGroupAssignments(ctx, client, appID)`. -/
def listApplicationGroupAssignments {σ : Type} (T : Client σ) (w : World σ) (appID : String) :
    World σ × Option (List ApplicationGroupAssignment) × Option Response × Option GoError :=
  let r := T.list w.state appID
  ({ state := r.1
     calls := w.calls ++ [{ call := .listApplicationGroupAssignments appID
                            resp := r.2.2.1, err := r.2.2.2 }] }, r.2.1, r.2.2.1, r.2.2.2)

/-- The order in which a statement `for k, v := range m` visits the entries of
a map.  Go leaves it unspecified and it differs from one run to the next; all
that is known is that every entry is visited once. -/
structure MapRange where
  order : GoMap TFGroup → List (String × TFGroup)
  perm : ∀ m, (order m).Perm m

/-! ## The resource -/

/-- The loop body of `buildProfile`, lines 375-382: copy the value of the actual
profile `ap` into the old profile `opm` only if `opm` has the attribute and the
value is not nil. -/
def buildProfile.merge (opm ap : GoMap JSONValue) : GoMap JSONValue :=
  ap.foldl (fun opm kv => if kv.2.isNil then opm else if opm.contains kv.1 then opm.set kv.1 kv.2 else opm) opm

/-- The function `buildProfile`.  When the old profile is the literal `null`
the map `opm` is nil after the decoding: the loop reads it and never writes to
it, and `json.Marshal(&opm)` gives the encoding of nil. -/
def buildProfile (J : JSONLib) (d : ResourceData) (i : Int)
    (assignment : Option ApplicationGroupAssignment) : String :=
  match assignment with
  | none => ""
  | some a =>
    if i < 0 then ""
    else
      let oldProfile := d.Get_profile i.toNat
      match J.UnmarshalMap oldProfile with
      | none => ""
      | some opm =>
        match a.Profile with
        | .object ap =>
          match opm with
          | some opm => J.Marshal (.object (buildProfile.merge opm ap))
          | none => J.Marshal .null
        | _ => ""

/-- The function `validateRelativeOrdering`, lines 309-319: the map
`currentPriorities` built from the view. -/
def validateRelativeOrdering.currentPriorities (result : List TFGroup) : GoMap Int :=
  result.foldl (fun m group =>
    match group.priority with
    | some priority => m.set group.id priority
    | none => m) []

/-- The function `validateRelativeOrdering`, lines 322-329: the ids of
`configOrder` that have a priority in both maps. -/
def validateRelativeOrdering.configGroups (configOrder : List String)
    (configPriorities currentPriorities : GoMap Int) : List String :=
  configOrder.filter (fun groupID => configPriorities.contains groupID && currentPriorities.contains groupID)

/-- The function `validateRelativeOrdering`. -/
def validateRelativeOrdering (S : SliceSorter) (result : List TFGroup) (configOrder : List String)
    (configPriorities : GoMap Int) : Bool :=
  let currentPriorities := validateRelativeOrdering.currentPriorities result
  let configGroups := validateRelativeOrdering.configGroups configOrder configPriorities currentPriorities
  let configGroups := S.sortBy (fun g => (configPriorities.get? g).getD 0) configGroups
  let currentGroups := S.sortBy (fun g => (currentPriorities.get? g).getD 0) configGroups
  decide (configGroups = currentGroups)

/-- The function `syncGroups`, lines 193-196: the fetched assignments by id. -/
def syncGroups.apiGroupsMap (groupAssignments : List ApplicationGroupAssignment) :
    GoMap ApplicationGroupAssignment :=
  groupAssignments.foldl (fun m assignment => m.set assignment.Id assignment) []

/-- The function `syncGroups`, lines 200-215: the map `configPriorities`. -/
def syncGroups.configPriorities (d : ResourceData) (tfGroups : List TFGroup) : GoMap Int :=
  tfGroups.enum.foldl (fun m ig =>
    let r := d.GetOk_priority ig.1
    if r.2 then m.set ig.2.id r.1 else m) []

/-- The function `syncGroups`, lines 200-215: the slice `configOrder`. -/
def syncGroups.configOrder (tfGroups : List TFGroup) : List String :=
  tfGroups.map (fun group => group.id)

/-- The function `syncGroups`, lines 200-215: the flag `hasPriorities`. -/
def syncGroups.hasPriorities (d : ResourceData) (tfGroups : List TFGroup) : Bool :=
  tfGroups.enum.any (fun ig => (d.GetOk_priority ig.1).2)

/-- The function `syncGroups`, lines 217-246: the first pass, over the groups
of the configuration. -/
def syncGroups.firstPass (J : JSONLib) (d : ResourceData) (tfGroups : List TFGroup)
    (groupAssignments : List ApplicationGroupAssignment) : List TFGroup :=
  tfGroups.enum.filterMap (fun ig =>
    match (syncGroups.apiGroupsMap groupAssignments).get? ig.2.id with
    | none => none
    | some apiAssignment =>
      some { id := apiAssignment.Id
             profile := some (buildProfile J d (ig.1 : Int) (some apiAssignment))
             priority :=
               match apiAssignment.PriorityPtr with
               | some p => if (syncGroups.configPriorities d tfGroups).contains ig.2.id then some p else none
               | none => none })

/-- The function `syncGroups`, lines 248-292: the second pass, over the fetched
assignments that are not in the configuration. -/
def syncGroups.secondPass (J : JSONLib) (tfGroups : List TFGroup)
    (groupAssignments : List ApplicationGroupAssignment) : List TFGroup :=
  groupAssignments.filterMap (fun apiAssignment =>
    if tfGroups.any (fun group => group.id = apiAssignment.Id) then none
    else
      some { id := apiAssignment.Id
             profile :=
               match apiAssignment.Profile with
               | .null => some "\x7b\x7d"
               | .string p => some p
               | v => some (J.Marshal v)
             priority := apiAssignment.PriorityPtr })

/-- The function `syncGroups`.  The outcome of `validateRelativeOrdering` is
looked at and dropped, as in the source, whose branch on it is empty. -/
def syncGroups (J : JSONLib) (S : SliceSorter) (d : ResourceData) (tfGroups : List TFGroup)
    (groupAssignments : List ApplicationGroupAssignment) : List TFGroup :=
  let result := syncGroups.firstPass J d tfGroups groupAssignments
    ++ syncGroups.secondPass J tfGroups groupAssignments
  let configPriorities := syncGroups.configPriorities d tfGroups
  if syncGroups.hasPriorities d tfGroups && decide (configPriorities.len > 1) then
    if !validateRelativeOrdering S result (syncGroups.configOrder tfGroups) configPriorities then
      result
    else result
  else result

/-- Modelled from the spec: the helper `int64Ptr`, whose definition is not part
of the sources at hand: the address of a copy of its argument. -/
def int64Ptr (n : Int) : Option Int := some n

/-- The function `groupAssignmentToTFGroup`. -/
def groupAssignmentToTFGroup (J : JSONLib) (assignment : ApplicationGroupAssignment) : TFGroup :=
  let jsonProfile := J.Marshal assignment.Profile
  let profile := if jsonProfile ≠ "" then jsonProfile else "\x7b\x7d"
  { id := assignment.Id
    profile := some profile
    priority := assignment.PriorityPtr }

/-- The function `tfGroupsToGroupAssignments`. -/
def tfGroupsToGroupAssignments (J : JSONLib) (d : ResourceData) : List ApplicationGroupAssignment :=
  (List.range d.Get_group.length).map (fun i =>
    let profile := (J.Unmarshal (d.Get_profile i)).getD .null
    let r := d.GetOk_priority i
    { Id := d.Get_id i
      Profile := profile
      PriorityPtr := if r.2 then int64Ptr r.1 else none })

/-- The function `splitAssignmentsTargets`, lines 441-457: the assignment made
from one entry `id, group` of `newIDs`. -/
def splitAssignmentsTargets.assignment (J : JSONLib) (id : String) (a : TFGroup) :
    ApplicationGroupAssignment :=
  { Id := id
    Profile :=
      match a.profile with
      | some profile => (J.Unmarshal profile).getD .null
      | none => .null
    PriorityPtr :=
      match a.priority with
      | some priority => int64Ptr priority
      | none => none }

/-- The function `splitAssignmentsTargets`, lines 414-427: the map from id to
element built from a list of the state; of two elements with the same id the
later one stands. -/
def splitAssignmentsTargets.ids (state : List TFGroup) : GoMap TFGroup :=
  state.foldl (fun m o => m.set o.id o) []

/-- The three results of `splitAssignmentsTargets`. -/
structure SplitResult where
  toAssign : List ApplicationGroupAssignment
  toRemove : List ApplicationGroupAssignment
  err : Option GoError

/-- The function `splitAssignmentsTargets`.  The two results of `GetChange` are
lists for an attribute of type list, so both type assertions hold and `err` is
nil on every path.  `rangeOld` and `rangeNew` are the orders in which the two
`range` statements visit `oldIDs` and `newIDs`. -/
def splitAssignmentsTargets (J : JSONLib) (rangeOld rangeNew : MapRange) (d : ResourceData) :
    SplitResult :=
  let oldState := d.GetChange_group.1
  let newState := d.GetChange_group.2
  let oldIDs := splitAssignmentsTargets.ids oldState
  let newIDs := splitAssignmentsTargets.ids newState
  { toRemove := (rangeOld.order oldIDs).filterMap (fun e =>
      if newIDs.contains e.1 then none
      else some { Id := e.1, PriorityPtr := none, Profile := .null })
    toAssign := (rangeNew.order newIDs).map (fun e =>
      splitAssignmentsTargets.assignment J e.1 e.2)
    err := none }

/-- The function `addGroupAssignments`. -/
def addGroupAssignments {W : Type}
    (add : W → String → String → ApplicationGroupAssignment → W × Option Response × Option GoError)
    (appID : String) : List ApplicationGroupAssignment → W → W × Option GoError
  | [], w => (w, none)
  | assignment :: rest, w =>
    match add w appID assignment.Id assignment with
    | (w1, _, some err) => (w1, some err)
    | (w1, _, none) => addGroupAssignments add appID rest w1

/-- The error `fmt.Errorf("could not delete assignment for group %s, to application %s: %w", id, appID, err)`. -/
def deleteGroupAssignments.Errorf (id appID : String) (err : GoError) : GoError :=
  .wrap ("could not delete assignment for group " ++ id ++ ", to application " ++ appID ++ ": "
    ++ err.Error) err

/-- The function `deleteGroupAssignments`. -/
def deleteGroupAssignments {W : Type}
    (delete : W → String → String → W × Option Response × Option GoError)
    (appID : String) : List ApplicationGroupAssignment → W → W × Option GoError
  | [], w => (w, none)
  | assignment :: rest, w =>
    match delete w appID assignment.Id with
    | (w1, _, some err) => (w1, some (deleteGroupAssignments.Errorf assignment.Id appID err))
    | (w1, _, none) => deleteGroupAssignments delete appID rest w1

/-- The function `responseErr` of `utils.go`. -/
def responseErr (resp : Option Response) (err : Option GoError) : Option GoError :=
  match err with
  | some e =>
    match resp with
    | some r => some (.new (e.Error ++ ", Status: " ++ r.Status))
    | none => some (.new e.Error)
  | none => none

/-- The function `suppressErrorOn404` of `utils.go`. -/
def suppressErrorOn404 (resp : Option Response) (err : Option GoError) : Option GoError :=
  match resp with
  | some r => if r.StatusCode = http.StatusNotFound then none else responseErr resp err
  | none => responseErr resp err

/-- The function `resourceAppGroupAssignmentsRead`: the record of calls, the
resource data and the diagnostics it returns. -/
def resourceAppGroupAssignmentsRead {σ : Type} (J : JSONLib) (S : SliceSorter) (T : Client σ)
    (w : World σ) (d : ResourceData) : World σ × ResourceData × Diagnostics :=
  let r := listApplicationGroupAssignments T w d.app_id
  match suppressErrorOn404 r.2.2.1 r.2.2.2 with
  | some err => (r.1, d, diag.Errorf ("failed to fetch group assignments: " ++ err.Error))
  | none =>
    match r.2.1 with
    | none => (r.1, d.SetId "", [])
    | some currentGroupAssignments =>
      if d.GetOk_group.2 then
        (r.1, d.Set_group (syncGroups J S d d.GetOk_group.1 currentGroupAssignments), [])
      else
        (r.1, d.Set_group (currentGroupAssignments.map (groupAssignmentToTFGroup J)), [])

/-- The function `resourceAppGroupAssignmentsCreate`, lines 86-97: the loop
over the assignments; the error of the first call that fails, if one does. -/
def resourceAppGroupAssignmentsCreate.loop {σ : Type} (T : Client σ) (appID : String) :
    List ApplicationGroupAssignment → World σ → World σ × Option GoError
  | [], w => (w, none)
  | assignment :: rest, w =>
    match T.CreateApplicationGroupAssignment w appID assignment.Id assignment with
    | (w1, _, some err) => (w1, some err)
    | (w1, _, none) => resourceAppGroupAssignmentsCreate.loop T appID rest w1

/-- The function `resourceAppGroupAssignmentsCreate`. -/
def resourceAppGroupAssignmentsCreate {σ : Type} (J : JSONLib) (S : SliceSorter) (T : Client σ)
    (w : World σ) (d : ResourceData) : World σ × ResourceData × Diagnostics :=
  let assignments := tfGroupsToGroupAssignments J d
  match resourceAppGroupAssignmentsCreate.loop T d.app_id assignments w with
  | (w1, some err) =>
    (w1, d, diag.Errorf ("failed to create application group assignment: " ++ err.Error))
  | (w1, none) => resourceAppGroupAssignmentsRead J S T w1 (d.SetId d.app_id)

/-- The function `resourceAppGroupAssignmentsUpdate`. -/
def resourceAppGroupAssignmentsUpdate {σ : Type} (J : JSONLib) (S : SliceSorter)
    (rangeOld rangeNew : MapRange) (T : Client σ) (w : World σ) (d : ResourceData) :
    World σ × ResourceData × Diagnostics :=
  let appID := d.app_id
  let split := splitAssignmentsTargets J rangeOld rangeNew d
  match split.err with
  | some err => (w, d, diag.Errorf ("failed to discern group assignment splits: " ++ err.Error))
  | none =>
    match deleteGroupAssignments T.DeleteApplicationGroupAssignment appID split.toRemove w with
    | (w1, some err) => (w1, d, diag.Errorf ("failed to delete group assignment: " ++ err.Error))
    | (w1, none) =>
      match addGroupAssignments T.CreateApplicationGroupAssignment appID split.toAssign w1 with
      | (w2, some err) =>
        (w2, d, diag.Errorf ("failed to add/update group assignment: " ++ err.Error))
      | (w2, none) => resourceAppGroupAssignmentsRead J S T w2 d

/-- The function `resourceAppGroupAssignmentsDelete`, lines 171-181: the loop
over the groups of the resource data. -/
def resourceAppGroupAssignmentsDelete.loop {σ : Type} (T : Client σ) (appID : String) :
    List TFGroup → World σ → World σ × Diagnostics
  | [], w => (w, [])
  | group :: rest, w =>
    let r := T.DeleteApplicationGroupAssignment w appID group.id
    match suppressErrorOn404 r.2.1 r.2.2 with
    | some err =>
      (r.1, diag.Errorf ("failed to delete application group assignment: " ++ err.Error))
    | none => resourceAppGroupAssignmentsDelete.loop T appID rest r.1

/-- The function `resourceAppGroupAssignmentsDelete`. -/
def resourceAppGroupAssignmentsDelete {σ : Type} (T : Client σ) (w : World σ)
    (d : ResourceData) : World σ × Diagnostics :=
  resourceAppGroupAssignmentsDelete.loop T d.app_id d.Get_group w

/-- The state of the external system after it has answered the
create-or-update calls for the assignments of `l`, in order. -/
def Client.afterCreates {σ : Type} (T : Client σ) (appID : String)
    (l : List ApplicationGroupAssignment) (s : σ) : σ :=
  l.foldl (fun s a => (T.create s appID a.Id a).1) s

/-- The state of the external system after it has answered the delete calls
for the groups `ids`, in order. -/
def Client.afterDeletes {σ : Type} (T : Client σ) (appID : String) (ids : List String) (s : σ) : σ :=
  ids.foldl (fun s id => (T.delete s appID id).1) s

/-- The payload merge in the words of the specification: every field of the
previous payload `P`, in place, overwritten with the field of the actual payload
`A` if `A` provides a non-null value for it. -/
def mergedPayload (P A : GoMap JSONValue) : GoMap JSONValue :=
  P.map (fun e =>
    match A.get? e.1 with
    | some v => if v.isNil then e else (e.1, v)
    | none => e)

/-- The function `errors.Unwrap`: the error that an error made with the verb
`%w` wraps, `nil` for any other error. -/
def errors.Unwrap : GoError → Option GoError
  | .new _ => none
  | .wrap _ cause => some cause

/-! ## Helpers of `utils.go` -/

/-- The function `unicode.IsLower` on the runes of ASCII, where the lower-case
letters are `a` to `z`. -/
def unicode.IsLower (r : Char) : Bool :=
  decide ('a'.toNat ≤ r.toNat ∧ r.toNat ≤ 'z'.toNat)

/-- The function `unicode.ToLower` on the runes of ASCII: the letters `A` to `Z`
are moved to `a` to `z`, every other rune is returned as it is. -/
def unicode.ToLower (r : Char) : Char :=
  if 'A'.toNat ≤ r.toNat ∧ r.toNat ≤ 'Z'.toNat then Char.ofNat (r.toNat + 32) else r

/-- The variables of the loop of `camelCaseToUnderscore`.  `a` is the slice
`a`.  The `range` statement reads the runes through the slice header it copied
before the first iteration: as long as every `append` so far fitted into the
capacity of that array, it reads what `a` holds now (`ranged` is `none`); from
the first `append` that had to move `a` to a new array it reads the array that
was left behind (`ranged` is `some` of it).  `spare` is the number of runes that
still fit into the array of the copied header. -/
structure camelCaseToUnderscore.State where
  a : List Char
  ranged : Option (List Char)
  spare : Nat

/-- The body of the loop of `camelCaseToUnderscore` at index `i`. -/
def camelCaseToUnderscore.body (i : Nat) (st : camelCaseToUnderscore.State) :
    camelCaseToUnderscore.State :=
  let r := (match st.ranged with
    | some old => old
    | none => st.a).getD i (Char.ofNat 0)
  if !unicode.IsLower r then
    -- a = append(a, 0)
    let a := st.a ++ [Char.ofNat 0]
    -- a[i] = unicode.ToLower(r)
    let a := a.set i (unicode.ToLower r)
    -- copy(a[i+1:], a[i:])
    let a := a.take (i + 1) ++ (a.drop i).take (a.length - (i + 1))
    -- a[i] = []rune("_")[0]
    { a := a.set i '_'
      ranged :=
        match st.ranged with
        | some old => some old
        | none => if st.spare = 0 then some st.a else none
      spare := st.spare - 1 }
  else st

/-- The function `camelCaseToUnderscore`.  `spare` is `cap(a) - len(a)` for the
slice `a := []rune(s)`, which the language leaves to the runtime. -/
def camelCaseToUnderscore (spare : Nat) (s : String) : String :=
  String.mk ((List.range s.data.length).foldl
    (fun st i => camelCaseToUnderscore.body i st)
    { a := s.data, ranged := none, spare := spare }).a

/-- The conversion the comment on `camelCaseToUnderscore` describes, for a
string of ASCII letters: every upper-case letter is replaced by an underscore
followed by its lower-case form, every other rune is kept. -/
def underscoreSeparated (s : String) : String :=
  String.mk (s.data.flatMap (fun r =>
    if 'A'.toNat ≤ r.toNat ∧ r.toNat ≤ 'Z'.toNat then ['_', Char.ofNat (r.toNat + 32)] else [r]))

/-- The call `json.Unmarshal([]byte(s), &m)` for `var m map[string]any`, a nil
map: an object makes a map and fills it (`some (some m)`), the literal `null`
leaves the map nil without error (`some none`), every other text is an error
(`none`). -/
def JSONLib.UnmarshalNilMap (J : JSONLib) (s : String) : Option (Option (GoMap JSONValue)) :=
  match J.Unmarshal s with
  | some (.object m) => some (some m)
  | some .null => some none
  | _ => none

mutual
/-- The function `reflect.DeepEqual` on two values that came out of
`encoding/json`: equal dynamic types and deeply equal contents.  Two `float64`
are compared with `==`, for which the two zeros are equal; slices are compared
item by item, maps by length and key by key. -/
def reflect.DeepEqual : JSONValue → JSONValue → Bool
  | .null, w => w.isNil
  | .bool b, w =>
    match w with
    | .bool c => b == c
    | _ => false
  | .number x, w =>
    match w with
    | .number y => x == y || ((x == "0" || x == "-0") && (y == "0" || y == "-0"))
    | _ => false
  | .string s, w =>
    match w with
    | .string t => s == t
    | _ => false
  | .array xs, w =>
    match w with
    | .array ys => reflect.DeepEqual.items xs ys
    | _ => false
  | .object m1, w =>
    match w with
    | .object m2 => m1.length == m2.length && reflect.DeepEqual.fields m1 m2
    | _ => false
/-- The items of two slices are deeply equal, one by one. -/
def reflect.DeepEqual.items : List JSONValue → List JSONValue → Bool
  | [], ys => ys.isEmpty
  | x :: xs, ys =>
    match ys with
    | y :: ys => reflect.DeepEqual x y && reflect.DeepEqual.items xs ys
    | [] => false
/-- Every key of the first map is a key of the second, with a deeply equal
value. -/
def reflect.DeepEqual.fields : List (String × JSONValue) → GoMap JSONValue → Bool
  | [], _ => true
  | (k, v) :: m1, m2 =>
    (match m2.get? k with
      | some w => reflect.DeepEqual v w
      | none => false) && reflect.DeepEqual.fields m1 m2
end

/-- The call `reflect.DeepEqual(oldObj, newObj)` on two `map[string]any`: both
nil, or both not nil, of the same length and with deeply equal values at the
same keys. -/
def reflect.DeepEqual.maps : Option (GoMap JSONValue) → Option (GoMap JSONValue) → Bool
  | none, none => true
  | some m1, some m2 => m1.length == m2.length && reflect.DeepEqual.fields m1 m2
  | _, _ => false

/-- The function `noChangeInObjectFromUnmarshaledJSON` of `utils.go`.  Its
arguments `k` and `d`, which it does not read, are left out. -/
def noChangeInObjectFromUnmarshaledJSON (J : JSONLib) (oldJSON newJSON : String) : Bool :=
  if newJSON = "" then true
  else
    match J.UnmarshalNilMap oldJSON with
    | none => false
    | some oldObj =>
      match J.UnmarshalNilMap newJSON with
      | none => false
      | some newObj => reflect.DeepEqual.maps oldObj newObj

/-- The function `contains` of `utils.go`. -/
def contains (s : List String) (e : String) : Bool :=
  s.any (fun a => a == e)

/-- The function `conditionalValidator` of `utils.go`.  Both loops return the
same error at the first element that fails their test, whichever element it
is. -/
def conditionalValidator (field typeValue : String) (require valid actual : List String) :
    Option GoError :=
  let explanation := "failed conditional validation for field \"" ++ field ++ "\" of type \""
    ++ typeValue ++ "\", it can contain " ++ String.intercalate ", " valid
  let explanation :=
    if require.length > 0 then
      explanation ++ " and must contain " ++ String.intercalate ", " require
    else explanation
  if require.any (fun val => !contains actual val) then
    some (.new (explanation ++ ", received " ++ String.intercalate ", " actual))
  else if actual.any (fun val => !contains valid val) then
    some (.new (explanation ++ ", received " ++ String.intercalate ", " actual))
  else none

/-- The function `Intersection` of `utils.go`; the three results in the order
`intersection`, `exclusiveOld`, `exclusiveNew`.  A lookup in a `map[string]bool`
gives `false` for a key that is not there. -/
def Intersection (old new : List String) : List String × List String × List String :=
  let oldElementMap : GoMap Bool := old.foldl (fun m o => m.set o true) []
  let newElementMap : GoMap Bool := new.foldl (fun m n => m.set n true) []
  let r := new.foldl (fun (acc : List String × List String) n =>
    if (oldElementMap.get? n).getD false then (acc.1 ++ [n], acc.2)
    else (acc.1, acc.2 ++ [n])) ([], [])
  let exclusiveOld := old.foldl (fun (acc : List String) o =>
    if !(newElementMap.get? o).getD false then acc ++ [o] else acc) []
  (r.1, exclusiveOld, r.2)

/-! ## The data source `okta_user` -/

/-- One element of the set `search` in its `map[string]interface{}` form.  The
SDK builds every element with one entry for each attribute of
`userSearchSchema`, an attribute that is not set reading as the empty string
and `comparison` as its default. -/
structure SearchFilter where
  name : String
  value : String
  comparison : String
  expression : String
deriving DecidableEq

/-- The part of `schema.ResourceData` that `getSearchCriteria` reads: the
elements of the set `search` in the order of `rawFilters.List()`, and the
attribute `compound_search_operator`. -/
structure UserSearchData where
  search : List SearchFilter
  compound_search_operator : String
deriving DecidableEq

/-- The function `getSearchCriteria`, lines 135-151: the body of the loop, the
clause of one filter. -/
def getSearchCriteria.filter (fmap : SearchFilter) : String :=
  if fmap.expression ≠ "" then fmap.expression
  else
    let filter := fmap.name ++ " " ++ fmap.comparison
    if fmap.value ≠ "" then filter ++ " \"" ++ fmap.value ++ "\"" else filter

/-- The function `getSearchCriteria` of `data_source_okta_user.go`. -/
def getSearchCriteria (d : UserSearchData) : String :=
  let filterList := d.search.map getSearchCriteria.filter
  let operator :=
    if d.compound_search_operator ≠ "" then " " ++ d.compound_search_operator ++ " "
    else " and "
  String.intercalate operator filterList

/-! ## Reference implementations of the two library interfaces

They are used to run the resource on concrete inputs.  The general theorems
do not depend on them. -/

/-- One step of insertion sort: `x` is put before the first element with a
larger key. -/
def insertionSort.insert (key : String → Int) (x : String) : List String → List String
  | [] => [x]
  | y :: ys => if key x < key y then x :: y :: ys else y :: insertionSort.insert key x ys

/-- Insertion sort by key, the algorithm `sort.Slice` runs on a slice of fewer
than twelve elements: each element in turn is moved left past the elements
with a strictly larger key. -/
def insertionSort (key : String → Int) (l : List String) : List String :=
  l.foldl (fun acc x => insertionSort.insert key x acc) []

namespace refJSON

/-- The text of a string literal: the quote and the backslash are escaped, as
are the line feed, the carriage return and the tab. -/
def quote (s : String) : String :=
  "\"" ++ String.join (s.data.map (fun c =>
    if c = '"' then "\\\"" else if c = '\\' then "\\\\" else if c = '\n' then "\\n"
    else if c = '\r' then "\\r" else if c = '\t' then "\\t" else String.singleton c)) ++ "\""

/-- Insert a rendered field so that keys stay in increasing order. -/
def insertField (e : String × String) : List (String × String) → List (String × String)
  | [] => [e]
  | f :: fs => if e.1.data < f.1.data then e :: f :: fs else f :: insertField e fs

mutual
/-- The rendering of a value: compact, the keys of an object in increasing order. -/
def render : JSONValue → String
  | .null => "null"
  | .bool b => if b then "true" else "false"
  | .number text => text
  | .string s => quote s
  | .array items => "[" ++ String.intercalate "," (renderItems items) ++ "]"
  | .object fields =>
    "\x7b" ++ String.intercalate ","
      (((renderFields fields).foldl (fun acc e => insertField e acc) []).map
        (fun e => quote e.1 ++ ":" ++ e.2)) ++ "\x7d"
/-- The renderings of the items of an array. -/
def renderItems : List JSONValue → List String
  | [] => []
  | v :: vs => render v :: renderItems vs
/-- The keys of an object with the renderings of their values. -/
def renderFields : List (String × JSONValue) → List (String × String)
  | [] => []
  | (k, v) :: fs => (k, render v) :: renderFields fs
end

/-- Drop leading white space. -/
def skipWs : List Char → List Char
  | [] => []
  | c :: cs => if c = ' ' ∨ c = '\n' ∨ c = '\t' ∨ c = '\r' then skipWs cs else c :: cs

/-- Read a string literal after its opening quote. -/
def readString : List Char → List Char → Option (String × List Char)
  | _, [] => none
  | acc, '"' :: cs => some (String.mk acc.reverse, cs)
  | _, ['\\'] => none
  | acc, '\\' :: c :: cs =>
    if c = '"' then readString ('"' :: acc) cs
    else if c = '\\' then readString ('\\' :: acc) cs
    else if c = '/' then readString ('/' :: acc) cs
    else if c = 'n' then readString ('\n' :: acc) cs
    else if c = 'r' then readString ('\r' :: acc) cs
    else if c = 't' then readString ('\t' :: acc) cs
    else none
  | acc, c :: cs => if c.toNat < 32 then none else readString (c :: acc) cs

/-- Read an integer literal of at most fifteen digits: `-?(0|[1-9][0-9]*)`, not
followed by a fraction or an exponent. -/
def readNumber (cs : List Char) : Option (String × List Char) :=
  let sign := cs.takeWhile (fun c => c = '-')
  let rest := cs.dropWhile (fun c => c = '-')
  let digits := rest.takeWhile Char.isDigit
  let after := rest.dropWhile Char.isDigit
  if sign.length ≤ 1 ∧ 1 ≤ digits.length ∧ digits.length ≤ 15
      ∧ (digits.head? ≠ some '0' ∨ digits.length = 1)
      ∧ after.head? ≠ some '.' ∧ after.head? ≠ some 'e' ∧ after.head? ≠ some 'E' then
    some (String.mk (sign ++ digits), after)
  else none

mutual
/-- Read one value. -/
def readValue : Nat → List Char → Option (JSONValue × List Char)
  | 0, _ => none
  | fuel + 1, cs =>
    match skipWs cs with
    | 'n' :: 'u' :: 'l' :: 'l' :: rest => some (.null, rest)
    | 't' :: 'r' :: 'u' :: 'e' :: rest => some (.bool true, rest)
    | 'f' :: 'a' :: 'l' :: 's' :: 'e' :: rest => some (.bool false, rest)
    | '"' :: rest =>
      match readString [] rest with
      | some (str, rest) => some (.string str, rest)
      | none => none
    | '[' :: rest =>
      match skipWs rest with
      | ']' :: rest => some (.array [], rest)
      | _ => readItems fuel [] rest
    | '\x7b' :: rest =>
      match skipWs rest with
      | '\x7d' :: rest => some (.object [], rest)
      | _ => readFields fuel [] rest
    | rest =>
      match readNumber rest with
      | some (text, rest) => some (.number text, rest)
      | none => none
/-- Read the items of an array up to its closing bracket. -/
def readItems : Nat → List JSONValue → List Char → Option (JSONValue × List Char)
  | 0, _, _ => none
  | fuel + 1, acc, cs =>
    match readValue fuel cs with
    | none => none
    | some (v, rest) =>
      match skipWs rest with
      | ',' :: rest => readItems fuel (v :: acc) rest
      | ']' :: rest => some (.array (v :: acc).reverse, rest)
      | _ => none
/-- Read the fields of an object up to its closing brace; of two fields with
the same key the later one stands. -/
def readFields : Nat → GoMap JSONValue → List Char → Option (JSONValue × List Char)
  | 0, _, _ => none
  | fuel + 1, acc, cs =>
    match skipWs cs with
    | '"' :: rest =>
      match readString [] rest with
      | none => none
      | some (k, rest) =>
        match skipWs rest with
        | ':' :: rest =>
          match readValue fuel rest with
          | none => none
          | some (v, rest) =>
            match skipWs rest with
            | ',' :: rest => readFields fuel (acc.set k v) rest
            | '\x7d' :: rest => some (.object (acc.set k v), rest)
            | _ => none
        | _ => none
    | _ => none
end

/-- Read a whole text: one value with nothing but white space after it. -/
def read (s : String) : Option JSONValue :=
  match readValue (s.length + 1) s.data with
  | some (v, rest) => if skipWs rest = [] then some v else none
  | none => none

end refJSON

/-- A codec for the fragment of JSON made of objects, arrays, strings of
printable characters, integers of at most fifteen digits, booleans and `null`.
On that fragment it reads and renders a text as `encoding/json` does; a text
outside the fragment is rejected. -/
def refJSON : JSONLib where
  Unmarshal := refJSON.read
  Marshal := refJSON.render

/-- The runtime ranges over a map in the order in which the keys were put in. -/
def rangeInOrder : MapRange where
  order := fun m => m
  perm := fun m => List.Perm.refl m

/-- The runtime ranges over a map in the opposite order. -/
def rangeReversed : MapRange where
  order := fun m => m.reverse
  perm := fun m => List.reverse_perm m

/-- A transport with a fixed answer for every group: `createErr` and
`deleteAnswer` give the answer of a create-or-update and of a delete by group
id, `listed` is what the list call returns.  It keeps no state. -/
def stubClient (createErr : String → Option GoError)
    (deleteAnswer : String → Option Response × Option GoError)
    (listed : Option (List ApplicationGroupAssignment)) : Client Unit where
  create := fun _ _ groupID _ => ((), none, createErr groupID)
  delete := fun _ _ groupID => ((), deleteAnswer groupID)
  list := fun _ _ => ((), listed, none, none)

/-- Insertion sort as an implementation of `sort.Slice`: its outcome is a
rearrangement of the input, no element is followed by one with a smaller key,
and it is computed from the keys of the elements alone. -/
def insertionSorter : SliceSorter where
  sortBy := insertionSort
  perm := fun key l => by
    have hins : ∀ (x : String) (acc : List String),
        (insertionSort.insert key x acc).Perm (x :: acc) := by
      intro x acc
      induction acc with
      | nil => exact List.Perm.refl _
      | cons y ys ih =>
        unfold insertionSort.insert
        by_cases h : key x < key y
        · rw [if_pos h]
        · rw [if_neg h]
          exact (List.Perm.cons y ih).trans (List.Perm.swap x y ys)
    have hfold : ∀ (l acc : List String),
        (l.foldl (fun acc x => insertionSort.insert key x acc) acc).Perm (acc ++ l) := by
      intro l
      induction l with
      | nil => intro acc; simp
      | cons x xs ih =>
        intro acc
        rw [List.foldl_cons]
        have hmid : (acc ++ x :: xs).Perm (x :: (acc ++ xs)) := List.perm_middle
        exact ((ih _).trans ((hins x acc).append_right xs)).trans (by simpa using hmid.symm)
    simpa [insertionSort] using hfold l []
  sorted := fun key l => by
    have hmem : ∀ (x z : String) (acc : List String),
        z ∈ insertionSort.insert key x acc → z = x ∨ z ∈ acc := by
      intro x z acc
      induction acc with
      | nil => intro hz; simpa [insertionSort.insert] using hz
      | cons y ys ih =>
        unfold insertionSort.insert
        by_cases h : key x < key y
        · rw [if_pos h]
          intro hz
          simpa using hz
        · rw [if_neg h]
          intro hz
          rcases List.mem_cons.mp hz with rfl | hz
          · exact Or.inr (List.mem_cons_self _ _)
          · rcases ih hz with h1 | h1
            · exact Or.inl h1
            · exact Or.inr (List.mem_cons_of_mem _ h1)
    have hins : ∀ (x : String) (acc : List String),
        acc.Pairwise (fun a b => key a ≤ key b) →
        (insertionSort.insert key x acc).Pairwise (fun a b => key a ≤ key b) := by
      intro x acc
      induction acc with
      | nil => intro _; simp [insertionSort.insert]
      | cons y ys ih =>
        intro hl
        unfold insertionSort.insert
        rw [List.pairwise_cons] at hl
        by_cases h : key x < key y
        · rw [if_pos h]
          refine List.Pairwise.cons ?_ (List.Pairwise.cons hl.1 hl.2)
          intro z hz
          rcases List.mem_cons.mp hz with rfl | hz
          · exact le_of_lt h
          · exact le_trans (le_of_lt h) (hl.1 z hz)
        · rw [if_neg h]
          refine List.Pairwise.cons ?_ (ih hl.2)
          intro z hz
          rcases hmem x z ys hz with rfl | hz2
          · exact not_lt.mp h
          · exact hl.1 z hz2
    have hfold : ∀ (l acc : List String), acc.Pairwise (fun a b => key a ≤ key b) →
        (l.foldl (fun acc x => insertionSort.insert key x acc) acc).Pairwise
          (fun a b => key a ≤ key b) := by
      intro l
      induction l with
      | nil => intro acc hacc; simpa using hacc
      | cons x xs ih =>
        intro acc hacc
        rw [List.foldl_cons]
        exact ih _ (hins x acc hacc)
    exact hfold l [] List.Pairwise.nil
  congr := fun key1 key2 l h => by
    have hmem : ∀ (x z : String) (acc : List String),
        z ∈ insertionSort.insert key2 x acc → z = x ∨ z ∈ acc := by
      intro x z acc
      induction acc with
      | nil => intro hz; simpa [insertionSort.insert] using hz
      | cons y ys ih =>
        unfold insertionSort.insert
        by_cases h : key2 x < key2 y
        · rw [if_pos h]
          intro hz
          simpa using hz
        · rw [if_neg h]
          intro hz
          rcases List.mem_cons.mp hz with rfl | hz
          · exact Or.inr (List.mem_cons_self _ _)
          · rcases ih hz with h1 | h1
            · exact Or.inl h1
            · exact Or.inr (List.mem_cons_of_mem _ h1)
    have hins : ∀ (x : String) (acc : List String), key1 x = key2 x →
        (∀ y ∈ acc, key1 y = key2 y) →
        insertionSort.insert key1 x acc = insertionSort.insert key2 x acc := by
      intro x acc hx
      induction acc with
      | nil => intro _; rfl
      | cons y ys ih =>
        intro hl
        unfold insertionSort.insert
        rw [hx, hl y (List.mem_cons_self y ys), ih (fun z hz => hl z (List.mem_cons_of_mem y hz))]
    have hfold : ∀ (l acc : List String), (∀ y ∈ acc, key1 y = key2 y) →
        (∀ y ∈ l, key1 y = key2 y) →
        l.foldl (fun acc x => insertionSort.insert key1 x acc) acc
          = l.foldl (fun acc x => insertionSort.insert key2 x acc) acc := by
      intro l
      induction l with
      | nil => intro acc _ _; rfl
      | cons x xs ih =>
        intro acc hacc hl
        rw [List.foldl_cons, List.foldl_cons, hins x acc (hl x (List.mem_cons_self x xs)) hacc]
        apply ih
        · intro y hy
          rcases hmem x y acc hy with rfl | hy2
          · exact hl _ (List.mem_cons_self _ xs)
          · exact hacc y hy2
        · exact fun y hy => hl y (List.mem_cons_of_mem x hy)
    exact hfold l [] (by simp) h

/-! ## Facts about Go maps -/

theorem GoMap.get?_cons {β : Type} (a : String) (b : β) (m : GoMap β) (k2 : String) :
    GoMap.get? ((a, b) :: m) k2 = if k2 = a then some b else GoMap.get? m k2 := by
  unfold GoMap.get?
  by_cases h : k2 = a
  · subst h; simp [List.lookup]
  · have hb : (k2 == a) = false := by simpa using h
    simp [List.lookup, hb, h]

theorem GoMap.not_mem_of_not_contains {β : Type} (m : GoMap β) (k : String)
    (h : ¬ m.contains k = true) : ∀ e ∈ m, ¬ e.1 = k := by
  induction m with
  | nil => simp
  | cons e m ih =>
    obtain ⟨a, b⟩ := e
    have hka : ¬ k = a := by
      intro hh
      apply h
      simp [GoMap.contains, GoMap.get?_cons, hh]
    have hm : ¬ GoMap.contains m k = true := by
      intro hh
      apply h
      simpa [GoMap.contains, GoMap.get?_cons, hka] using hh
    intro e he
    rcases List.mem_cons.mp he with rfl | he
    · exact fun hh => hka hh.symm
    · exact ih hm e he

theorem GoMap.get?_set {β : Type} (m : GoMap β) (k : String) (v : β) (k2 : String) :
    (m.set k v).get? k2 = if k2 = k then some v else m.get? k2 := by
  unfold GoMap.set
  by_cases hc : m.contains k = true
  · rw [if_pos hc]
    induction m with
    | nil => simp [GoMap.get?, GoMap.contains] at hc
    | cons e m ih =>
      obtain ⟨a, b⟩ := e
      rw [List.map_cons]
      by_cases ha : a = k
      · subst ha
        rw [if_pos rfl, GoMap.get?_cons, GoMap.get?_cons]
        by_cases hk : k2 = a
        · simp [hk]
        · simp only [if_neg hk]
          by_cases hm : GoMap.contains m a = true
          · rw [ih hm, if_neg hk]
          · have hmap : List.map (fun e : String × β => if e.1 = a then (a, v) else e) m = m := by
              have hn := GoMap.not_mem_of_not_contains m a hm
              conv_rhs => rw [← List.map_id m]
              apply List.map_congr_left
              intro e he
              simp [hn e he]
            rw [hmap]
      · rw [if_neg ha, GoMap.get?_cons, GoMap.get?_cons]
        have hm : GoMap.contains m k = true := by
          have hka : ¬ k = a := fun h => ha h.symm
          simpa [GoMap.contains, GoMap.get?_cons, hka] using hc
        rw [ih hm]
        by_cases hk : k2 = a
        · have : ¬ k2 = k := fun h => ha (hk ▸ h)
          simp [hk, ha]
        · simp [hk]
  · rw [if_neg hc]
    induction m with
    | nil =>
      show GoMap.get? [(k, v)] k2 = _
      rw [GoMap.get?_cons]
    | cons e m ih =>
      obtain ⟨a, b⟩ := e
      have hka : ¬ k = a := by
        intro h
        apply hc
        simp [GoMap.contains, GoMap.get?_cons, h]
      have hm : ¬ GoMap.contains m k = true := by
        intro h
        apply hc
        simpa [GoMap.contains, GoMap.get?_cons, hka] using h
      rw [List.cons_append, GoMap.get?_cons, GoMap.get?_cons, ih hm]
      by_cases hk : k2 = a
      · have : ¬ a = k := fun h => hka h.symm
        simp [hk, this]
      · simp [hk]

theorem GoMap.contains_set {β : Type} (m : GoMap β) (k : String) (v : β) (k2 : String) :
    (m.set k v).contains k2 = (decide (k2 = k) || m.contains k2) := by
  unfold GoMap.contains
  rw [GoMap.get?_set]
  by_cases h : k2 = k <;> simp [h]

theorem GoMap.keys_set_of_contains {β : Type} (m : GoMap β) (k : String) (v : β)
    (h : m.contains k = true) : (m.set k v).keys = m.keys := by
  unfold GoMap.set GoMap.keys
  rw [if_pos h, List.map_map]
  apply List.map_congr_left
  intro e _
  by_cases he : e.1 = k <;> simp [he]

/-! ## The ids of the view -/

theorem syncGroups.apiGroupsMap_fold_contains (l : List ApplicationGroupAssignment)
    (m : GoMap ApplicationGroupAssignment) (k : String) :
    (l.foldl (fun m assignment => m.set assignment.Id assignment) m).contains k
      = (m.contains k || decide (k ∈ l.map (fun a => a.Id))) := by
  induction l generalizing m with
  | nil => simp
  | cons a l ih =>
    rw [List.foldl_cons, ih, GoMap.contains_set]
    by_cases h1 : k = a.Id <;> by_cases h2 : m.contains k = true <;> simp [h1, h2]

theorem syncGroups.apiGroupsMap_fold_id (l : List ApplicationGroupAssignment)
    (m : GoMap ApplicationGroupAssignment)
    (hm : ∀ k a, m.get? k = some a → a.Id = k) :
    ∀ k a, (l.foldl (fun m assignment => m.set assignment.Id assignment) m).get? k = some a →
      a.Id = k := by
  induction l generalizing m with
  | nil => simpa using hm
  | cons b l ih =>
    rw [List.foldl_cons]
    apply ih
    intro k a h
    rw [GoMap.get?_set] at h
    by_cases hk : k = b.Id
    · rw [if_pos hk] at h
      cases h
      exact hk.symm
    · rw [if_neg hk] at h
      exact hm k a h

theorem syncGroups.apiGroupsMap_contains (l : List ApplicationGroupAssignment) (k : String) :
    (syncGroups.apiGroupsMap l).contains k = decide (k ∈ l.map (fun a => a.Id)) := by
  unfold syncGroups.apiGroupsMap
  rw [syncGroups.apiGroupsMap_fold_contains]
  simp [GoMap.contains, GoMap.get?]

theorem syncGroups.apiGroupsMap_id (l : List ApplicationGroupAssignment) (k : String)
    (a : ApplicationGroupAssignment) (h : (syncGroups.apiGroupsMap l).get? k = some a) :
    a.Id = k := by
  unfold syncGroups.apiGroupsMap at h
  refine syncGroups.apiGroupsMap_fold_id l [] ?_ k a h
  intro k a h
  simp [GoMap.get?] at h

theorem syncGroups_eq (J : JSONLib) (S : SliceSorter) (d : ResourceData) (tfGroups : List TFGroup)
    (groupAssignments : List ApplicationGroupAssignment) :
    syncGroups J S d tfGroups groupAssignments
      = syncGroups.firstPass J d tfGroups groupAssignments
        ++ syncGroups.secondPass J tfGroups groupAssignments := by
  unfold syncGroups
  simp only []
  split
  · split <;> rfl
  · rfl

theorem filterMap_ite_map {α : Type} (p : String → Prop) [DecidablePred p] (f : α → String)
    (l : List α) :
    l.filterMap (fun g => if p (f g) then some (f g) else none)
      = (l.map f).filter (fun id => decide (p id)) := by
  induction l with
  | nil => rfl
  | cons g l ih =>
    by_cases h : p (f g)
    · simp only [List.filterMap_cons, List.map_cons, List.filter_cons, if_pos h]
      rw [ih]
      simp [h]
    · simp only [List.filterMap_cons, List.map_cons, List.filter_cons, if_neg h]
      rw [ih]
      simp [h]

theorem syncGroups.firstPass_ids (J : JSONLib) (d : ResourceData) (tfGroups : List TFGroup)
    (groupAssignments : List ApplicationGroupAssignment) :
    (syncGroups.firstPass J d tfGroups groupAssignments).map (fun g => g.id)
      = (tfGroups.map (fun g => g.id)).filter
          (fun id => decide (id ∈ groupAssignments.map (fun a => a.Id))) := by
  unfold syncGroups.firstPass
  rw [List.map_filterMap]
  have hf : ∀ ig : Nat × TFGroup,
      Option.map (fun g : TFGroup => g.id)
        (match (syncGroups.apiGroupsMap groupAssignments).get? ig.2.id with
          | none => none
          | some apiAssignment =>
            some { id := apiAssignment.Id
                   profile := some (buildProfile J d (ig.1 : Int) (some apiAssignment))
                   priority :=
                     match apiAssignment.PriorityPtr with
                     | some p =>
                       if (syncGroups.configPriorities d tfGroups).contains ig.2.id then some p
                       else none
                     | none => none })
        = ((fun g : TFGroup =>
            if g.id ∈ groupAssignments.map (fun a => a.Id) then some g.id else none) ∘ Prod.snd) ig := by
    intro ig
    have hc := syncGroups.apiGroupsMap_contains groupAssignments ig.2.id
    cases hg : (syncGroups.apiGroupsMap groupAssignments).get? ig.2.id with
    | none =>
      simp only [GoMap.contains, hg, Option.isSome_none] at hc
      have hc2 : ¬ ig.2.id ∈ groupAssignments.map (fun a => a.Id) := by
        simpa using hc.symm
      simp only [Function.comp, Option.map_none', if_neg hc2]
    | some a =>
      simp only [GoMap.contains, hg, Option.isSome_some] at hc
      have hc2 : ig.2.id ∈ groupAssignments.map (fun a => a.Id) := by
        simpa using hc.symm
      have hid := syncGroups.apiGroupsMap_id groupAssignments ig.2.id a hg
      simp only [Function.comp, Option.map_some', if_pos hc2, hid]
  rw [List.filterMap_congr (fun ig _ => hf ig)]
  rw [← List.filterMap_map, List.enum_map_snd]
  exact filterMap_ite_map (fun id => id ∈ groupAssignments.map (fun a => a.Id)) (fun g => g.id) tfGroups

theorem syncGroups.secondPass_ids (J : JSONLib) (tfGroups : List TFGroup)
    (groupAssignments : List ApplicationGroupAssignment) :
    (syncGroups.secondPass J tfGroups groupAssignments).map (fun g => g.id)
      = (groupAssignments.map (fun a => a.Id)).filter
          (fun id => decide (id ∉ tfGroups.map (fun g => g.id))) := by
  unfold syncGroups.secondPass
  induction groupAssignments with
  | nil => rfl
  | cons a l ih =>
    by_cases h : a.Id ∈ tfGroups.map (fun g => g.id)
    · have h2 : (tfGroups.any fun group => decide (group.id = a.Id)) = true := by
        simpa using h
      simp only [List.filterMap_cons, h2, if_true, List.map_cons, List.filter_cons]
      simp [h]
      simpa using ih
    · have h2 : (tfGroups.any fun group => decide (group.id = a.Id)) = false := by
        simpa using h
      simp only [List.filterMap_cons, h2, List.map_cons, List.filter_cons]
      simp [h]
      simpa using ih

/-- C1: the ids of the view returned by `syncGroups` are the declared ids that
were fetched, in declaration order, followed by the fetched ids that were not
declared, in fetched order. -/
theorem syncGroups_ids (J : JSONLib) (S : SliceSorter) (d : ResourceData) (tfGroups : List TFGroup)
    (groupAssignments : List ApplicationGroupAssignment) :
    (syncGroups J S d tfGroups groupAssignments).map (fun g => g.id)
      = (tfGroups.map (fun g => g.id)).filter
          (fun id => decide (id ∈ groupAssignments.map (fun a => a.Id)))
        ++ (groupAssignments.map (fun a => a.Id)).filter
          (fun id => decide (id ∉ tfGroups.map (fun g => g.id))) := by
  rw [syncGroups_eq, List.map_append, syncGroups.firstPass_ids, syncGroups.secondPass_ids]

/-! ## Priorities: declared, sent and reported -/

/-- What `tfGroupsToGroupAssignments` sends for each declared group: the
declared id, and the declared priority unless it is omitted or is `0`. -/
theorem tfGroupsToGroupAssignments_sent (J : JSONLib) (d : ResourceData) :
    (tfGroupsToGroupAssignments J d).map (fun a => (a.Id, a.PriorityPtr))
      = d.group.map (fun g => (g.id, g.priority.bind (fun n => if n = 0 then none else some n))) := by
  unfold tfGroupsToGroupAssignments
  apply List.ext_getElem
  · simp [ResourceData.Get_group]
  · intro i h1 h2
    have hi : i < d.group.length := by simpa using h2
    have hg : d.group.get? i = some (d.group[i]) := by
      rw [List.get?_eq_getElem?]
      exact List.getElem?_eq_getElem hi
    simp only [List.getElem_map, List.getElem_range, ResourceData.Get_id, ResourceData.GetOk_priority,
      hg, int64Ptr]
    cases hp : (d.group[i]).priority with
    | none => simp
    | some n =>
      by_cases hn : n = 0
      · simp [hn]
      · simp [hn]

theorem syncGroups.configPriorities_fold_contains (d : ResourceData) (l : List (Nat × TFGroup))
    (m : GoMap Int) (k : String) :
    (l.foldl (fun m ig =>
        let r := d.GetOk_priority ig.1
        if r.2 then m.set ig.2.id r.1 else m) m).contains k
      = (m.contains k || l.any (fun ig => decide (ig.2.id = k) && (d.GetOk_priority ig.1).2)) := by
  induction l generalizing m with
  | nil => simp
  | cons ig l ih =>
    rw [List.foldl_cons, ih, List.any_cons]
    by_cases hok : (d.GetOk_priority ig.1).2 = true
    · simp only [hok, if_true, GoMap.contains_set, Bool.and_true]
      by_cases hk : k = ig.2.id
      · simp [hk]
      · have hk2 : ¬ ig.2.id = k := fun h => hk h.symm
        simp [hk, hk2]
    · simp [hok]

theorem syncGroups.configPriorities_contains_declared (d : ResourceData) (i : Nat)
    (g : GroupBlock) (hg : d.group.get? i = some g)
    (hnd : (d.group.map (fun b => b.id)).Nodup) :
    (syncGroups.configPriorities d d.Get_group).contains g.id = (d.GetOk_priority i).2 := by
  unfold syncGroups.configPriorities
  rw [syncGroups.configPriorities_fold_contains]
  have hgi : d.group[i]? = some g := by rw [← List.get?_eq_getElem?]; exact hg
  have hlt : i < d.group.length := by
    by_contra hcon
    rw [List.getElem?_eq_none (by omega)] at hgi
    cases hgi
  have hmem : (i, ({ id := g.id, priority := some (g.priority.getD 0), profile := some g.profile } : TFGroup))
      ∈ d.Get_group.enum := by
    rw [List.mk_mem_enum_iff_getElem?]
    simp [ResourceData.Get_group, hgi]
  cases hok : (d.GetOk_priority i).2 with
  | true =>
    simp only [GoMap.contains, GoMap.get?, List.lookup, Option.isSome_none, Bool.false_or,
      List.any_eq_true]
    exact ⟨_, hmem, by simp [hok]⟩
  | false =>
    simp only [GoMap.contains, GoMap.get?, List.lookup, Option.isSome_none, Bool.false_or]
    rw [List.any_eq_false]
    intro ig hig
    rw [List.mem_enum_iff_getElem?] at hig
    simp only [ResourceData.Get_group, List.getElem?_map, Option.map_eq_some'] at hig
    obtain ⟨b, hb, hbe⟩ := hig
    by_cases hid : ig.2.id = g.id
    · have hbid : b.id = g.id := by rw [← hbe] at hid; exact hid
      have hj : i = ig.1 := by
        apply List.getElem?_inj (by simpa using hlt) hnd
        simp [List.getElem?_map, hgi, hb, hbid]
      rw [← hj, hok]
      simp
    · simp [hid]

/-- What `syncGroups` reports for a declared group that was fetched, when the
declared ids are distinct: the fetched priority if a priority other than `0` was
declared, no priority if the priority was omitted or declared as `0`. -/
theorem syncGroups_matched_priority (J : JSONLib) (S : SliceSorter) (d : ResourceData)
    (groupAssignments : List ApplicationGroupAssignment) (i : Nat) (g : GroupBlock)
    (api : ApplicationGroupAssignment)
    (hg : d.group.get? i = some g) (hnd : (d.group.map (fun b => b.id)).Nodup)
    (hapi : (syncGroups.apiGroupsMap groupAssignments).get? g.id = some api) :
    ({ id := g.id
       priority := g.priority.bind (fun n => if n = 0 then none else api.PriorityPtr)
       profile := some (buildProfile J d (i : Int) (some api)) } : TFGroup)
      ∈ syncGroups J S d d.Get_group groupAssignments := by
  rw [syncGroups_eq]
  apply List.mem_append_left
  unfold syncGroups.firstPass
  rw [List.mem_filterMap]
  have hgi : d.group[i]? = some g := by rw [← List.get?_eq_getElem?]; exact hg
  refine ⟨(i, { id := g.id, priority := some (g.priority.getD 0), profile := some g.profile }), ?_, ?_⟩
  · rw [List.mk_mem_enum_iff_getElem?]
    simp [ResourceData.Get_group, hgi]
  · have hid := syncGroups.apiGroupsMap_id groupAssignments g.id api hapi
    simp only [hapi, syncGroups.configPriorities_contains_declared d i g hg hnd, hid]
    have hok : (d.GetOk_priority i).2 = (g.priority.bind (fun n => if n = 0 then none else some n)).isSome := by
      unfold ResourceData.GetOk_priority
      rw [hg]
      show (match g.priority with
        | some n => (n, n != 0)
        | none => ((0 : Int), false)).2 = _
      cases g.priority with
      | none => rfl
      | some n => by_cases hn : n = 0 <;> simp [hn]
    rw [hok]
    cases hp : g.priority with
    | none => cases api.PriorityPtr <;> simp
    | some n =>
      by_cases hn : n = 0
      · cases api.PriorityPtr <;> simp [hn]
      · cases api.PriorityPtr <;> simp [hn]

/-- The general fact at `group { id = "g2", priority = 7 }`, fetched with
priority `4`: the view reports `4`. -/
theorem syncGroups_matched_priority_witness :
    ({ id := "g2", priority := some 4, profile := some "\x7b\x7d" } : TFGroup)
      ∈ syncGroups refJSON insertionSorter
        { app_id := "app"
          group := [{ id := "g1", priority := some 0, profile := "\x7b\x7d" },
                    { id := "g2", priority := some 7, profile := "\x7b\x7d" }] }
        [{ id := "g1", priority := some 0, profile := some "\x7b\x7d" },
         { id := "g2", priority := some 7, profile := some "\x7b\x7d" }]
        [{ Id := "g1", PriorityPtr := some 3, Profile := .object [] },
         { Id := "g2", PriorityPtr := some 4, Profile := .object [] }] :=
  syncGroups_matched_priority refJSON insertionSorter
    { app_id := "app"
      group := [{ id := "g1", priority := some 0, profile := "\x7b\x7d" },
                { id := "g2", priority := some 7, profile := "\x7b\x7d" }] }
    [{ Id := "g1", PriorityPtr := some 3, Profile := .object [] },
     { Id := "g2", PriorityPtr := some 4, Profile := .object [] }]
    1 { id := "g2", priority := some 7, profile := "\x7b\x7d" }
    { Id := "g2", PriorityPtr := some 4, Profile := .object [] } rfl (by decide) rfl

/-- C4, at the declaration `group { id = "g1", priority = 0 }` next to
`group { id = "g2" }`: `tfGroupsToGroupAssignments` gives both assignments a nil
priority, so the declared `0` is sent as an unset priority. -/
theorem tfGroupsToGroupAssignments_priority_zero :
    (tfGroupsToGroupAssignments refJSON
        { app_id := "app"
          group := [{ id := "g1", priority := some 0, profile := "\x7b\x7d" },
                    { id := "g2", priority := none, profile := "\x7b\x7d" }] }).map
      (fun a => (a.Id, a.PriorityPtr))
      = [("g1", none), ("g2", none)] := by
  decide

/-- C3, at the declaration `group { id = "g1", priority = 0 }` with the fetched
assignment `g1` of priority `0`: the entry of `g1` in the view of `syncGroups`
has no priority. -/
theorem syncGroups_priority_zero :
    syncGroups refJSON insertionSorter
        { app_id := "app", group := [{ id := "g1", priority := some 0, profile := "\x7b\x7d" }] }
        [{ id := "g1", priority := some 0, profile := some "\x7b\x7d" }]
        [{ Id := "g1", PriorityPtr := some 0, Profile := .object [] }]
      = [{ id := "g1", priority := none, profile := some "\x7b\x7d" }] := by
  decide

/-- C2, at the declaration `group { id = "g1", priority = 0 }` next to
`group { id = "g2", priority = 7 }`, with the fetched priorities `3` and `4`:
the view reports `4` for `g2` and no priority for `g1`, whose priority was
declared. -/
theorem syncGroups_declared_zero_not_reported :
    syncGroups refJSON insertionSorter
        { app_id := "app"
          group := [{ id := "g1", priority := some 0, profile := "\x7b\x7d" },
                    { id := "g2", priority := some 7, profile := "\x7b\x7d" }] }
        [{ id := "g1", priority := some 0, profile := some "\x7b\x7d" },
         { id := "g2", priority := some 7, profile := some "\x7b\x7d" }]
        [{ Id := "g1", PriorityPtr := some 3, Profile := .object [] },
         { Id := "g2", PriorityPtr := some 4, Profile := .object [] }]
      = [{ id := "g1", priority := none, profile := some "\x7b\x7d" },
         { id := "g2", priority := some 4, profile := some "\x7b\x7d" }] := by
  decide

/-- C5: encoding an assignment with `groupAssignmentToTFGroup` and decoding the
entry as `splitAssignmentsTargets` does gives back the id and the priority
state: nil stays nil, a priority `n` stays `n`, `0` included. -/
theorem groupAssignment_priority_roundtrip (J : JSONLib) (a : ApplicationGroupAssignment) :
    (splitAssignmentsTargets.assignment J (groupAssignmentToTFGroup J a).id
        (groupAssignmentToTFGroup J a)).Id = a.Id
    ∧ (splitAssignmentsTargets.assignment J (groupAssignmentToTFGroup J a).id
        (groupAssignmentToTFGroup J a)).PriorityPtr = a.PriorityPtr := by
  refine ⟨rfl, ?_⟩
  unfold splitAssignmentsTargets.assignment groupAssignmentToTFGroup int64Ptr
  cases a.PriorityPtr <;> rfl

/-! ## The merged payload -/

theorem buildProfile.merge_keys (opm ap : GoMap JSONValue) :
    GoMap.keys (buildProfile.merge opm ap) = GoMap.keys opm := by
  unfold buildProfile.merge
  induction ap generalizing opm with
  | nil => rfl
  | cons kv ap ih =>
    rw [List.foldl_cons, ih]
    by_cases h1 : kv.2.isNil = true
    · rw [if_pos h1]
    · rw [if_neg h1]
      by_cases h2 : opm.contains kv.1 = true
      · rw [if_pos h2, GoMap.keys_set_of_contains _ _ _ h2]
      · rw [if_neg h2]

theorem buildProfile.merge_eq_self (opm ap : GoMap JSONValue)
    (h : ∀ kv ∈ ap, opm.contains kv.1 = true → kv.2.isNil = true) :
    buildProfile.merge opm ap = opm := by
  unfold buildProfile.merge
  induction ap with
  | nil => rfl
  | cons kv ap ih =>
    rw [List.foldl_cons]
    have hstep : (if kv.2.isNil = true then opm
        else if opm.contains kv.1 = true then opm.set kv.1 kv.2 else opm) = opm := by
      by_cases h1 : kv.2.isNil = true
      · rw [if_pos h1]
      · rw [if_neg h1]
        by_cases h2 : opm.contains kv.1 = true
        · exact absurd (h kv (List.mem_cons_self kv ap) h2) h1
        · rw [if_neg h2]
    rw [hstep]
    exact ih (fun e he => h e (List.mem_cons_of_mem kv he))

theorem buildProfile.merge_eq_mergedPayload (opm ap : GoMap JSONValue)
    (hap : (GoMap.keys ap).Nodup) :
    buildProfile.merge opm ap = mergedPayload opm ap := by
  unfold buildProfile.merge
  induction ap generalizing opm with
  | nil =>
    unfold mergedPayload
    simp [GoMap.get?]
  | cons kv ap ih =>
    obtain ⟨k, v⟩ := kv
    have hnd : (GoMap.keys ap).Nodup := (List.nodup_cons.mp hap).2
    have hk : GoMap.get? ap k = none := by
      have hnot : k ∉ GoMap.keys ap := (List.nodup_cons.mp hap).1
      unfold GoMap.get?
      rw [List.lookup_eq_none_iff]
      intro e he
      have : e.1 ≠ k := fun hh => hnot (hh ▸ List.mem_map_of_mem Prod.fst he)
      simpa using fun hh => this hh.symm
    rw [List.foldl_cons, ih _ hnd]
    show mergedPayload (if v.isNil = true then opm
        else if opm.contains k = true then opm.set k v else opm) ap = mergedPayload opm ((k, v) :: ap)
    by_cases h1 : v.isNil = true
    · rw [if_pos h1]
      unfold mergedPayload
      apply List.map_congr_left
      intro e _
      rw [GoMap.get?_cons]
      by_cases hek : e.1 = k
      · rw [if_pos hek, hek, hk]
        simp [h1]
      · rw [if_neg hek]
    · rw [if_neg h1]
      by_cases h2 : opm.contains k = true
      · rw [if_pos h2]
        unfold mergedPayload GoMap.set
        rw [if_pos h2, List.map_map]
        apply List.map_congr_left
        intro e _
        rw [GoMap.get?_cons]
        by_cases hek : e.1 = k
        · simp [Function.comp, hek, hk, h1]
        · simp [Function.comp, hek]
      · rw [if_neg h2]
        unfold mergedPayload
        apply List.map_congr_left
        intro e he
        have hek : ¬ e.1 = k := GoMap.not_mem_of_not_contains opm k h2 e he
        rw [GoMap.get?_cons, if_neg hek]

/-- C6: for a previous payload that is the object `P` and an actual payload that
is the object `A`, `buildProfile` returns the encoding of the object that has
the fields of `P`, each with the value of `A` when `A` has a non-null one and
with the value of `P` otherwise; the keys are those of `P`. -/
theorem buildProfile_object (J : JSONLib) (d : ResourceData) (i : Nat)
    (a : ApplicationGroupAssignment) (P A : GoMap JSONValue)
    (hP : J.Unmarshal (d.Get_profile i) = some (.object P))
    (hA : a.Profile = .object A) (hnd : (GoMap.keys A).Nodup) :
    buildProfile J d (i : Int) (some a) = J.Marshal (.object (mergedPayload P A))
    ∧ GoMap.keys (mergedPayload P A) = GoMap.keys P := by
  constructor
  · unfold buildProfile
    have hi : ¬ ((i : Int) < 0) := by omega
    simp only [hi, if_false, Int.toNat_ofNat, JSONLib.UnmarshalMap, hP, hA]
    rw [buildProfile.merge_eq_mergedPayload P A hnd]
  · rw [← buildProfile.merge_eq_mergedPayload P A hnd, buildProfile.merge_keys]

/-- C6, the instance of the specification: the previous payload `{"x":1}` and
the actual payload `{"x":2,"y":9}` give `{"x":2}`. -/
theorem buildProfile_object_witness :
    buildProfile refJSON
        { app_id := "app", group := [{ id := "g1", priority := none, profile := "\x7b\"x\":1\x7d" }] }
        ((0 : Nat) : Int)
        (some { Id := "g1", PriorityPtr := none
                Profile := .object [("x", .number "2"), ("y", .number "9")] })
      = "\x7b\"x\":2\x7d" :=
  (buildProfile_object refJSON
    { app_id := "app", group := [{ id := "g1", priority := none, profile := "\x7b\"x\":1\x7d" }] }
    0 { Id := "g1", PriorityPtr := none, Profile := .object [("x", .number "2"), ("y", .number "9")] }
    [("x", .number "1")] [("x", .number "2"), ("y", .number "9")] rfl rfl (by decide)).1.trans
    (by decide)

/-- C7, as stated, fails: with the previous payload `{"x":1}` and a fetched
assignment whose payload is nil, `buildProfile` returns the empty string, which
is not a document and so has neither the fields of the previous payload nor its
value. -/
theorem buildProfile_nil_payload_counterexample :
    refJSON.Unmarshal "\x7b\"x\":1\x7d" = some (.object [("x", .number "1")])
    ∧ buildProfile refJSON
        { app_id := "app", group := [{ id := "g1", priority := none, profile := "\x7b\"x\":1\x7d" }] }
        0 (some { Id := "g1", PriorityPtr := none, Profile := .null }) = ""
    ∧ refJSON.Unmarshal "" = none :=
  ⟨rfl, by decide, rfl⟩

/-- C7, amended: for a previous payload that is the object `P`, when the actual
payload is an object `A` the merged payload is the encoding of an object with
exactly the keys of `P`, and of `P` itself when `A` has no non-null value for a
field of `P`; when the actual payload is not an object (nil, a string, a number,
a boolean, an array) `buildProfile` returns the empty string. -/
theorem buildProfile_fields (J : JSONLib) (d : ResourceData) (i : Nat)
    (a : ApplicationGroupAssignment) (P : GoMap JSONValue)
    (hP : J.Unmarshal (d.Get_profile i) = some (.object P)) :
    (∀ A, a.Profile = .object A →
      ∃ Q, buildProfile J d (i : Int) (some a) = J.Marshal (.object Q)
        ∧ GoMap.keys Q = GoMap.keys P
        ∧ ((∀ kv ∈ A, P.contains kv.1 = true → kv.2.isNil = true) → Q = P))
    ∧ ((∀ A, a.Profile ≠ .object A) → buildProfile J d (i : Int) (some a) = "") := by
  have hi : ¬ ((i : Int) < 0) := by omega
  constructor
  · intro A hA
    refine ⟨buildProfile.merge P A, ?_, buildProfile.merge_keys P A, buildProfile.merge_eq_self P A⟩
    unfold buildProfile
    simp only [hi, if_false, Int.toNat_ofNat, JSONLib.UnmarshalMap, hP, hA]
  · intro hA
    unfold buildProfile
    cases hp : a.Profile with
    | object A => exact absurd hp (hA A)
    | null => simp only [hi, if_false, Int.toNat_ofNat, JSONLib.UnmarshalMap, hP]
    | bool b => simp only [hi, if_false, Int.toNat_ofNat, JSONLib.UnmarshalMap, hP]
    | number t => simp only [hi, if_false, Int.toNat_ofNat, JSONLib.UnmarshalMap, hP]
    | string t => simp only [hi, if_false, Int.toNat_ofNat, JSONLib.UnmarshalMap, hP]
    | array t => simp only [hi, if_false, Int.toNat_ofNat, JSONLib.UnmarshalMap, hP]

/-- C7, amended, at the previous payload `{"x":1}`: the actual payload
`{"x":null,"y":9}` leaves it as it is, and a nil actual payload gives the empty
string. -/
theorem buildProfile_fields_witness :
    buildProfile refJSON
        { app_id := "app", group := [{ id := "g1", priority := none, profile := "\x7b\"x\":1\x7d" }] }
        ((0 : Nat) : Int)
        (some { Id := "g1", PriorityPtr := none, Profile := .object [("x", .null), ("y", .number "9")] })
      = "\x7b\"x\":1\x7d"
    ∧ buildProfile refJSON
        { app_id := "app", group := [{ id := "g1", priority := none, profile := "\x7b\"x\":1\x7d" }] }
        ((0 : Nat) : Int)
        (some { Id := "g1", PriorityPtr := none, Profile := .null })
      = "" := by
  constructor
  · obtain ⟨Q, h1, _, h3⟩ := (buildProfile_fields refJSON
      { app_id := "app", group := [{ id := "g1", priority := none, profile := "\x7b\"x\":1\x7d" }] }
      0 { Id := "g1", PriorityPtr := none, Profile := .object [("x", .null), ("y", .number "9")] }
      [("x", .number "1")] rfl).1 [("x", .null), ("y", .number "9")] rfl
    have hQ : Q = [("x", .number "1")] := by
      apply h3
      intro kv hkv hc
      simp only [List.mem_cons, List.mem_singleton, List.not_mem_nil, or_false] at hkv
      rcases hkv with rfl | rfl
      · rfl
      · exact absurd hc (by decide)
    rw [h1, hQ]
    decide
  · exact (buildProfile_fields refJSON
      { app_id := "app", group := [{ id := "g1", priority := none, profile := "\x7b\"x\":1\x7d" }] }
      0 { Id := "g1", PriorityPtr := none, Profile := .null }
      [("x", .number "1")] rfl).2 (fun A h => by cases h)

/-! ## The check of the relative ordering -/

theorem validateRelativeOrdering.mem_configGroups (configOrder : List String)
    (configPriorities currentPriorities : GoMap Int) (g : String) :
    g ∈ validateRelativeOrdering.configGroups configOrder configPriorities currentPriorities
      ↔ g ∈ configOrder ∧ configPriorities.contains g = true ∧ currentPriorities.contains g = true := by
  unfold validateRelativeOrdering.configGroups
  simp [List.mem_filter]

theorem GoMap.contains_of_get? {β : Type} (m : GoMap β) (k : String) (v : β)
    (h : m.get? k = some v) : m.contains k = true := by
  simp [GoMap.contains, h]

theorem pairwise_pair_of_mem {α : Type} {R : α → α → Prop} {l : List α} (hl : l.Pairwise R)
    {a b : α} (ha : a ∈ l) (hb : b ∈ l) (hab : a ≠ b) : R a b ∨ R b a := by
  have hsym : l.Pairwise (fun x y => R x y ∨ R y x) := hl.imp (fun h => Or.inl h)
  exact hsym.forall (fun _ _ h => h.symm) ha hb hab

/-- C8: when two ids of `configOrder` have a declared and a confirmed priority,
the declared priorities in one strict order and the confirmed ones in the
opposite strict order, `validateRelativeOrdering` returns false. -/
theorem validateRelativeOrdering_detects (S : SliceSorter) (result : List TFGroup)
    (configOrder : List String) (configPriorities : GoMap Int) (a b : String) (pa pb ca cb : Int)
    (ha : a ∈ configOrder) (hb : b ∈ configOrder)
    (hpa : configPriorities.get? a = some pa) (hpb : configPriorities.get? b = some pb)
    (hca : (validateRelativeOrdering.currentPriorities result).get? a = some ca)
    (hcb : (validateRelativeOrdering.currentPriorities result).get? b = some cb)
    (hdecl : pa < pb) (hconf : cb < ca) :
    validateRelativeOrdering S result configOrder configPriorities = false := by
  unfold validateRelativeOrdering
  simp only [decide_eq_false_iff_not]
  intro heq
  have hab : a ≠ b := by
    intro h
    rw [h, hpb] at hpa
    cases hpa
    exact lt_irrefl _ hdecl
  have hmem : ∀ g, g ∈ configOrder → configPriorities.contains g = true →
      (validateRelativeOrdering.currentPriorities result).contains g = true →
      g ∈ S.sortBy (fun g => (configPriorities.get? g).getD 0)
        (validateRelativeOrdering.configGroups configOrder configPriorities
          (validateRelativeOrdering.currentPriorities result)) := by
    intro g h1 h2 h3
    exact (S.perm _ _).mem_iff.mpr
      ((validateRelativeOrdering.mem_configGroups _ _ _ g).mpr ⟨h1, h2, h3⟩)
  have ha2 := hmem a ha (GoMap.contains_of_get? _ _ _ hpa) (GoMap.contains_of_get? _ _ _ hca)
  have hb2 := hmem b hb (GoMap.contains_of_get? _ _ _ hpb) (GoMap.contains_of_get? _ _ _ hcb)
  have h1 := S.sorted (fun g => (configPriorities.get? g).getD 0)
    (validateRelativeOrdering.configGroups configOrder configPriorities
      (validateRelativeOrdering.currentPriorities result))
  have h2 := S.sorted (fun g => ((validateRelativeOrdering.currentPriorities result).get? g).getD 0)
    (S.sortBy (fun g => (configPriorities.get? g).getD 0)
      (validateRelativeOrdering.configGroups configOrder configPriorities
        (validateRelativeOrdering.currentPriorities result)))
  rw [← heq] at h2
  rcases pairwise_pair_of_mem (h1.and h2) ha2 hb2 hab with h | h
  · have := h.2
    simp only [hca, hcb, Option.getD_some] at this
    omega
  · have := h.1
    simp only [hpa, hpb, Option.getD_some] at this
    omega

/-- C8, the instance of the specification: declared `A:1, B:2`, confirmed
`A:5, B:1` is reported as a mismatch. -/
theorem validateRelativeOrdering_detects_witness :
    validateRelativeOrdering insertionSorter
      [{ id := "A", priority := some 5, profile := some "\x7b\x7d" },
       { id := "B", priority := some 1, profile := some "\x7b\x7d" }]
      ["A", "B"] [("A", 1), ("B", 2)] = false :=
  validateRelativeOrdering_detects insertionSorter
    [{ id := "A", priority := some 5, profile := some "\x7b\x7d" },
     { id := "B", priority := some 1, profile := some "\x7b\x7d" }]
    ["A", "B"] [("A", 1), ("B", 2)] "A" "B" 1 2 5 1
    (by decide) (by decide) (by decide) (by decide) (by decide) (by decide) (by decide) (by decide)

theorem eq_of_perm_of_strictly_sorted_by {α : Type} (key : α → Int) {l1 l2 : List α}
    (hp : l1.Perm l2) (h1 : l1.Pairwise (fun x y => key x < key y))
    (h2 : l2.Pairwise (fun x y => key x < key y)) : l1 = l2 := by
  haveI : IsAntisymm α (fun x y => key x < key y) :=
    ⟨fun _ _ hxy hyx => absurd hxy (not_lt_of_gt hyx)⟩
  exact List.eq_of_perm_of_sorted hp h1 h2

/-- C9: when the ids of `configOrder` are distinct, the ids that have a declared
and a confirmed priority have pairwise distinct declared priorities, and the
confirmed priorities are in the strict order of the declared ones,
`validateRelativeOrdering` returns true, whatever the confirmed values. -/
theorem validateRelativeOrdering_accepts (S : SliceSorter) (result : List TFGroup)
    (configOrder : List String) (configPriorities : GoMap Int)
    (hnd : configOrder.Nodup)
    (hdistinct : ∀ a ∈ configOrder, ∀ b ∈ configOrder, ∀ pa pb ca cb,
      configPriorities.get? a = some pa → configPriorities.get? b = some pb →
      (validateRelativeOrdering.currentPriorities result).get? a = some ca →
      (validateRelativeOrdering.currentPriorities result).get? b = some cb →
      a ≠ b → pa ≠ pb)
    (hmono : ∀ a ∈ configOrder, ∀ b ∈ configOrder, ∀ pa pb ca cb,
      configPriorities.get? a = some pa → configPriorities.get? b = some pb →
      (validateRelativeOrdering.currentPriorities result).get? a = some ca →
      (validateRelativeOrdering.currentPriorities result).get? b = some cb →
      pa < pb → ca < cb) :
    validateRelativeOrdering S result configOrder configPriorities = true := by
  unfold validateRelativeOrdering
  simp only [decide_eq_true_eq]
  generalize hcur : validateRelativeOrdering.currentPriorities result = cur at hdistinct hmono
  generalize hL : validateRelativeOrdering.configGroups configOrder configPriorities cur = L
  have hLnd : L.Nodup := by
    rw [← hL]
    exact hnd.filter _
  have hLmem : ∀ g ∈ L, g ∈ configOrder ∧ (∃ p, configPriorities.get? g = some p)
      ∧ (∃ c, cur.get? g = some c) := by
    intro g hg
    rw [← hL] at hg
    obtain ⟨h1, h2, h3⟩ := (validateRelativeOrdering.mem_configGroups _ _ _ g).mp hg
    exact ⟨h1, Option.isSome_iff_exists.mp h2, Option.isSome_iff_exists.mp h3⟩
  have hp1 := S.perm (fun g => (configPriorities.get? g).getD 0) L
  have hs1 := S.sorted (fun g => (configPriorities.get? g).getD 0) L
  generalize S.sortBy (fun g => (configPriorities.get? g).getD 0) L = L1 at hp1 hs1 ⊢
  have hp2 := S.perm (fun g => (cur.get? g).getD 0) L1
  have hs2 := S.sorted (fun g => (cur.get? g).getD 0) L1
  generalize S.sortBy (fun g => (cur.get? g).getD 0) L1 = L2 at hp2 hs2 ⊢
  have hL1nd : L1.Nodup := hp1.nodup_iff.mpr hLnd
  have hL2nd : L2.Nodup := hp2.nodup_iff.mpr hL1nd
  have hL1mem : ∀ g ∈ L1, g ∈ L := fun g hg => hp1.mem_iff.mp hg
  have hL2mem : ∀ g ∈ L2, g ∈ L := fun g hg => hL1mem g (hp2.mem_iff.mp hg)
  refine eq_of_perm_of_strictly_sorted_by (fun g => (configPriorities.get? g).getD 0) hp2.symm ?_ ?_
  · refine (hs1.and hL1nd).imp_of_mem ?_
    intro x y hx hy hxy
    obtain ⟨hxo, ⟨px, hpx⟩, ⟨cx, hcx⟩⟩ := hLmem x (hL1mem x hx)
    obtain ⟨hyo, ⟨py, hpy⟩, ⟨cy, hcy⟩⟩ := hLmem y (hL1mem y hy)
    have hne := hdistinct x hxo y hyo px py cx cy hpx hpy hcx hcy hxy.2
    have hle := hxy.1
    simp only [hpx, hpy, Option.getD_some] at hle ⊢
    omega
  · refine (hs2.and hL2nd).imp_of_mem ?_
    intro x y hx hy hxy
    obtain ⟨hxo, ⟨px, hpx⟩, ⟨cx, hcx⟩⟩ := hLmem x (hL2mem x hx)
    obtain ⟨hyo, ⟨py, hpy⟩, ⟨cy, hcy⟩⟩ := hLmem y (hL2mem y hy)
    have hne := hdistinct x hxo y hyo px py cx cy hpx hpy hcx hcy hxy.2
    have hle := hxy.1
    simp only [hcx, hcy, Option.getD_some] at hle
    simp only [hpx, hpy, Option.getD_some]
    by_contra hcon
    have hlt : py < px := by omega
    have := hmono y hyo x hxo py px cy cx hpy hpx hcy hcx hlt
    omega

/-- C9, the instance of the specification: declared `A:1, B:3, C:5`, confirmed
`A:1, B:2, C:3` passes. -/
theorem validateRelativeOrdering_accepts_witness :
    validateRelativeOrdering insertionSorter
      [{ id := "A", priority := some 1, profile := some "\x7b\x7d" },
       { id := "B", priority := some 2, profile := some "\x7b\x7d" },
       { id := "C", priority := some 3, profile := some "\x7b\x7d" }]
      ["A", "B", "C"] [("A", 1), ("B", 3), ("C", 5)] = true :=
  validateRelativeOrdering_accepts insertionSorter
    [{ id := "A", priority := some 1, profile := some "\x7b\x7d" },
     { id := "B", priority := some 2, profile := some "\x7b\x7d" },
     { id := "C", priority := some 3, profile := some "\x7b\x7d" }]
    ["A", "B", "C"] [("A", 1), ("B", 3), ("C", 5)] (by decide)
    (by
      intro a ha b hb pa pb ca cb hpa hpb _ _ hab
      simp only [List.mem_cons, List.mem_singleton, List.not_mem_nil, or_false] at ha hb
      rcases ha with rfl | rfl | rfl <;> rcases hb with rfl | rfl | rfl <;>
        first
        | exact absurd rfl hab
        | (simp [GoMap.get?, List.lookup] at hpa hpb; omega))
    (by
      intro a ha b hb pa pb ca cb hpa hpb hca hcb hlt
      simp only [List.mem_cons, List.mem_singleton, List.not_mem_nil, or_false] at ha hb
      have hcur : validateRelativeOrdering.currentPriorities
          [{ id := "A", priority := some 1, profile := some "\x7b\x7d" },
           { id := "B", priority := some 2, profile := some "\x7b\x7d" },
           { id := "C", priority := some 3, profile := some "\x7b\x7d" }]
          = [("A", 1), ("B", 2), ("C", 3)] := by decide
      rw [hcur] at hca hcb
      rcases ha with rfl | rfl | rfl <;> rcases hb with rfl | rfl | rfl <;>
        (simp [GoMap.get?, List.lookup] at hpa hpb hca hcb; omega))

theorem validateRelativeOrdering.currentPriorities_fold_congr (l : List TFGroup)
    (m1 m2 : GoMap Int) (k : String) (h : m1.get? k = m2.get? k) :
    (l.foldl (fun m group =>
        match group.priority with
        | some priority => m.set group.id priority
        | none => m) m1).get? k
      = (l.foldl (fun m group =>
        match group.priority with
        | some priority => m.set group.id priority
        | none => m) m2).get? k := by
  induction l generalizing m1 m2 with
  | nil => simpa using h
  | cons g l ih =>
    rw [List.foldl_cons, List.foldl_cons]
    apply ih
    cases g.priority with
    | none => exact h
    | some p =>
      show (m1.set g.id p).get? k = (m2.set g.id p).get? k
      rw [GoMap.get?_set, GoMap.get?_set, h]

theorem validateRelativeOrdering.currentPriorities_insert (l1 l2 : List TFGroup) (e : TFGroup)
    (k : String) (hk : k ≠ e.id) :
    (validateRelativeOrdering.currentPriorities (l1 ++ e :: l2)).get? k
      = (validateRelativeOrdering.currentPriorities (l1 ++ l2)).get? k := by
  unfold validateRelativeOrdering.currentPriorities
  rw [List.foldl_append, List.foldl_append, List.foldl_cons]
  apply validateRelativeOrdering.currentPriorities_fold_congr
  cases e.priority with
  | none => rfl
  | some p =>
    show (GoMap.set _ e.id p).get? k = _
    rw [GoMap.get?_set, if_neg hk]

theorem validateRelativeOrdering.currentPriorities_insert_unset (l1 l2 : List TFGroup)
    (e : TFGroup) (he : e.priority = none) :
    validateRelativeOrdering.currentPriorities (l1 ++ e :: l2)
      = validateRelativeOrdering.currentPriorities (l1 ++ l2) := by
  unfold validateRelativeOrdering.currentPriorities
  rw [List.foldl_append, List.foldl_append, List.foldl_cons, he]

theorem validateRelativeOrdering_congr (S : SliceSorter) (result1 result2 : List TFGroup)
    (configOrder : List String) (configPriorities : GoMap Int)
    (h : ∀ g, configPriorities.contains g = true →
      (validateRelativeOrdering.currentPriorities result1).get? g
        = (validateRelativeOrdering.currentPriorities result2).get? g) :
    validateRelativeOrdering S result1 configOrder configPriorities
      = validateRelativeOrdering S result2 configOrder configPriorities := by
  unfold validateRelativeOrdering
  have hL : validateRelativeOrdering.configGroups configOrder configPriorities
        (validateRelativeOrdering.currentPriorities result1)
      = validateRelativeOrdering.configGroups configOrder configPriorities
        (validateRelativeOrdering.currentPriorities result2) := by
    unfold validateRelativeOrdering.configGroups
    apply List.filter_congr
    intro g _
    by_cases hg : configPriorities.contains g = true
    · simp only [GoMap.contains, h g hg]
    · simp [hg]
  simp only [hL]
  have hkey : S.sortBy
        (fun g => ((validateRelativeOrdering.currentPriorities result1).get? g).getD 0)
        (S.sortBy (fun g => (configPriorities.get? g).getD 0)
          (validateRelativeOrdering.configGroups configOrder configPriorities
            (validateRelativeOrdering.currentPriorities result2)))
      = S.sortBy
        (fun g => ((validateRelativeOrdering.currentPriorities result2).get? g).getD 0)
        (S.sortBy (fun g => (configPriorities.get? g).getD 0)
          (validateRelativeOrdering.configGroups configOrder configPriorities
            (validateRelativeOrdering.currentPriorities result2))) := by
    apply S.congr
    intro x hx
    have hx2 := (S.perm _ _).mem_iff.mp hx
    have hx3 := ((validateRelativeOrdering.mem_configGroups _ _ _ x).mp hx2).2.1
    show Option.getD _ 0 = Option.getD _ 0
    rw [h x hx3]
  rw [hkey]

/-- C10: `validateRelativeOrdering` looks only at the ids of `configOrder` that
have a declared and a confirmed priority.  Putting into the view, at any place,
an entry whose id has no declared priority, or an entry without a priority,
does not change its result; and when fewer than two ids qualify the result is
true. -/
theorem validateRelativeOrdering_qualifying (S : SliceSorter) (configOrder : List String)
    (configPriorities : GoMap Int) :
    (∀ (l1 l2 : List TFGroup) (e : TFGroup), configPriorities.contains e.id = false →
      validateRelativeOrdering S (l1 ++ e :: l2) configOrder configPriorities
        = validateRelativeOrdering S (l1 ++ l2) configOrder configPriorities)
    ∧ (∀ (l1 l2 : List TFGroup) (e : TFGroup), e.priority = none →
      validateRelativeOrdering S (l1 ++ e :: l2) configOrder configPriorities
        = validateRelativeOrdering S (l1 ++ l2) configOrder configPriorities)
    ∧ (∀ result : List TFGroup,
      (validateRelativeOrdering.configGroups configOrder configPriorities
        (validateRelativeOrdering.currentPriorities result)).length < 2 →
      validateRelativeOrdering S result configOrder configPriorities = true) := by
  refine ⟨?_, ?_, ?_⟩
  · intro l1 l2 e he
    apply validateRelativeOrdering_congr
    intro g hg
    apply validateRelativeOrdering.currentPriorities_insert
    intro hge
    rw [hge, he] at hg
    cases hg
  · intro l1 l2 e he
    apply validateRelativeOrdering_congr
    intro g _
    rw [validateRelativeOrdering.currentPriorities_insert_unset l1 l2 e he]
  · intro result hlen
    unfold validateRelativeOrdering
    simp only [decide_eq_true_eq]
    generalize validateRelativeOrdering.configGroups configOrder configPriorities
      (validateRelativeOrdering.currentPriorities result) = L at hlen
    have hp1 := S.perm (fun g => (configPriorities.get? g).getD 0) L
    generalize S.sortBy (fun g => (configPriorities.get? g).getD 0) L = L1 at hp1 ⊢
    have hp2 := S.perm
      (fun g => ((validateRelativeOrdering.currentPriorities result).get? g).getD 0) L1
    generalize S.sortBy
      (fun g => ((validateRelativeOrdering.currentPriorities result).get? g).getD 0) L1 = L2
      at hp2 ⊢
    match L, hlen, hp1 with
    | [], _, hp1 =>
      have h1 : L1 = [] := List.perm_nil.mp hp1
      subst h1
      exact (List.perm_nil.mp hp2).symm
    | [x], _, hp1 =>
      have h1 : L1 = [x] := List.perm_singleton.mp hp1
      subst h1
      exact (List.perm_singleton.mp hp2).symm
    | _ :: _ :: _, hlen, _ =>
      exact absurd hlen (by simp)

/-- C10, at the view `A:5, B:1` with the declared priorities `A:1, B:2`: a drift
entry `D` with priority `0` and an entry `B` without priority leave the result
as it is, and with the single declared priority `A:1` the result is true. -/
theorem validateRelativeOrdering_qualifying_witness :
    validateRelativeOrdering insertionSorter
        ([{ id := "A", priority := some 5, profile := some "\x7b\x7d" },
          { id := "B", priority := some 1, profile := some "\x7b\x7d" }]
          ++ { id := "D", priority := some 0, profile := some "\x7b\x7d" } :: [])
        ["A", "B"] [("A", 1), ("B", 2)]
      = validateRelativeOrdering insertionSorter
        ([{ id := "A", priority := some 5, profile := some "\x7b\x7d" },
          { id := "B", priority := some 1, profile := some "\x7b\x7d" }] ++ [])
        ["A", "B"] [("A", 1), ("B", 2)]
    ∧ validateRelativeOrdering insertionSorter
        ([{ id := "A", priority := some 5, profile := some "\x7b\x7d" }]
          ++ { id := "B", priority := none, profile := some "\x7b\x7d" } ::
            [{ id := "B", priority := some 1, profile := some "\x7b\x7d" }])
        ["A", "B"] [("A", 1), ("B", 2)]
      = validateRelativeOrdering insertionSorter
        ([{ id := "A", priority := some 5, profile := some "\x7b\x7d" }]
          ++ [{ id := "B", priority := some 1, profile := some "\x7b\x7d" }])
        ["A", "B"] [("A", 1), ("B", 2)]
    ∧ validateRelativeOrdering insertionSorter
        [{ id := "A", priority := some 5, profile := some "\x7b\x7d" },
         { id := "B", priority := some 1, profile := some "\x7b\x7d" }]
        ["A", "B"] [("A", 1)] = true :=
  ⟨(validateRelativeOrdering_qualifying insertionSorter ["A", "B"] [("A", 1), ("B", 2)]).1
      _ _ _ (by decide),
    (validateRelativeOrdering_qualifying insertionSorter ["A", "B"] [("A", 1), ("B", 2)]).2.1
      _ _ _ rfl,
    (validateRelativeOrdering_qualifying insertionSorter ["A", "B"] [("A", 1)]).2.2
      _ (by decide)⟩

/-! ## The split of a change into removals and upserts -/

theorem GoMap.mem_keys_iff_contains {β : Type} (m : GoMap β) (k : String) :
    k ∈ GoMap.keys m ↔ m.contains k = true := by
  induction m with
  | nil => simp [GoMap.keys, GoMap.contains, GoMap.get?]
  | cons e m ih =>
    obtain ⟨a, b⟩ := e
    have hkeys : GoMap.keys ((a, b) :: m) = a :: GoMap.keys m := rfl
    rw [hkeys, List.mem_cons, ih]
    unfold GoMap.contains
    rw [GoMap.get?_cons]
    by_cases h : k = a
    · simp [h]
    · simp [h]

theorem GoMap.keys_set {β : Type} (m : GoMap β) (k : String) (v : β) :
    GoMap.keys (m.set k v) = if m.contains k = true then GoMap.keys m else GoMap.keys m ++ [k] := by
  by_cases h : m.contains k = true
  · rw [if_pos h, GoMap.keys_set_of_contains m k v h]
  · rw [if_neg h]
    unfold GoMap.set
    rw [if_neg h]
    simp [GoMap.keys]

theorem GoMap.nodup_keys_set {β : Type} (m : GoMap β) (k : String) (v : β)
    (h : (GoMap.keys m).Nodup) : (GoMap.keys (m.set k v)).Nodup := by
  rw [GoMap.keys_set]
  by_cases hc : m.contains k = true
  · rw [if_pos hc]
    exact h
  · rw [if_neg hc]
    have hk : k ∉ GoMap.keys m := fun hmem => hc ((GoMap.mem_keys_iff_contains m k).mp hmem)
    exact List.Nodup.append h (List.nodup_singleton k) (by
      intro x hx hx2
      rw [List.mem_singleton] at hx2
      exact hk (hx2 ▸ hx))

theorem splitAssignmentsTargets.ids_fold_nodup (l : List TFGroup) (m : GoMap TFGroup)
    (h : (GoMap.keys m).Nodup) :
    (GoMap.keys (l.foldl (fun m o => m.set o.id o) m)).Nodup := by
  induction l generalizing m with
  | nil => exact h
  | cons o l ih =>
    rw [List.foldl_cons]
    exact ih _ (GoMap.nodup_keys_set m o.id o h)

theorem splitAssignmentsTargets.ids_fold_contains (l : List TFGroup) (m : GoMap TFGroup)
    (k : String) :
    (l.foldl (fun m o => m.set o.id o) m).contains k
      = (m.contains k || decide (k ∈ l.map (fun o => o.id))) := by
  induction l generalizing m with
  | nil => simp
  | cons o l ih =>
    rw [List.foldl_cons, ih, GoMap.contains_set]
    by_cases h1 : k = o.id <;> by_cases h2 : m.contains k = true <;> simp [h1, h2]

theorem splitAssignmentsTargets.ids_nodup (l : List TFGroup) :
    (GoMap.keys (splitAssignmentsTargets.ids l)).Nodup :=
  splitAssignmentsTargets.ids_fold_nodup l [] List.nodup_nil

theorem splitAssignmentsTargets.ids_contains (l : List TFGroup) (k : String) :
    (splitAssignmentsTargets.ids l).contains k = decide (k ∈ l.map (fun o => o.id)) := by
  unfold splitAssignmentsTargets.ids
  rw [splitAssignmentsTargets.ids_fold_contains]
  simp [GoMap.contains, GoMap.get?]

theorem splitAssignmentsTargets.toRemove_ids (J : JSONLib) (rangeOld rangeNew : MapRange)
    (d : ResourceData) :
    (splitAssignmentsTargets J rangeOld rangeNew d).toRemove.map (fun a => a.Id)
      = ((rangeOld.order (splitAssignmentsTargets.ids d.GetChange_group.1)).map Prod.fst).filter
          (fun k => !(splitAssignmentsTargets.ids d.GetChange_group.2).contains k) := by
  unfold splitAssignmentsTargets
  simp only []
  generalize rangeOld.order (splitAssignmentsTargets.ids d.GetChange_group.1) = L
  induction L with
  | nil => rfl
  | cons e L ih =>
    by_cases h : (splitAssignmentsTargets.ids d.GetChange_group.2).contains e.1 = true
    · simp only [List.filterMap_cons, h, if_true, List.map_cons, List.filter_cons]
      simpa using ih
    · simp only [List.filterMap_cons, h, List.map_cons, List.filter_cons]
      simpa using ih

theorem ResourceData.GetChange_group_old_ids (d : ResourceData) :
    d.GetChange_group.1.map (fun o => o.id) = d.group_old.map (fun g => g.id) := by
  simp [ResourceData.GetChange_group, List.map_map, Function.comp]

theorem ResourceData.GetChange_group_new_ids (d : ResourceData) :
    d.GetChange_group.2.map (fun o => o.id) = d.group.map (fun g => g.id) := by
  simp [ResourceData.GetChange_group, ResourceData.Get_group, List.map_map, Function.comp]

/-- C11: the ids of `toRemove` are the ids of the old list that are not in the
new list, each once; every entry of `toRemove` has a nil priority and a nil
profile; and when the new list is empty, `toAssign` is empty and every old id
is in `toRemove`. -/
theorem splitAssignmentsTargets_toRemove (J : JSONLib) (rangeOld rangeNew : MapRange)
    (d : ResourceData) :
    ((splitAssignmentsTargets J rangeOld rangeNew d).toRemove.map (fun a => a.Id)).Nodup
    ∧ (∀ id, id ∈ (splitAssignmentsTargets J rangeOld rangeNew d).toRemove.map (fun a => a.Id)
        ↔ id ∈ d.group_old.map (fun g => g.id) ∧ id ∉ d.group.map (fun g => g.id))
    ∧ (∀ a ∈ (splitAssignmentsTargets J rangeOld rangeNew d).toRemove,
        a.PriorityPtr = none ∧ a.Profile = .null)
    ∧ (d.group = [] →
        (splitAssignmentsTargets J rangeOld rangeNew d).toAssign = []
        ∧ ∀ id ∈ d.group_old.map (fun g => g.id),
            id ∈ (splitAssignmentsTargets J rangeOld rangeNew d).toRemove.map (fun a => a.Id)) := by
  have hperm : ((rangeOld.order (splitAssignmentsTargets.ids d.GetChange_group.1)).map Prod.fst).Perm
      (GoMap.keys (splitAssignmentsTargets.ids d.GetChange_group.1)) :=
    (rangeOld.perm _).map Prod.fst
  have hmem : ∀ id, id ∈ (splitAssignmentsTargets J rangeOld rangeNew d).toRemove.map (fun a => a.Id)
      ↔ id ∈ d.group_old.map (fun g => g.id) ∧ id ∉ d.group.map (fun g => g.id) := by
    intro id
    rw [splitAssignmentsTargets.toRemove_ids, List.mem_filter, hperm.mem_iff,
      GoMap.mem_keys_iff_contains, splitAssignmentsTargets.ids_contains,
      splitAssignmentsTargets.ids_contains, ResourceData.GetChange_group_old_ids,
      ResourceData.GetChange_group_new_ids]
    simp
  refine ⟨?_, hmem, ?_, ?_⟩
  · rw [splitAssignmentsTargets.toRemove_ids]
    exact (hperm.nodup_iff.mpr (splitAssignmentsTargets.ids_nodup _)).filter _
  · intro a ha
    unfold splitAssignmentsTargets at ha
    simp only [List.mem_filterMap] at ha
    obtain ⟨e, _, he⟩ := ha
    by_cases h : (splitAssignmentsTargets.ids d.GetChange_group.2).contains e.1 = true
    · simp [h] at he
    · simp only [h] at he
      cases he
      exact ⟨rfl, rfl⟩
  · intro hnew
    constructor
    · unfold splitAssignmentsTargets
      have hempty : splitAssignmentsTargets.ids d.GetChange_group.2 = [] := by
        simp [ResourceData.GetChange_group, ResourceData.Get_group, hnew,
          splitAssignmentsTargets.ids]
      simp only [hempty]
      have := rangeNew.perm []
      rw [List.perm_nil.mp this]
      rfl
    · intro id hid
      rw [hmem]
      exact ⟨hid, by simp [hnew]⟩

/-- C11, at the change from the groups `g1, g2` to no group: `toAssign` is
empty and `g1` and `g2` are to be removed. -/
theorem splitAssignmentsTargets_toRemove_witness :
    (splitAssignmentsTargets refJSON rangeInOrder rangeReversed
        { app_id := "app",
          group := [],
          group_old := [{ id := "g1", priority := some 1, profile := "\x7b\x7d" },
                        { id := "g2", priority := none, profile := "\x7b\x7d" }] }).toAssign = []
    ∧ ∀ id ∈ ["g1", "g2"],
        id ∈ (splitAssignmentsTargets refJSON rangeInOrder rangeReversed
          { app_id := "app",
            group := [],
            group_old := [{ id := "g1", priority := some 1, profile := "\x7b\x7d" },
                          { id := "g2", priority := none, profile := "\x7b\x7d" }] }).toRemove.map
          (fun a => a.Id) :=
  (splitAssignmentsTargets_toRemove refJSON rangeInOrder rangeReversed
    { app_id := "app",
      group := [],
      group_old := [{ id := "g1", priority := some 1, profile := "\x7b\x7d" },
                    { id := "g2", priority := none, profile := "\x7b\x7d" }] }).2.2.2 rfl

theorem splitAssignmentsTargets.ids_fold_of_nodup (l : List TFGroup) (m : GoMap TFGroup)
    (hl : (l.map (fun o => o.id)).Nodup) (hm : ∀ o ∈ l, m.contains o.id = false) :
    l.foldl (fun m o => m.set o.id o) m = m ++ l.map (fun o => (o.id, o)) := by
  induction l generalizing m with
  | nil => simp
  | cons o l ih =>
    rw [List.foldl_cons]
    have ho : m.contains o.id = false := hm o (List.mem_cons_self o l)
    have hset : m.set o.id o = m ++ [(o.id, o)] := by
      unfold GoMap.set
      simp [ho]
    rw [List.map_cons, List.nodup_cons] at hl
    rw [hset, ih _ hl.2]
    · simp
    · intro x hx
      have hne : x.id ≠ o.id := by
        intro heq
        exact hl.1 (heq ▸ List.mem_map_of_mem (fun o => o.id) hx)
      rw [← hset, GoMap.contains_set, hm x (List.mem_cons_of_mem o hx)]
      simp [hne]

theorem splitAssignmentsTargets.ids_of_nodup (l : List TFGroup)
    (hl : (l.map (fun o => o.id)).Nodup) :
    splitAssignmentsTargets.ids l = l.map (fun o => (o.id, o)) := by
  unfold splitAssignmentsTargets.ids
  rw [splitAssignmentsTargets.ids_fold_of_nodup l [] hl (by simp [GoMap.contains, GoMap.get?])]
  simp

/-- What `splitAssignmentsTargets` puts into `toAssign` when the ids of the new
list are distinct: one assignment for each group, with the id of the group and
with its priority, an omitted priority being sent as `0`. -/
theorem splitAssignmentsTargets_toAssign_sent (J : JSONLib) (rangeOld rangeNew : MapRange)
    (d : ResourceData) (hnd : (d.group.map (fun g => g.id)).Nodup) :
    ((splitAssignmentsTargets J rangeOld rangeNew d).toAssign.map
        (fun a => (a.Id, a.PriorityPtr))).Perm
      (d.group.map (fun g => (g.id, some (g.priority.getD 0)))) := by
  unfold splitAssignmentsTargets
  simp only []
  have hnd2 : (d.GetChange_group.2.map (fun o => o.id)).Nodup := by
    rw [ResourceData.GetChange_group_new_ids]
    exact hnd
  rw [splitAssignmentsTargets.ids_of_nodup _ hnd2, List.map_map]
  refine ((rangeNew.perm _).map _).trans ?_
  rw [List.map_map]
  simp only [ResourceData.GetChange_group, ResourceData.Get_group, List.map_map]
  apply List.Perm.of_eq
  apply List.map_congr_left
  intro g _
  simp [Function.comp, splitAssignmentsTargets.assignment, int64Ptr]

/-- What `splitAssignmentsTargets` puts into `toRemove` when every id of the old
list is in the new list: nothing. -/
theorem splitAssignmentsTargets_toRemove_nil (J : JSONLib) (rangeOld rangeNew : MapRange)
    (d : ResourceData) (h : ∀ id ∈ d.group_old.map (fun g => g.id), id ∈ d.group.map (fun g => g.id)) :
    (splitAssignmentsTargets J rangeOld rangeNew d).toRemove = [] := by
  have hids := splitAssignmentsTargets.toRemove_ids J rangeOld rangeNew d
  have hnil : (splitAssignmentsTargets J rangeOld rangeNew d).toRemove.map (fun a => a.Id) = [] := by
    rw [hids, List.filter_eq_nil_iff]
    intro k hk
    have hk2 : k ∈ GoMap.keys (splitAssignmentsTargets.ids d.GetChange_group.1) :=
      ((rangeOld.perm _).map Prod.fst).mem_iff.mp hk
    rw [GoMap.mem_keys_iff_contains, splitAssignmentsTargets.ids_contains,
      ResourceData.GetChange_group_old_ids] at hk2
    have hk3 := h k (by simpa using hk2)
    rw [splitAssignmentsTargets.ids_contains, ResourceData.GetChange_group_new_ids]
    simpa using hk3
  exact List.map_eq_nil_iff.mp hnil

/-- C12, at the unchanged declaration `group { id = "g1" }` (priority omitted)
next to `group { id = "g2", priority = 5 }`: nothing is removed and both groups
are upserted, but the assignment of `g1` carries the priority `0`, not the
unset priority of its entry. -/
theorem splitAssignmentsTargets_unchanged_omitted_priority :
    (splitAssignmentsTargets refJSON rangeInOrder rangeInOrder
        { app_id := "app"
          group := [{ id := "g1", priority := none, profile := "\x7b\x7d" },
                    { id := "g2", priority := some 5, profile := "\x7b\x7d" }]
          group_old := [{ id := "g1", priority := none, profile := "\x7b\x7d" },
                        { id := "g2", priority := some 5, profile := "\x7b\x7d" }] }).toRemove.map
        (fun a => a.Id) = []
    ∧ (splitAssignmentsTargets refJSON rangeInOrder rangeInOrder
        { app_id := "app"
          group := [{ id := "g1", priority := none, profile := "\x7b\x7d" },
                    { id := "g2", priority := some 5, profile := "\x7b\x7d" }]
          group_old := [{ id := "g1", priority := none, profile := "\x7b\x7d" },
                        { id := "g2", priority := some 5, profile := "\x7b\x7d" }] }).toAssign.map
        (fun a => (a.Id, a.PriorityPtr)) = [("g1", some 0), ("g2", some 5)] := by
  decide

/-- C13, as stated, fails: on the same new list `g1, g2`, a run in which the
runtime ranges over `newIDs` in one order upserts `g1, g2`, a run in which it
ranges in the opposite order upserts `g2, g1`, which is not the declaration
order. -/
theorem splitAssignmentsTargets_order_counterexample :
    (splitAssignmentsTargets refJSON rangeInOrder rangeInOrder
        { app_id := "app"
          group := [{ id := "g1", priority := some 1, profile := "\x7b\x7d" },
                    { id := "g2", priority := some 2, profile := "\x7b\x7d" }] }).toAssign.map
        (fun a => a.Id) = ["g1", "g2"]
    ∧ (splitAssignmentsTargets refJSON rangeInOrder rangeReversed
        { app_id := "app"
          group := [{ id := "g1", priority := some 1, profile := "\x7b\x7d" },
                    { id := "g2", priority := some 2, profile := "\x7b\x7d" }] }).toAssign.map
        (fun a => a.Id) = ["g2", "g1"] := by
  decide

/-- C13, amended: the ids of `toAssign` come in the order in which the runtime
ranges over the map `newIDs`, whatever that order is; they are the ids of the
new list, each once. -/
theorem splitAssignmentsTargets_toAssign_order (J : JSONLib) (rangeOld rangeNew : MapRange)
    (d : ResourceData) :
    (splitAssignmentsTargets J rangeOld rangeNew d).toAssign.map (fun a => a.Id)
      = (rangeNew.order (splitAssignmentsTargets.ids d.GetChange_group.2)).map Prod.fst
    ∧ ((splitAssignmentsTargets J rangeOld rangeNew d).toAssign.map (fun a => a.Id)).Nodup
    ∧ (∀ id, id ∈ (splitAssignmentsTargets J rangeOld rangeNew d).toAssign.map (fun a => a.Id)
        ↔ id ∈ d.group.map (fun g => g.id)) := by
  have heq : (splitAssignmentsTargets J rangeOld rangeNew d).toAssign.map (fun a => a.Id)
      = (rangeNew.order (splitAssignmentsTargets.ids d.GetChange_group.2)).map Prod.fst := by
    unfold splitAssignmentsTargets
    simp only [List.map_map]
    apply List.map_congr_left
    intro e _
    rfl
  have hperm : ((rangeNew.order (splitAssignmentsTargets.ids d.GetChange_group.2)).map Prod.fst).Perm
      (GoMap.keys (splitAssignmentsTargets.ids d.GetChange_group.2)) :=
    (rangeNew.perm _).map Prod.fst
  refine ⟨heq, ?_, ?_⟩
  · rw [heq]
    exact hperm.nodup_iff.mpr (splitAssignmentsTargets.ids_nodup _)
  · intro id
    rw [heq, hperm.mem_iff, GoMap.mem_keys_iff_contains, splitAssignmentsTargets.ids_contains,
      ResourceData.GetChange_group_new_ids]
    simp

/-! ## The calls issued to the external system -/

theorem addGroupAssignments_cons_some {W : Type}
    (add : W → String → String → ApplicationGroupAssignment → W × Option Response × Option GoError)
    (appID : String) (a : ApplicationGroupAssignment) (rest : List ApplicationGroupAssignment)
    (w : W) (e : GoError) (h : (add w appID a.Id a).2.2 = some e) :
    addGroupAssignments add appID (a :: rest) w = ((add w appID a.Id a).1, some e) := by
  rw [addGroupAssignments]
  generalize add w appID a.Id a = r at h
  obtain ⟨w1, resp, err⟩ := r
  simp only at h
  subst h
  rfl

theorem addGroupAssignments_cons_none {W : Type}
    (add : W → String → String → ApplicationGroupAssignment → W × Option Response × Option GoError)
    (appID : String) (a : ApplicationGroupAssignment) (rest : List ApplicationGroupAssignment)
    (w : W) (h : (add w appID a.Id a).2.2 = none) :
    addGroupAssignments add appID (a :: rest) w
      = addGroupAssignments add appID rest (add w appID a.Id a).1 := by
  rw [addGroupAssignments]
  generalize add w appID a.Id a = r at h
  obtain ⟨w1, resp, err⟩ := r
  simp only at h
  subst h
  rfl

theorem deleteGroupAssignments_cons_some {W : Type}
    (delete : W → String → String → W × Option Response × Option GoError)
    (appID : String) (a : ApplicationGroupAssignment) (rest : List ApplicationGroupAssignment)
    (w : W) (e : GoError) (h : (delete w appID a.Id).2.2 = some e) :
    deleteGroupAssignments delete appID (a :: rest) w
      = ((delete w appID a.Id).1, some (deleteGroupAssignments.Errorf a.Id appID e)) := by
  rw [deleteGroupAssignments]
  generalize delete w appID a.Id = r at h
  obtain ⟨w1, resp, err⟩ := r
  simp only at h
  subst h
  rfl

theorem deleteGroupAssignments_cons_none {W : Type}
    (delete : W → String → String → W × Option Response × Option GoError)
    (appID : String) (a : ApplicationGroupAssignment) (rest : List ApplicationGroupAssignment)
    (w : W) (h : (delete w appID a.Id).2.2 = none) :
    deleteGroupAssignments delete appID (a :: rest) w
      = deleteGroupAssignments delete appID rest (delete w appID a.Id).1 := by
  rw [deleteGroupAssignments]
  generalize delete w appID a.Id = r at h
  obtain ⟨w1, resp, err⟩ := r
  simp only at h
  subst h
  rfl

theorem addGroupAssignments_log {σ : Type} (T : Client σ) (appID : String)
    (l : List ApplicationGroupAssignment) (w : World σ) :
    ∃ L : List CallRecord,
      (addGroupAssignments T.CreateApplicationGroupAssignment appID l w).1.calls = w.calls ++ L
      ∧ L.map (fun c => c.call)
          <+: l.map (fun a => Call.CreateApplicationGroupAssignment appID a.Id a)
      ∧ ((addGroupAssignments T.CreateApplicationGroupAssignment appID l w).2 = none →
          L.map (fun c => c.call) = l.map (fun a => Call.CreateApplicationGroupAssignment appID a.Id a)
          ∧ ∀ c ∈ L, c.err = none) := by
  induction l generalizing w with
  | nil => exact ⟨[], by simp [addGroupAssignments], List.prefix_refl _, fun _ => ⟨rfl, by simp⟩⟩
  | cons a rest ih =>
    cases h : (T.CreateApplicationGroupAssignment w appID a.Id a).2.2 with
    | some e =>
      rw [addGroupAssignments_cons_some _ appID a rest w e h]
      refine ⟨[{ call := .CreateApplicationGroupAssignment appID a.Id a
                 resp := (T.create w.state appID a.Id a).2.1
                 err := (T.create w.state appID a.Id a).2.2 }], rfl, ?_, ?_⟩
      · exact ⟨rest.map (fun a : ApplicationGroupAssignment =>
          Call.CreateApplicationGroupAssignment appID a.Id a), by simp⟩
      · intro hh
        cases hh
    | none =>
      rw [addGroupAssignments_cons_none _ appID a rest w h]
      obtain ⟨L, h1, h2, h3⟩ := ih (T.CreateApplicationGroupAssignment w appID a.Id a).1
      refine ⟨{ call := .CreateApplicationGroupAssignment appID a.Id a
                resp := (T.create w.state appID a.Id a).2.1
                err := (T.create w.state appID a.Id a).2.2 } :: L, ?_, ?_, ?_⟩
      · rw [h1]
        simp [Client.CreateApplicationGroupAssignment]
      · rw [List.map_cons, List.map_cons]
        exact (List.prefix_cons_inj _).mpr h2
      · intro hh
        obtain ⟨h4, h5⟩ := h3 hh
        refine ⟨by rw [List.map_cons, List.map_cons, h4], ?_⟩
        intro c hc
        rcases List.mem_cons.mp hc with rfl | hc
        · exact h
        · exact h5 c hc

theorem deleteGroupAssignments_log {σ : Type} (T : Client σ) (appID : String)
    (l : List ApplicationGroupAssignment) (w : World σ) :
    ∃ L : List CallRecord,
      (deleteGroupAssignments T.DeleteApplicationGroupAssignment appID l w).1.calls = w.calls ++ L
      ∧ L.map (fun c => c.call)
          <+: l.map (fun a => Call.DeleteApplicationGroupAssignment appID a.Id)
      ∧ ((deleteGroupAssignments T.DeleteApplicationGroupAssignment appID l w).2 = none →
          L.map (fun c => c.call) = l.map (fun a => Call.DeleteApplicationGroupAssignment appID a.Id)
          ∧ ∀ c ∈ L, c.err = none) := by
  induction l generalizing w with
  | nil => exact ⟨[], by simp [deleteGroupAssignments], List.prefix_refl _, fun _ => ⟨rfl, by simp⟩⟩
  | cons a rest ih =>
    cases h : (T.DeleteApplicationGroupAssignment w appID a.Id).2.2 with
    | some e =>
      rw [deleteGroupAssignments_cons_some _ appID a rest w e h]
      refine ⟨[{ call := .DeleteApplicationGroupAssignment appID a.Id
                 resp := (T.delete w.state appID a.Id).2.1
                 err := (T.delete w.state appID a.Id).2.2 }], rfl, ?_, ?_⟩
      · exact ⟨rest.map (fun a : ApplicationGroupAssignment =>
          Call.DeleteApplicationGroupAssignment appID a.Id), by simp⟩
      · intro hh
        cases hh
    | none =>
      rw [deleteGroupAssignments_cons_none _ appID a rest w h]
      obtain ⟨L, h1, h2, h3⟩ := ih (T.DeleteApplicationGroupAssignment w appID a.Id).1
      refine ⟨{ call := .DeleteApplicationGroupAssignment appID a.Id
                resp := (T.delete w.state appID a.Id).2.1
                err := (T.delete w.state appID a.Id).2.2 } :: L, ?_, ?_, ?_⟩
      · rw [h1]
        simp [Client.DeleteApplicationGroupAssignment]
      · rw [List.map_cons, List.map_cons]
        exact (List.prefix_cons_inj _).mpr h2
      · intro hh
        obtain ⟨h4, h5⟩ := h3 hh
        refine ⟨by rw [List.map_cons, List.map_cons, h4], ?_⟩
        intro c hc
        rcases List.mem_cons.mp hc with rfl | hc
        · exact h
        · exact h5 c hc

theorem resourceAppGroupAssignmentsRead_log {σ : Type} (J : JSONLib) (S : SliceSorter)
    (T : Client σ) (w : World σ) (d : ResourceData) :
    (resourceAppGroupAssignmentsRead J S T w d).1.calls
      = w.calls ++ [{ call := .listApplicationGroupAssignments d.app_id
                      resp := (T.list w.state d.app_id).2.2.1
                      err := (T.list w.state d.app_id).2.2.2 }] := by
  unfold resourceAppGroupAssignmentsRead
  simp only []
  split
  · rfl
  · split
    · rfl
    · split <;> rfl

theorem isDelete_of_mem_prefix (appID : String) (l : List ApplicationGroupAssignment)
    (L : List CallRecord)
    (h : L.map (fun c => c.call) <+: l.map (fun a => Call.DeleteApplicationGroupAssignment appID a.Id)) :
    ∀ c ∈ L, c.call.isDelete = true := by
  intro c hc
  have hmem : c.call ∈ l.map (fun a => Call.DeleteApplicationGroupAssignment appID a.Id) :=
    h.subset (List.mem_map_of_mem (fun c => c.call) hc)
  obtain ⟨a, _, ha⟩ := List.mem_map.mp hmem
  rw [← ha]
  rfl

theorem isCreate_of_mem_prefix (appID : String) (l : List ApplicationGroupAssignment)
    (L : List CallRecord)
    (h : L.map (fun c => c.call)
      <+: l.map (fun a => Call.CreateApplicationGroupAssignment appID a.Id a)) :
    ∀ c ∈ L, c.call.isCreate = true := by
  intro c hc
  have hmem : c.call ∈ l.map (fun a => Call.CreateApplicationGroupAssignment appID a.Id a) :=
    h.subset (List.mem_map_of_mem (fun c => c.call) hc)
  obtain ⟨a, _, ha⟩ := List.mem_map.mp hmem
  rw [← ha]
  rfl

/-- C14: the calls `resourceAppGroupAssignmentsUpdate` issues are delete calls
for `toRemove`, in order, then create-or-update calls for `toAssign`, in order,
then calls that are neither; a create-or-update call is issued only after every
delete call for `toRemove` was issued, and none is issued when a delete call
came back with an error. -/
theorem resourceAppGroupAssignmentsUpdate_deletes_first {σ : Type} (J : JSONLib)
    (S : SliceSorter) (rangeOld rangeNew : MapRange) (T : Client σ) (w : World σ)
    (d : ResourceData) :
    ∃ Ld La Lr : List CallRecord,
      (resourceAppGroupAssignmentsUpdate J S rangeOld rangeNew T w d).1.calls
        = w.calls ++ Ld ++ La ++ Lr
      ∧ Ld.map (fun c => c.call)
          <+: (splitAssignmentsTargets J rangeOld rangeNew d).toRemove.map
                (fun a => Call.DeleteApplicationGroupAssignment d.app_id a.Id)
      ∧ La.map (fun c => c.call)
          <+: (splitAssignmentsTargets J rangeOld rangeNew d).toAssign.map
                (fun a => Call.CreateApplicationGroupAssignment d.app_id a.Id a)
      ∧ (∀ c ∈ Ld, c.call.isDelete = true)
      ∧ (∀ c ∈ La, c.call.isCreate = true)
      ∧ (∀ c ∈ Lr, c.call.isDelete = false ∧ c.call.isCreate = false)
      ∧ (La ≠ [] → Ld.map (fun c => c.call)
          = (splitAssignmentsTargets J rangeOld rangeNew d).toRemove.map
              (fun a => Call.DeleteApplicationGroupAssignment d.app_id a.Id))
      ∧ ((∃ c ∈ Ld, c.err ≠ none) → La = []) := by
  obtain ⟨Ld, hd1, hd2, hd3⟩ := deleteGroupAssignments_log T d.app_id
    (splitAssignmentsTargets J rangeOld rangeNew d).toRemove w
  have herr : (splitAssignmentsTargets J rangeOld rangeNew d).err = none := rfl
  unfold resourceAppGroupAssignmentsUpdate
  simp only [herr]
  cases hdel : deleteGroupAssignments T.DeleteApplicationGroupAssignment d.app_id
      (splitAssignmentsTargets J rangeOld rangeNew d).toRemove w with
  | mk w1 e1 =>
    rw [hdel] at hd1 hd3
    cases e1 with
    | some e =>
      refine ⟨Ld, [], [], ?_, hd2, List.nil_prefix, isDelete_of_mem_prefix _ _ _ hd2, ?_, ?_, ?_, ?_⟩
      · simpa using hd1
      · simp
      · simp
      · intro h; exact absurd rfl h
      · intro _; rfl
    | none =>
      obtain ⟨hd4, hd5⟩ := hd3 rfl
      obtain ⟨La, ha1, ha2, ha3⟩ := addGroupAssignments_log T d.app_id
        (splitAssignmentsTargets J rangeOld rangeNew d).toAssign w1
      have hnofail : (∃ c ∈ Ld, c.err ≠ none) → La = [] := by
        rintro ⟨c, hc, hne⟩
        exact absurd (hd5 c hc) hne
      cases hadd : addGroupAssignments T.CreateApplicationGroupAssignment d.app_id
          (splitAssignmentsTargets J rangeOld rangeNew d).toAssign w1 with
      | mk w2 e2 =>
        rw [hadd] at ha1
        cases e2 with
        | some e =>
          refine ⟨Ld, La, [], ?_, hd2, ha2, isDelete_of_mem_prefix _ _ _ hd2,
            isCreate_of_mem_prefix _ _ _ ha2, ?_, fun _ => hd4, hnofail⟩
          · simp only [hadd, List.append_nil]
            simp only at ha1 hd1
            rw [ha1, hd1]
          · simp
        | none =>
          refine ⟨Ld, La, [{ call := .listApplicationGroupAssignments d.app_id
                             resp := (T.list w2.state d.app_id).2.2.1
                             err := (T.list w2.state d.app_id).2.2.2 }], ?_, hd2, ha2,
            isDelete_of_mem_prefix _ _ _ hd2, isCreate_of_mem_prefix _ _ _ ha2, ?_,
            fun _ => hd4, hnofail⟩
          · simp only [hadd]
            simp only at ha1 hd1
            rw [resourceAppGroupAssignmentsRead_log, ha1, hd1]
          · intro c hc
            rw [List.mem_singleton] at hc
            subst hc
            exact ⟨rfl, rfl⟩

theorem addGroupAssignments_first_failure {σ : Type} (T : Client σ) (appID : String)
    (l : List ApplicationGroupAssignment) (w : World σ) (k : Nat)
    (a : ApplicationGroupAssignment) (e : GoError)
    (hk : l.get? k = some a)
    (hok : ∀ j b, j < k → l.get? j = some b →
      (T.create (T.afterCreates appID (l.take j) w.state) appID b.Id b).2.2 = none)
    (hfail : (T.create (T.afterCreates appID (l.take k) w.state) appID a.Id a).2.2 = some e) :
    (addGroupAssignments T.CreateApplicationGroupAssignment appID l w).2 = some e
    ∧ (addGroupAssignments T.CreateApplicationGroupAssignment appID l w).1.calls.map (fun c => c.call)
      = w.calls.map (fun c => c.call)
        ++ (l.take (k + 1)).map (fun a => Call.CreateApplicationGroupAssignment appID a.Id a) := by
  induction l generalizing w k with
  | nil => simp at hk
  | cons a0 rest ih =>
    cases k with
    | zero =>
      have ha : a0 = a := by simpa using hk
      subst ha
      have h0 : (T.CreateApplicationGroupAssignment w appID a0.Id a0).2.2 = some e := hfail
      rw [addGroupAssignments_cons_some _ appID a0 rest w e h0]
      exact ⟨rfl, by simp [Client.CreateApplicationGroupAssignment]⟩
    | succ k =>
      have h0 : (T.CreateApplicationGroupAssignment w appID a0.Id a0).2.2 = none :=
        hok 0 a0 (by omega) rfl
      rw [addGroupAssignments_cons_none _ appID a0 rest w h0]
      have hk2 : rest.get? k = some a := by simpa using hk
      obtain ⟨h1, h2⟩ := ih (T.CreateApplicationGroupAssignment w appID a0.Id a0).1 k hk2
        (fun j b hj hb => hok (j + 1) b (by omega) (by simpa using hb)) hfail
      refine ⟨h1, ?_⟩
      rw [h2]
      simp [Client.CreateApplicationGroupAssignment]

theorem addGroupAssignments_no_failure {σ : Type} (T : Client σ) (appID : String)
    (l : List ApplicationGroupAssignment) (w : World σ)
    (hok : ∀ j b, l.get? j = some b →
      (T.create (T.afterCreates appID (l.take j) w.state) appID b.Id b).2.2 = none) :
    (addGroupAssignments T.CreateApplicationGroupAssignment appID l w).2 = none
    ∧ (addGroupAssignments T.CreateApplicationGroupAssignment appID l w).1.calls.map (fun c => c.call)
      = w.calls.map (fun c => c.call)
        ++ l.map (fun a => Call.CreateApplicationGroupAssignment appID a.Id a) := by
  induction l generalizing w with
  | nil => simp [addGroupAssignments]
  | cons a0 rest ih =>
    have h0 : (T.CreateApplicationGroupAssignment w appID a0.Id a0).2.2 = none := hok 0 a0 rfl
    rw [addGroupAssignments_cons_none _ appID a0 rest w h0]
    obtain ⟨h1, h2⟩ := ih (T.CreateApplicationGroupAssignment w appID a0.Id a0).1
      (fun j b hb => hok (j + 1) b (by simpa using hb))
    refine ⟨h1, ?_⟩
    rw [h2]
    simp [Client.CreateApplicationGroupAssignment]

theorem deleteGroupAssignments_first_failure {σ : Type} (T : Client σ) (appID : String)
    (l : List ApplicationGroupAssignment) (w : World σ) (k : Nat)
    (a : ApplicationGroupAssignment) (e : GoError)
    (hk : l.get? k = some a)
    (hok : ∀ j b, j < k → l.get? j = some b →
      (T.delete (T.afterDeletes appID ((l.take j).map (fun a => a.Id)) w.state) appID b.Id).2.2 = none)
    (hfail : (T.delete (T.afterDeletes appID ((l.take k).map (fun a => a.Id)) w.state)
      appID a.Id).2.2 = some e) :
    (deleteGroupAssignments T.DeleteApplicationGroupAssignment appID l w).2
      = some (deleteGroupAssignments.Errorf a.Id appID e)
    ∧ (deleteGroupAssignments T.DeleteApplicationGroupAssignment appID l w).1.calls.map
        (fun c => c.call)
      = w.calls.map (fun c => c.call)
        ++ (l.take (k + 1)).map (fun a => Call.DeleteApplicationGroupAssignment appID a.Id) := by
  induction l generalizing w k with
  | nil => simp at hk
  | cons a0 rest ih =>
    cases k with
    | zero =>
      have ha : a0 = a := by simpa using hk
      subst ha
      have h0 : (T.DeleteApplicationGroupAssignment w appID a0.Id).2.2 = some e := hfail
      rw [deleteGroupAssignments_cons_some _ appID a0 rest w e h0]
      exact ⟨rfl, by simp [Client.DeleteApplicationGroupAssignment]⟩
    | succ k =>
      have h0 : (T.DeleteApplicationGroupAssignment w appID a0.Id).2.2 = none :=
        hok 0 a0 (by omega) rfl
      rw [deleteGroupAssignments_cons_none _ appID a0 rest w h0]
      have hk2 : rest.get? k = some a := by simpa using hk
      obtain ⟨h1, h2⟩ := ih (T.DeleteApplicationGroupAssignment w appID a0.Id).1 k hk2
        (fun j b hj hb => hok (j + 1) b (by omega) (by simpa using hb)) hfail
      refine ⟨h1, ?_⟩
      rw [h2]
      simp [Client.DeleteApplicationGroupAssignment]

theorem deleteGroupAssignments_no_failure {σ : Type} (T : Client σ) (appID : String)
    (l : List ApplicationGroupAssignment) (w : World σ)
    (hok : ∀ j b, l.get? j = some b →
      (T.delete (T.afterDeletes appID ((l.take j).map (fun a => a.Id)) w.state) appID b.Id).2.2 = none) :
    (deleteGroupAssignments T.DeleteApplicationGroupAssignment appID l w).2 = none
    ∧ (deleteGroupAssignments T.DeleteApplicationGroupAssignment appID l w).1.calls.map
        (fun c => c.call)
      = w.calls.map (fun c => c.call)
        ++ l.map (fun a => Call.DeleteApplicationGroupAssignment appID a.Id) := by
  induction l generalizing w with
  | nil => simp [deleteGroupAssignments]
  | cons a0 rest ih =>
    have h0 : (T.DeleteApplicationGroupAssignment w appID a0.Id).2.2 = none := hok 0 a0 rfl
    rw [deleteGroupAssignments_cons_none _ appID a0 rest w h0]
    obtain ⟨h1, h2⟩ := ih (T.DeleteApplicationGroupAssignment w appID a0.Id).1
      (fun j b hb => hok (j + 1) b (by simpa using hb))
    refine ⟨h1, ?_⟩
    rw [h2]
    simp [Client.DeleteApplicationGroupAssignment]

/-- C15: when the call for the assignment at place `k` (counted from `0`) is the
first that comes back with an error, `addGroupAssignments` returns that error
and has issued the create-or-update calls for the assignments up to that place,
in list order, and no other; `deleteGroupAssignments` returns an error and has
issued the delete calls up to that place and no other; when no call comes back
with an error each of them returns nil and has issued one call for every
assignment, in list order. -/
theorem addGroupAssignments_deleteGroupAssignments_abort {σ : Type} (T : Client σ)
    (appID : String) (l : List ApplicationGroupAssignment) (w : World σ) :
    (∀ k a e, l.get? k = some a →
      (∀ j b, j < k → l.get? j = some b →
        (T.create (T.afterCreates appID (l.take j) w.state) appID b.Id b).2.2 = none) →
      (T.create (T.afterCreates appID (l.take k) w.state) appID a.Id a).2.2 = some e →
      (addGroupAssignments T.CreateApplicationGroupAssignment appID l w).2 = some e
      ∧ (addGroupAssignments T.CreateApplicationGroupAssignment appID l w).1.calls.map
          (fun c => c.call)
        = w.calls.map (fun c => c.call)
          ++ (l.take (k + 1)).map (fun a => Call.CreateApplicationGroupAssignment appID a.Id a))
    ∧ ((∀ j b, l.get? j = some b →
        (T.create (T.afterCreates appID (l.take j) w.state) appID b.Id b).2.2 = none) →
      (addGroupAssignments T.CreateApplicationGroupAssignment appID l w).2 = none
      ∧ (addGroupAssignments T.CreateApplicationGroupAssignment appID l w).1.calls.map
          (fun c => c.call)
        = w.calls.map (fun c => c.call)
          ++ l.map (fun a => Call.CreateApplicationGroupAssignment appID a.Id a))
    ∧ (∀ k a e, l.get? k = some a →
      (∀ j b, j < k → l.get? j = some b →
        (T.delete (T.afterDeletes appID ((l.take j).map (fun a => a.Id)) w.state)
          appID b.Id).2.2 = none) →
      (T.delete (T.afterDeletes appID ((l.take k).map (fun a => a.Id)) w.state)
        appID a.Id).2.2 = some e →
      (deleteGroupAssignments T.DeleteApplicationGroupAssignment appID l w).2
        = some (deleteGroupAssignments.Errorf a.Id appID e)
      ∧ (deleteGroupAssignments T.DeleteApplicationGroupAssignment appID l w).1.calls.map
          (fun c => c.call)
        = w.calls.map (fun c => c.call)
          ++ (l.take (k + 1)).map (fun a => Call.DeleteApplicationGroupAssignment appID a.Id))
    ∧ ((∀ j b, l.get? j = some b →
        (T.delete (T.afterDeletes appID ((l.take j).map (fun a => a.Id)) w.state)
          appID b.Id).2.2 = none) →
      (deleteGroupAssignments T.DeleteApplicationGroupAssignment appID l w).2 = none
      ∧ (deleteGroupAssignments T.DeleteApplicationGroupAssignment appID l w).1.calls.map
          (fun c => c.call)
        = w.calls.map (fun c => c.call)
          ++ l.map (fun a => Call.DeleteApplicationGroupAssignment appID a.Id)) :=
  ⟨fun k a e hk hok hfail => addGroupAssignments_first_failure T appID l w k a e hk hok hfail,
    fun hok => addGroupAssignments_no_failure T appID l w hok,
    fun k a e hk hok hfail => deleteGroupAssignments_first_failure T appID l w k a e hk hok hfail,
    fun hok => deleteGroupAssignments_no_failure T appID l w hok⟩

/-- C15, at three assignments `g1, g2, g3`: with a transport that fails on `g2`
both functions return an error after the second call; with a transport that
never fails both return nil. -/
theorem addGroupAssignments_deleteGroupAssignments_abort_witness :
    (addGroupAssignments
        (stubClient (fun g => if g = "g2" then some (.new "boom") else none)
          (fun g => if g = "g2" then (none, some (.new "boom")) else (none, none))
          none).CreateApplicationGroupAssignment "app"
        [{ Id := "g1", PriorityPtr := none, Profile := .null },
         { Id := "g2", PriorityPtr := none, Profile := .null },
         { Id := "g3", PriorityPtr := none, Profile := .null }]
        { state := (), calls := [] }).2 = some (.new "boom")
    ∧ (addGroupAssignments
        (stubClient (fun _ => none) (fun _ => (none, none)) none).CreateApplicationGroupAssignment
        "app"
        [{ Id := "g1", PriorityPtr := none, Profile := .null },
         { Id := "g2", PriorityPtr := none, Profile := .null },
         { Id := "g3", PriorityPtr := none, Profile := .null }]
        { state := (), calls := [] }).2 = none
    ∧ (deleteGroupAssignments
        (stubClient (fun g => if g = "g2" then some (.new "boom") else none)
          (fun g => if g = "g2" then (none, some (.new "boom")) else (none, none))
          none).DeleteApplicationGroupAssignment "app"
        [{ Id := "g1", PriorityPtr := none, Profile := .null },
         { Id := "g2", PriorityPtr := none, Profile := .null },
         { Id := "g3", PriorityPtr := none, Profile := .null }]
        { state := (), calls := [] }).2
      = some (deleteGroupAssignments.Errorf "g2" "app" (.new "boom"))
    ∧ (deleteGroupAssignments
        (stubClient (fun _ => none) (fun _ => (none, none)) none).DeleteApplicationGroupAssignment
        "app"
        [{ Id := "g1", PriorityPtr := none, Profile := .null },
         { Id := "g2", PriorityPtr := none, Profile := .null },
         { Id := "g3", PriorityPtr := none, Profile := .null }]
        { state := (), calls := [] }).2 = none :=
  ⟨((addGroupAssignments_deleteGroupAssignments_abort
      (stubClient (fun g => if g = "g2" then some (.new "boom") else none)
        (fun g => if g = "g2" then (none, some (.new "boom")) else (none, none)) none)
      "app"
      [{ Id := "g1", PriorityPtr := none, Profile := .null },
       { Id := "g2", PriorityPtr := none, Profile := .null },
       { Id := "g3", PriorityPtr := none, Profile := .null }]
      { state := (), calls := [] }).1 1
      { Id := "g2", PriorityPtr := none, Profile := .null } (.new "boom") rfl
      (by
        intro j b hj hb
        have hj0 : j = 0 := by omega
        subst hj0
        simp only [List.get?_cons_zero, Option.some.injEq] at hb
        subst hb
        rfl)
      rfl).1,
    ((addGroupAssignments_deleteGroupAssignments_abort
      (stubClient (fun _ => none) (fun _ => (none, none)) none)
      "app"
      [{ Id := "g1", PriorityPtr := none, Profile := .null },
       { Id := "g2", PriorityPtr := none, Profile := .null },
       { Id := "g3", PriorityPtr := none, Profile := .null }]
      { state := (), calls := [] }).2.1
      (fun _ _ _ => rfl)).1,
    ((addGroupAssignments_deleteGroupAssignments_abort
      (stubClient (fun g => if g = "g2" then some (.new "boom") else none)
        (fun g => if g = "g2" then (none, some (.new "boom")) else (none, none)) none)
      "app"
      [{ Id := "g1", PriorityPtr := none, Profile := .null },
       { Id := "g2", PriorityPtr := none, Profile := .null },
       { Id := "g3", PriorityPtr := none, Profile := .null }]
      { state := (), calls := [] }).2.2.1 1
      { Id := "g2", PriorityPtr := none, Profile := .null } (.new "boom") rfl
      (by
        intro j b hj hb
        have hj0 : j = 0 := by omega
        subst hj0
        simp only [List.get?_cons_zero, Option.some.injEq] at hb
        subst hb
        rfl)
      rfl).1,
    ((addGroupAssignments_deleteGroupAssignments_abort
      (stubClient (fun _ => none) (fun _ => (none, none)) none)
      "app"
      [{ Id := "g1", PriorityPtr := none, Profile := .null },
       { Id := "g2", PriorityPtr := none, Profile := .null },
       { Id := "g3", PriorityPtr := none, Profile := .null }]
      { state := (), calls := [] }).2.2.2
      (fun _ _ _ => rfl)).1⟩

/-- C16, at the upsert of `g1, g2, g3`: whether the transport fails on `g2` or
on `g3` with the error `boom`, `addGroupAssignments` returns that error as it
is and `resourceAppGroupAssignmentsUpdate` reports the same diagnostic, in which
the id of the failing group does not occur. -/
theorem addGroupAssignments_error_without_target :
    (addGroupAssignments
        (stubClient (fun g => if g = "g2" then some (.new "boom") else none)
          (fun _ => (none, none)) (some [])).CreateApplicationGroupAssignment "app"
        [{ Id := "g1", PriorityPtr := none, Profile := .null },
         { Id := "g2", PriorityPtr := none, Profile := .null },
         { Id := "g3", PriorityPtr := none, Profile := .null }]
        { state := (), calls := [] }).2 = some (.new "boom")
    ∧ (resourceAppGroupAssignmentsUpdate refJSON insertionSorter rangeInOrder rangeInOrder
        (stubClient (fun g => if g = "g2" then some (.new "boom") else none)
          (fun _ => (none, none)) (some []))
        { state := (), calls := [] }
        { app_id := "app"
          group := [{ id := "g1", priority := none, profile := "\x7b\x7d" },
                    { id := "g2", priority := none, profile := "\x7b\x7d" },
                    { id := "g3", priority := none, profile := "\x7b\x7d" }] }).2.2
      = [{ severity := .Error, Summary := "failed to add/update group assignment: boom" }]
    ∧ (resourceAppGroupAssignmentsUpdate refJSON insertionSorter rangeInOrder rangeInOrder
        (stubClient (fun g => if g = "g3" then some (.new "boom") else none)
          (fun _ => (none, none)) (some []))
        { state := (), calls := [] }
        { app_id := "app"
          group := [{ id := "g1", priority := none, profile := "\x7b\x7d" },
                    { id := "g2", priority := none, profile := "\x7b\x7d" },
                    { id := "g3", priority := none, profile := "\x7b\x7d" }] }).2.2
      = [{ severity := .Error, Summary := "failed to add/update group assignment: boom" }]
    ∧ ¬ ("g2".data <:+: "failed to add/update group assignment: boom".data) := by
  refine ⟨by decide, by decide, by decide, by decide⟩

/-- C17, at the removal of `g1, g2` when the transport answers the delete of
`g1` with the status 404 and an error: `deleteGroupAssignments` returns an
error after that one call and `resourceAppGroupAssignmentsUpdate` reports it,
`g2` is not deleted; `resourceAppGroupAssignmentsDelete`, on the same answers,
deletes both and reports nothing. -/
theorem deleteGroupAssignments_not_found_aborts :
    (deleteGroupAssignments
        (stubClient (fun _ => none)
          (fun g => if g = "g1" then (some { StatusCode := 404, Status := "404 Not Found" },
            some (.new "the API returned an error: Not found")) else (none, none))
          (some [])).DeleteApplicationGroupAssignment "app"
        [{ Id := "g1", PriorityPtr := none, Profile := .null },
         { Id := "g2", PriorityPtr := none, Profile := .null }]
        { state := (), calls := [] }).2
      = some (deleteGroupAssignments.Errorf "g1" "app" (.new "the API returned an error: Not found"))
    ∧ (resourceAppGroupAssignmentsUpdate refJSON insertionSorter rangeInOrder rangeInOrder
        (stubClient (fun _ => none)
          (fun g => if g = "g1" then (some { StatusCode := 404, Status := "404 Not Found" },
            some (.new "the API returned an error: Not found")) else (none, none))
          (some []))
        { state := (), calls := [] }
        { app_id := "app"
          group := []
          group_old := [{ id := "g1", priority := none, profile := "\x7b\x7d" },
                        { id := "g2", priority := none, profile := "\x7b\x7d" }] }).1.calls.map (fun c => c.call.groupID) = [some "g1"]
    ∧ (resourceAppGroupAssignmentsUpdate refJSON insertionSorter rangeInOrder rangeInOrder
        (stubClient (fun _ => none)
          (fun g => if g = "g1" then (some { StatusCode := 404, Status := "404 Not Found" },
            some (.new "the API returned an error: Not found")) else (none, none))
          (some []))
        { state := (), calls := [] }
        { app_id := "app"
          group := []
          group_old := [{ id := "g1", priority := none, profile := "\x7b\x7d" },
                        { id := "g2", priority := none, profile := "\x7b\x7d" }] }).2.2
      = [{ severity := .Error
           Summary := "failed to delete group assignment: could not delete assignment for group g1, to application app: the API returned an error: Not found" }]
    ∧ (resourceAppGroupAssignmentsDelete
        (stubClient (fun _ => none)
          (fun g => if g = "g1" then (some { StatusCode := 404, Status := "404 Not Found" },
            some (.new "the API returned an error: Not found")) else (none, none))
          (some []))
        { state := (), calls := [] }
        { app_id := "app"
          group := [{ id := "g1", priority := none, profile := "\x7b\x7d" },
                    { id := "g2", priority := none, profile := "\x7b\x7d" }] }).1.calls.map (fun c => c.call.groupID) = [some "g1", some "g2"]
    ∧ (resourceAppGroupAssignmentsDelete
        (stubClient (fun _ => none)
          (fun g => if g = "g1" then (some { StatusCode := 404, Status := "404 Not Found" },
            some (.new "the API returned an error: Not found")) else (none, none))
          (some []))
        { state := (), calls := [] }
        { app_id := "app"
          group := [{ id := "g1", priority := none, profile := "\x7b\x7d" },
                    { id := "g2", priority := none, profile := "\x7b\x7d" }] }).2 = [] := by
  refine ⟨by decide, by decide, by decide, by decide, by decide⟩

/-! ## The removal of the resource -/

theorem suppressErrorOn404_eq_none_iff (resp : Option Response) (err : Option GoError) :
    suppressErrorOn404 resp err = none
      ↔ (∃ r, resp = some r ∧ r.StatusCode = http.StatusNotFound) ∨ err = none := by
  unfold suppressErrorOn404 responseErr
  cases resp with
  | none =>
    cases err with
    | none => simp
    | some e => simp
  | some r =>
    by_cases h : r.StatusCode = http.StatusNotFound
    · simp [h]
    · cases err with
      | none => simp [h]
      | some e => simp [h]

theorem resourceAppGroupAssignmentsDelete.loop_first_failure {σ : Type} (T : Client σ)
    (appID : String) (l : List TFGroup) (w : World σ) (k : Nat) (g : TFGroup) (err : GoError)
    (hk : l.get? k = some g)
    (hok : ∀ j b, j < k → l.get? j = some b →
      suppressErrorOn404
        (T.delete (T.afterDeletes appID ((l.take j).map (fun g => g.id)) w.state) appID b.id).2.1
        (T.delete (T.afterDeletes appID ((l.take j).map (fun g => g.id)) w.state) appID b.id).2.2
        = none)
    (hfail : suppressErrorOn404
        (T.delete (T.afterDeletes appID ((l.take k).map (fun g => g.id)) w.state) appID g.id).2.1
        (T.delete (T.afterDeletes appID ((l.take k).map (fun g => g.id)) w.state) appID g.id).2.2
        = some err) :
    (resourceAppGroupAssignmentsDelete.loop T appID l w).2
      = diag.Errorf ("failed to delete application group assignment: " ++ err.Error)
    ∧ (resourceAppGroupAssignmentsDelete.loop T appID l w).1.calls.map (fun c => c.call)
      = w.calls.map (fun c => c.call)
        ++ (l.take (k + 1)).map (fun g => Call.DeleteApplicationGroupAssignment appID g.id) := by
  induction l generalizing w k with
  | nil => simp at hk
  | cons g0 rest ih =>
    cases k with
    | zero =>
      have hg : g0 = g := by simpa using hk
      subst hg
      have h0 : suppressErrorOn404 (T.DeleteApplicationGroupAssignment w appID g0.id).2.1
          (T.DeleteApplicationGroupAssignment w appID g0.id).2.2 = some err := hfail
      rw [resourceAppGroupAssignmentsDelete.loop]
      simp only [h0]
      exact ⟨trivial, by simp [Client.DeleteApplicationGroupAssignment]⟩
    | succ k =>
      have h0 : suppressErrorOn404 (T.DeleteApplicationGroupAssignment w appID g0.id).2.1
          (T.DeleteApplicationGroupAssignment w appID g0.id).2.2 = none :=
        hok 0 g0 (by omega) rfl
      rw [resourceAppGroupAssignmentsDelete.loop]
      simp only [h0]
      have hk2 : rest.get? k = some g := by simpa using hk
      obtain ⟨h1, h2⟩ := ih (T.DeleteApplicationGroupAssignment w appID g0.id).1 k hk2
        (fun j b hj hb => hok (j + 1) b (by omega) (by simpa using hb)) hfail
      refine ⟨h1, ?_⟩
      rw [h2]
      simp [Client.DeleteApplicationGroupAssignment]

theorem resourceAppGroupAssignmentsDelete.loop_no_failure {σ : Type} (T : Client σ)
    (appID : String) (l : List TFGroup) (w : World σ)
    (hok : ∀ j b, l.get? j = some b →
      suppressErrorOn404
        (T.delete (T.afterDeletes appID ((l.take j).map (fun g => g.id)) w.state) appID b.id).2.1
        (T.delete (T.afterDeletes appID ((l.take j).map (fun g => g.id)) w.state) appID b.id).2.2
        = none) :
    (resourceAppGroupAssignmentsDelete.loop T appID l w).2 = []
    ∧ (resourceAppGroupAssignmentsDelete.loop T appID l w).1.calls.map (fun c => c.call)
      = w.calls.map (fun c => c.call)
        ++ l.map (fun g => Call.DeleteApplicationGroupAssignment appID g.id) := by
  induction l generalizing w with
  | nil => simp [resourceAppGroupAssignmentsDelete.loop]
  | cons g0 rest ih =>
    have h0 : suppressErrorOn404 (T.DeleteApplicationGroupAssignment w appID g0.id).2.1
        (T.DeleteApplicationGroupAssignment w appID g0.id).2.2 = none := hok 0 g0 rfl
    rw [resourceAppGroupAssignmentsDelete.loop]
    simp only [h0]
    obtain ⟨h1, h2⟩ := ih (T.DeleteApplicationGroupAssignment w appID g0.id).1
      (fun j b hb => hok (j + 1) b (by simpa using hb))
    refine ⟨h1, ?_⟩
    rw [h2]
    simp [Client.DeleteApplicationGroupAssignment]

/-- C18: `suppressErrorOn404` returns nil for a response of status 404 whatever
the error; `resourceAppGroupAssignmentsDelete` issues the delete calls of the
groups in the order of the list; when the call at place `k` (counted from `0`)
is the first to come back with an error and a status other than 404 (or no
response), it returns an error diagnostic and has issued the calls up to that
place and no other; and when every call comes back with the status 404 or
without error, it returns no diagnostic and has issued one call for every
group. -/
theorem resourceAppGroupAssignmentsDelete_suppresses_404 {σ : Type} (T : Client σ)
    (w : World σ) (d : ResourceData) :
    (∀ (r : Response) (err : Option GoError), r.StatusCode = http.StatusNotFound →
      suppressErrorOn404 (some r) err = none)
    ∧ (∀ k g e, d.Get_group.get? k = some g →
      (∀ j b, j < k → d.Get_group.get? j = some b →
        (∃ r, (T.delete (T.afterDeletes d.app_id ((d.Get_group.take j).map (fun g => g.id)) w.state)
            d.app_id b.id).2.1 = some r ∧ r.StatusCode = http.StatusNotFound)
        ∨ (T.delete (T.afterDeletes d.app_id ((d.Get_group.take j).map (fun g => g.id)) w.state)
            d.app_id b.id).2.2 = none) →
      (T.delete (T.afterDeletes d.app_id ((d.Get_group.take k).map (fun g => g.id)) w.state)
          d.app_id g.id).2.2 = some e →
      (∀ r, (T.delete (T.afterDeletes d.app_id ((d.Get_group.take k).map (fun g => g.id)) w.state)
          d.app_id g.id).2.1 = some r → r.StatusCode ≠ http.StatusNotFound) →
      (∃ err, responseErr (T.delete (T.afterDeletes d.app_id ((d.Get_group.take k).map (fun g => g.id)) w.state)
          d.app_id g.id).2.1 (some e) = some err
        ∧ (resourceAppGroupAssignmentsDelete T w d).2
          = diag.Errorf ("failed to delete application group assignment: " ++ err.Error))
      ∧ (resourceAppGroupAssignmentsDelete T w d).1.calls.map (fun c => c.call)
        = w.calls.map (fun c => c.call)
          ++ (d.Get_group.take (k + 1)).map
              (fun g => Call.DeleteApplicationGroupAssignment d.app_id g.id))
    ∧ ((∀ j b, d.Get_group.get? j = some b →
        (∃ r, (T.delete (T.afterDeletes d.app_id ((d.Get_group.take j).map (fun g => g.id)) w.state)
            d.app_id b.id).2.1 = some r ∧ r.StatusCode = http.StatusNotFound)
        ∨ (T.delete (T.afterDeletes d.app_id ((d.Get_group.take j).map (fun g => g.id)) w.state)
            d.app_id b.id).2.2 = none) →
      (resourceAppGroupAssignmentsDelete T w d).2 = []
      ∧ (resourceAppGroupAssignmentsDelete T w d).1.calls.map (fun c => c.call)
        = w.calls.map (fun c => c.call)
          ++ d.Get_group.map (fun g => Call.DeleteApplicationGroupAssignment d.app_id g.id)) := by
  refine ⟨?_, ?_, ?_⟩
  · intro r err hr
    exact (suppressErrorOn404_eq_none_iff (some r) err).mpr (Or.inl ⟨r, rfl, hr⟩)
  · intro k g e hk hok hfail hstatus
    have hsup : suppressErrorOn404 (T.delete (T.afterDeletes d.app_id ((d.Get_group.take k).map (fun g => g.id)) w.state)
          d.app_id g.id).2.1
        (T.delete (T.afterDeletes d.app_id ((d.Get_group.take k).map (fun g => g.id)) w.state)
          d.app_id g.id).2.2
        = responseErr (T.delete (T.afterDeletes d.app_id ((d.Get_group.take k).map (fun g => g.id)) w.state)
          d.app_id g.id).2.1 (some e) := by
      rw [hfail]
      unfold suppressErrorOn404
      split
      · rename_i r hr
        rw [if_neg (hstatus r hr)]
      · rfl
    have hsome : ∀ resp : Option Response, ∃ err, responseErr resp (some e) = some err := by
      intro resp
      cases resp <;> exact ⟨_, rfl⟩
    obtain ⟨err, herr⟩ := hsome (T.delete
      (T.afterDeletes d.app_id ((d.Get_group.take k).map (fun g => g.id)) w.state) d.app_id g.id).2.1
    obtain ⟨h1, h2⟩ := resourceAppGroupAssignmentsDelete.loop_first_failure T d.app_id
      d.Get_group w k g err hk
      (fun j b hj hb => (suppressErrorOn404_eq_none_iff _ _).mpr (hok j b hj hb))
      (hsup.trans herr)
    exact ⟨⟨err, herr, h1⟩, h2⟩
  · intro hok
    exact resourceAppGroupAssignmentsDelete.loop_no_failure T d.app_id d.Get_group w
      (fun j b hb => (suppressErrorOn404_eq_none_iff _ _).mpr (hok j b hb))

/-- C18, at the groups `g1, g2, g3`: a delete of `g1` answered with the status
404 and an error is passed over; when the delete of `g2` is then answered with
the status 500 and an error the removal stops there, after two calls; when it
is answered without error all three calls are issued and nothing is reported. -/
theorem resourceAppGroupAssignmentsDelete_suppresses_404_witness :
    suppressErrorOn404 (some { StatusCode := 404, Status := "404 Not Found" })
        (some (.new "not found")) = none
    ∧ (resourceAppGroupAssignmentsDelete
        (stubClient (fun _ => none)
        (fun g => if g = "g1" then (some { StatusCode := 404, Status := "404 Not Found" },
            some (.new "not found"))
          else if g = "g2" then (some { StatusCode := 500, Status := "500 Internal Server Error" },
            some (.new "boom"))
          else (none, none))
        none)
        { state := (), calls := [] }
        { app_id := "app",
            group := [{ id := "g1", priority := none, profile := "\x7b\x7d" },
                      { id := "g2", priority := none, profile := "\x7b\x7d" },
                      { id := "g3", priority := none, profile := "\x7b\x7d" }] }).1.calls.map (fun c => c.call.groupID) = [some "g1", some "g2"]
    ∧ (resourceAppGroupAssignmentsDelete
        (stubClient (fun _ => none)
        (fun g => if g = "g1" then (some { StatusCode := 404, Status := "404 Not Found" },
            some (.new "not found")) else (none, none))
        none)
        { state := (), calls := [] }
        { app_id := "app",
            group := [{ id := "g1", priority := none, profile := "\x7b\x7d" },
                      { id := "g2", priority := none, profile := "\x7b\x7d" },
                      { id := "g3", priority := none, profile := "\x7b\x7d" }] }).2 = [] := by
  refine ⟨?_, ?_, ?_⟩
  · exact (resourceAppGroupAssignmentsDelete_suppresses_404
      (stubClient (fun _ => none)
        (fun g => if g = "g1" then (some { StatusCode := 404, Status := "404 Not Found" },
            some (.new "not found")) else (none, none))
        none)
      { state := (), calls := [] }
      { app_id := "app",
            group := [{ id := "g1", priority := none, profile := "\x7b\x7d" },
                      { id := "g2", priority := none, profile := "\x7b\x7d" },
                      { id := "g3", priority := none, profile := "\x7b\x7d" }] }).1 _ _ rfl
  · have h := ((resourceAppGroupAssignmentsDelete_suppresses_404
      (stubClient (fun _ => none)
        (fun g => if g = "g1" then (some { StatusCode := 404, Status := "404 Not Found" },
            some (.new "not found"))
          else if g = "g2" then (some { StatusCode := 500, Status := "500 Internal Server Error" },
            some (.new "boom"))
          else (none, none))
        none)
      { state := (), calls := [] }
      { app_id := "app",
            group := [{ id := "g1", priority := none, profile := "\x7b\x7d" },
                      { id := "g2", priority := none, profile := "\x7b\x7d" },
                      { id := "g3", priority := none, profile := "\x7b\x7d" }] }).2.1 1 { id := "g2", priority := some 0, profile := some "\x7b\x7d" } (.new "boom") rfl
      (by
        intro j b hj hb
        have hj0 : j = 0 := by omega
        subst hj0
        have hb2 : b = { id := "g1", priority := some 0, profile := some "\x7b\x7d" } := by
          simpa [ResourceData.Get_group] using hb.symm
        subst hb2
        exact Or.inl ⟨_, rfl, rfl⟩)
      rfl
      (by
        intro r hr
        have hr2 : r = { StatusCode := 500, Status := "500 Internal Server Error" } := by
          have : some r = some ({ StatusCode := 500, Status := "500 Internal Server Error" } : Response) :=
            hr.symm.trans rfl
          exact Option.some.inj this
        subst hr2
        decide)).2
    rw [show (fun c : CallRecord => c.call.groupID) = Call.groupID ∘ (fun c => c.call) from rfl,
      ← List.map_map, h]
    rfl
  · exact ((resourceAppGroupAssignmentsDelete_suppresses_404
      (stubClient (fun _ => none)
        (fun g => if g = "g1" then (some { StatusCode := 404, Status := "404 Not Found" },
            some (.new "not found")) else (none, none))
        none)
      { state := (), calls := [] }
      { app_id := "app",
            group := [{ id := "g1", priority := none, profile := "\x7b\x7d" },
                      { id := "g2", priority := none, profile := "\x7b\x7d" },
                      { id := "g3", priority := none, profile := "\x7b\x7d" }] }).2.2
      (by
        intro j b _
        by_cases hb1 : b.id = "g1"
        · exact Or.inl ⟨{ StatusCode := 404, Status := "404 Not Found" },
            by simp [stubClient, hb1], rfl⟩
        · exact Or.inr (by simp [stubClient, hb1]))).1

/-! ## Declarations with a repeated id, and the report of the ordering check -/

theorem resourceAppGroupAssignmentsCreate.loop_eq {σ : Type} (T : Client σ) (appID : String)
    (l : List ApplicationGroupAssignment) (w : World σ) :
    resourceAppGroupAssignmentsCreate.loop T appID l w
      = addGroupAssignments T.CreateApplicationGroupAssignment appID l w := by
  induction l generalizing w with
  | nil => rfl
  | cons a rest ih =>
    rw [resourceAppGroupAssignmentsCreate.loop, addGroupAssignments]
    generalize T.CreateApplicationGroupAssignment w appID a.Id a = r
    obtain ⟨w1, resp, err⟩ := r
    cases err with
    | some e => rfl
    | none => exact ih w1

/-- C19, as stated, fails: with the id `g1` declared twice and a transport that
never fails, `resourceAppGroupAssignmentsCreate` issues two create-or-update
calls for `g1` and the list call, `resourceAppGroupAssignmentsUpdate` issues one
create-or-update call for `g1` and the list call, and neither returns a
diagnostic. -/
theorem duplicate_id_counterexample :
    (resourceAppGroupAssignmentsCreate refJSON insertionSorter
        (stubClient (fun _ => none) (fun _ => (none, none)) (some []))
        { state := (), calls := [] }
        { app_id := "app",
            group := [{ id := "g1", priority := some 1, profile := "\x7b\x7d" },
                      { id := "g1", priority := some 2, profile := "\x7b\x7d" }] }).1.calls.map (fun c => (c.call.isCreate, c.call.groupID))
      = [(true, some "g1"), (true, some "g1"), (false, none)]
    ∧ (resourceAppGroupAssignmentsCreate refJSON insertionSorter
        (stubClient (fun _ => none) (fun _ => (none, none)) (some []))
        { state := (), calls := [] }
        { app_id := "app",
            group := [{ id := "g1", priority := some 1, profile := "\x7b\x7d" },
                      { id := "g1", priority := some 2, profile := "\x7b\x7d" }] }).2.2 = []
    ∧ (resourceAppGroupAssignmentsUpdate refJSON insertionSorter rangeInOrder rangeInOrder
        (stubClient (fun _ => none) (fun _ => (none, none)) (some []))
        { state := (), calls := [] }
        { app_id := "app",
            group := [{ id := "g1", priority := some 1, profile := "\x7b\x7d" },
                      { id := "g1", priority := some 2, profile := "\x7b\x7d" }] }).1.calls.map (fun c => (c.call.isCreate, c.call.groupID))
      = [(true, some "g1"), (false, none)]
    ∧ (resourceAppGroupAssignmentsUpdate refJSON insertionSorter rangeInOrder rangeInOrder
        (stubClient (fun _ => none) (fun _ => (none, none)) (some []))
        { state := (), calls := [] }
        { app_id := "app",
            group := [{ id := "g1", priority := some 1, profile := "\x7b\x7d" },
                      { id := "g1", priority := some 2, profile := "\x7b\x7d" }] }).2.2 = [] := by
  refine ⟨by decide, by decide, by decide, by decide⟩

/-- C19, amended: no declaration is rejected before the transport is called.
With a transport on which no create-or-update and no delete call fails,
`resourceAppGroupAssignmentsCreate` issues one create-or-update call for every
declared entry, in declaration order, and then the list call;
`resourceAppGroupAssignmentsUpdate` issues the delete calls for `toRemove`, the
create-or-update calls for `toAssign` and then the list call. -/
theorem create_update_without_input_check {σ : Type} (J : JSONLib) (S : SliceSorter)
    (rangeOld rangeNew : MapRange) (T : Client σ) (w : World σ) (d : ResourceData)
    (hcreate : ∀ s appID groupID a, (T.create s appID groupID a).2.2 = none)
    (hdelete : ∀ s appID groupID, (T.delete s appID groupID).2.2 = none) :
    (resourceAppGroupAssignmentsCreate J S T w d).1.calls.map (fun c => c.call)
      = w.calls.map (fun c => c.call)
        ++ (tfGroupsToGroupAssignments J d).map
            (fun a => Call.CreateApplicationGroupAssignment d.app_id a.Id a)
        ++ [Call.listApplicationGroupAssignments d.app_id]
    ∧ (resourceAppGroupAssignmentsUpdate J S rangeOld rangeNew T w d).1.calls.map (fun c => c.call)
      = w.calls.map (fun c => c.call)
        ++ (splitAssignmentsTargets J rangeOld rangeNew d).toRemove.map
            (fun a => Call.DeleteApplicationGroupAssignment d.app_id a.Id)
        ++ (splitAssignmentsTargets J rangeOld rangeNew d).toAssign.map
            (fun a => Call.CreateApplicationGroupAssignment d.app_id a.Id a)
        ++ [Call.listApplicationGroupAssignments d.app_id] := by
  constructor
  · obtain ⟨h1, h2⟩ := addGroupAssignments_no_failure T d.app_id (tfGroupsToGroupAssignments J d) w
      (fun _ _ _ => hcreate _ _ _ _)
    unfold resourceAppGroupAssignmentsCreate
    simp only [resourceAppGroupAssignmentsCreate.loop_eq]
    cases hadd : addGroupAssignments T.CreateApplicationGroupAssignment d.app_id
        (tfGroupsToGroupAssignments J d) w with
    | mk w1 e1 =>
      rw [hadd] at h1 h2
      simp only at h1 h2
      subst h1
      simp only [resourceAppGroupAssignmentsRead_log, List.map_append, h2]
      rfl
  · obtain ⟨h1, h2⟩ := deleteGroupAssignments_no_failure T d.app_id
      (splitAssignmentsTargets J rangeOld rangeNew d).toRemove w (fun _ _ _ => hdelete _ _ _)
    have herr : (splitAssignmentsTargets J rangeOld rangeNew d).err = none := rfl
    unfold resourceAppGroupAssignmentsUpdate
    simp only [herr]
    cases hdel : deleteGroupAssignments T.DeleteApplicationGroupAssignment d.app_id
        (splitAssignmentsTargets J rangeOld rangeNew d).toRemove w with
    | mk w1 e1 =>
      rw [hdel] at h1 h2
      simp only at h1 h2
      subst h1
      obtain ⟨h3, h4⟩ := addGroupAssignments_no_failure T d.app_id
        (splitAssignmentsTargets J rangeOld rangeNew d).toAssign w1 (fun _ _ _ => hcreate _ _ _ _)
      cases hadd : addGroupAssignments T.CreateApplicationGroupAssignment d.app_id
          (splitAssignmentsTargets J rangeOld rangeNew d).toAssign w1 with
      | mk w2 e2 =>
        rw [hadd] at h3 h4
        simp only at h3 h4
        subst h3
        simp only [hadd, resourceAppGroupAssignmentsRead_log, List.map_append, h4, h2]
        rfl

/-- C19, amended, at the declaration with the id `g1` twice: the calls
`resourceAppGroupAssignmentsCreate` issues on a transport that never fails are
the two create-or-update calls of the two entries and the list call. -/
theorem create_update_without_input_check_witness :
    (resourceAppGroupAssignmentsCreate refJSON insertionSorter
        (stubClient (fun _ => none) (fun _ => (none, none)) (some []))
        { state := (), calls := [] }
        { app_id := "app",
            group := [{ id := "g1", priority := some 1, profile := "\x7b\x7d" },
                      { id := "g1", priority := some 2, profile := "\x7b\x7d" }] }).1.calls.map (fun c => c.call)
      = [Call.CreateApplicationGroupAssignment "app" "g1"
          { Id := "g1", PriorityPtr := some 1, Profile := .object [] },
         Call.CreateApplicationGroupAssignment "app" "g1"
          { Id := "g1", PriorityPtr := some 2, Profile := .object [] },
         Call.listApplicationGroupAssignments "app"] :=
  (create_update_without_input_check refJSON insertionSorter rangeInOrder rangeInOrder
    (stubClient (fun _ => none) (fun _ => (none, none)) (some []))
    { state := (), calls := [] }
    { app_id := "app",
            group := [{ id := "g1", priority := some 1, profile := "\x7b\x7d" },
                      { id := "g1", priority := some 2, profile := "\x7b\x7d" }] } (fun _ _ _ _ => rfl) (fun _ _ _ => rfl)).1.trans rfl

/-- The diagnostics `resourceAppGroupAssignmentsRead` returns are of severity
error: it never returns a warning. -/
theorem resourceAppGroupAssignmentsRead_no_warning {σ : Type} (J : JSONLib) (S : SliceSorter)
    (T : Client σ) (w : World σ) (d : ResourceData) :
    ∀ x ∈ (resourceAppGroupAssignmentsRead J S T w d).2.2, x.severity = Severity.Error := by
  unfold resourceAppGroupAssignmentsRead
  simp only []
  split
  · intro x hx
    simp only [diag.Errorf, List.mem_singleton] at hx
    rw [hx]
  · split
    · intro x hx
      cases hx
    · split <;> (intro x hx; cases hx)

/-- C20, at the declared priorities `A:1, B:2` with the fetched priorities
`A:5, B:1`: `validateRelativeOrdering` finds the mismatch on the view, and
`resourceAppGroupAssignmentsRead` stores the view `A:5, B:1` and returns no
diagnostic at all. -/
theorem resourceAppGroupAssignmentsRead_mismatch_unreported :
    validateRelativeOrdering insertionSorter
        (syncGroups refJSON insertionSorter
          { app_id := "app",
            group := [{ id := "A", priority := some 1, profile := "\x7b\x7d" },
                      { id := "B", priority := some 2, profile := "\x7b\x7d" }] }
          (ResourceData.Get_group
          { app_id := "app",
            group := [{ id := "A", priority := some 1, profile := "\x7b\x7d" },
                      { id := "B", priority := some 2, profile := "\x7b\x7d" }] })
          [{ Id := "A", PriorityPtr := some 5, Profile := .object [] },
             { Id := "B", PriorityPtr := some 1, Profile := .object [] }])
        (syncGroups.configOrder (ResourceData.Get_group
          { app_id := "app",
            group := [{ id := "A", priority := some 1, profile := "\x7b\x7d" },
                      { id := "B", priority := some 2, profile := "\x7b\x7d" }] }))
        (syncGroups.configPriorities
          { app_id := "app",
            group := [{ id := "A", priority := some 1, profile := "\x7b\x7d" },
                      { id := "B", priority := some 2, profile := "\x7b\x7d" }] }
          (ResourceData.Get_group
          { app_id := "app",
            group := [{ id := "A", priority := some 1, profile := "\x7b\x7d" },
                      { id := "B", priority := some 2, profile := "\x7b\x7d" }] })) = false
    ∧ (resourceAppGroupAssignmentsRead refJSON insertionSorter
        (stubClient (fun _ => none) (fun _ => (none, none))
          (some [{ Id := "A", PriorityPtr := some 5, Profile := .object [] },
             { Id := "B", PriorityPtr := some 1, Profile := .object [] }]))
        { state := (), calls := [] }
        { app_id := "app",
            group := [{ id := "A", priority := some 1, profile := "\x7b\x7d" },
                      { id := "B", priority := some 2, profile := "\x7b\x7d" }] }).2.1.group
      = [{ id := "A", priority := some 5, profile := "\x7b\x7d" },
         { id := "B", priority := some 1, profile := "\x7b\x7d" }]
    ∧ (resourceAppGroupAssignmentsRead refJSON insertionSorter
        (stubClient (fun _ => none) (fun _ => (none, none))
          (some [{ Id := "A", PriorityPtr := some 5, Profile := .object [] },
             { Id := "B", PriorityPtr := some 1, Profile := .object [] }]))
        { state := (), calls := [] }
        { app_id := "app",
            group := [{ id := "A", priority := some 1, profile := "\x7b\x7d" },
                      { id := "B", priority := some 2, profile := "\x7b\x7d" }] }).2.2 = [] := by
  refine ⟨by decide, by decide, by decide⟩

/-! ## The view as a whole: the ordering check, the ids, the drift entries -/

/-- What `resourceAppGroupAssignmentsRead` returns when the list call succeeds
with a non-nil list and the resource data has at least one group: no
diagnostic, and the view of `syncGroups` stored as the attribute `group`. -/
theorem resourceAppGroupAssignmentsRead_listed {σ : Type} (J : JSONLib) (S : SliceSorter)
    (T : Client σ) (w : World σ) (d : ResourceData) (current : List ApplicationGroupAssignment)
    (hlist : (T.list w.state d.app_id).2.1 = some current)
    (herr : suppressErrorOn404 (T.list w.state d.app_id).2.2.1 (T.list w.state d.app_id).2.2.2
      = none)
    (hgroup : d.group ≠ []) :
    (resourceAppGroupAssignmentsRead J S T w d).2
      = (d.Set_group (syncGroups J S d d.Get_group current), []) := by
  have hok : d.GetOk_group.2 = true := by
    cases hg : d.group with
    | nil => exact absurd hg hgroup
    | cons g gs => simp [ResourceData.GetOk_group, hg]
  unfold resourceAppGroupAssignmentsRead
  simp only [listApplicationGroupAssignments, herr, hlist, hok, if_true]
  rfl

/-- C21: the check of the relative ordering is advisory.  The view `syncGroups`
returns is the outcome of its two passes, whatever `validateRelativeOrdering`
answers on it; and when the list call succeeds, `resourceAppGroupAssignmentsRead`
returns no diagnostic and stores that view, mismatch or not. -/
theorem syncGroups_ordering_advisory {σ : Type} (J : JSONLib) (S : SliceSorter) (T : Client σ)
    (w : World σ) (d : ResourceData) (current : List ApplicationGroupAssignment)
    (hlist : (T.list w.state d.app_id).2.1 = some current)
    (herr : suppressErrorOn404 (T.list w.state d.app_id).2.2.1 (T.list w.state d.app_id).2.2.2
      = none)
    (hgroup : d.group ≠ []) :
    (∀ tfGroups groupAssignments,
      syncGroups J S d tfGroups groupAssignments
        = syncGroups.firstPass J d tfGroups groupAssignments
          ++ syncGroups.secondPass J tfGroups groupAssignments)
    ∧ (resourceAppGroupAssignmentsRead J S T w d).2.2 = []
    ∧ (resourceAppGroupAssignmentsRead J S T w d).2.1
        = d.Set_group (syncGroups.firstPass J d d.Get_group current
            ++ syncGroups.secondPass J d.Get_group current) := by
  have h := resourceAppGroupAssignmentsRead_listed J S T w d current hlist herr hgroup
  refine ⟨fun tfGroups groupAssignments => syncGroups_eq J S d tfGroups groupAssignments, ?_, ?_⟩
  · rw [h]
  · rw [h, syncGroups_eq]

/-- C21, at the declared priorities `A:1, B:2` with the fetched priorities
`A:5, B:1`: `validateRelativeOrdering` fails on the view, and
`resourceAppGroupAssignmentsRead` returns no diagnostic and stores the view
`A` with priority 5, `B` with priority 1. -/
theorem syncGroups_ordering_advisory_witness :
    validateRelativeOrdering insertionSorter
        [{ id := "A", priority := some 5, profile := some "\x7b\x7d" },
         { id := "B", priority := some 1, profile := some "\x7b\x7d" }]
        ["A", "B"] [("A", 1), ("B", 2)] = false
    ∧ (resourceAppGroupAssignmentsRead refJSON insertionSorter
        (stubClient (fun _ => none) (fun _ => (none, none))
          (some [{ Id := "A", PriorityPtr := some 5, Profile := .object [] },
                 { Id := "B", PriorityPtr := some 1, Profile := .object [] }]))
        { state := (), calls := [] }
        { app_id := "app",
          group := [{ id := "A", priority := some 1, profile := "\x7b\x7d" },
                    { id := "B", priority := some 2, profile := "\x7b\x7d" }] }).2.2 = []
    ∧ (resourceAppGroupAssignmentsRead refJSON insertionSorter
        (stubClient (fun _ => none) (fun _ => (none, none))
          (some [{ Id := "A", PriorityPtr := some 5, Profile := .object [] },
                 { Id := "B", PriorityPtr := some 1, Profile := .object [] }]))
        { state := (), calls := [] }
        { app_id := "app",
          group := [{ id := "A", priority := some 1, profile := "\x7b\x7d" },
                    { id := "B", priority := some 2, profile := "\x7b\x7d" }] }).2.1
      = { app_id := "app",
          group := [{ id := "A", priority := some 5, profile := "\x7b\x7d" },
                    { id := "B", priority := some 1, profile := "\x7b\x7d" }] } :=
  ⟨by decide,
   (syncGroups_ordering_advisory refJSON insertionSorter
      (stubClient (fun _ => none) (fun _ => (none, none))
        (some [{ Id := "A", PriorityPtr := some 5, Profile := .object [] },
               { Id := "B", PriorityPtr := some 1, Profile := .object [] }]))
      { state := (), calls := [] }
      { app_id := "app",
        group := [{ id := "A", priority := some 1, profile := "\x7b\x7d" },
                  { id := "B", priority := some 2, profile := "\x7b\x7d" }] }
      [{ Id := "A", PriorityPtr := some 5, Profile := .object [] },
       { Id := "B", PriorityPtr := some 1, Profile := .object [] }]
      rfl rfl (by decide)).2.1,
   (syncGroups_ordering_advisory refJSON insertionSorter
      (stubClient (fun _ => none) (fun _ => (none, none))
        (some [{ Id := "A", PriorityPtr := some 5, Profile := .object [] },
               { Id := "B", PriorityPtr := some 1, Profile := .object [] }]))
      { state := (), calls := [] }
      { app_id := "app",
        group := [{ id := "A", priority := some 1, profile := "\x7b\x7d" },
                  { id := "B", priority := some 2, profile := "\x7b\x7d" }] }
      [{ Id := "A", PriorityPtr := some 5, Profile := .object [] },
       { Id := "B", PriorityPtr := some 1, Profile := .object [] }]
      rfl rfl (by decide)).2.2.trans (by decide)⟩

theorem syncGroups_mem_ids (J : JSONLib) (S : SliceSorter) (d : ResourceData)
    (tfGroups : List TFGroup) (groupAssignments : List ApplicationGroupAssignment) (k : String) :
    k ∈ (syncGroups J S d tfGroups groupAssignments).map (fun g => g.id)
      ↔ k ∈ groupAssignments.map (fun a => a.Id) := by
  rw [syncGroups_eq, List.map_append, syncGroups.firstPass_ids, syncGroups.secondPass_ids,
    List.mem_append, List.mem_filter, List.mem_filter]
  constructor
  · rintro (h | h)
    · exact of_decide_eq_true h.2
    · exact h.1
  · intro h
    by_cases hk : k ∈ tfGroups.map (fun g => g.id)
    · exact Or.inl ⟨hk, decide_eq_true h⟩
    · exact Or.inr ⟨h, decide_eq_true hk⟩

theorem syncGroups_ids_nodup (J : JSONLib) (S : SliceSorter) (d : ResourceData)
    (tfGroups : List TFGroup) (groupAssignments : List ApplicationGroupAssignment)
    (htf : (tfGroups.map (fun g => g.id)).Nodup)
    (hga : (groupAssignments.map (fun a => a.Id)).Nodup) :
    ((syncGroups J S d tfGroups groupAssignments).map (fun g => g.id)).Nodup := by
  rw [syncGroups_eq, List.map_append, syncGroups.firstPass_ids, syncGroups.secondPass_ids,
    List.nodup_append]
  refine ⟨htf.filter _, hga.filter _, ?_⟩
  intro k h1 h2
  rw [List.mem_filter] at h1 h2
  exact (of_decide_eq_true h2.2) h1.1

/-- C22: for lists without a repeated id, the ids of the view returned by
`syncGroups` are a rearrangement of the fetched ids: none is repeated, every
fetched id occurs exactly once and every id of the view is a fetched id. -/
theorem syncGroups_ids_perm (J : JSONLib) (S : SliceSorter) (d : ResourceData)
    (tfGroups : List TFGroup) (groupAssignments : List ApplicationGroupAssignment)
    (htf : (tfGroups.map (fun g => g.id)).Nodup)
    (hga : (groupAssignments.map (fun a => a.Id)).Nodup) :
    ((syncGroups J S d tfGroups groupAssignments).map (fun g => g.id)).Perm
        (groupAssignments.map (fun a => a.Id))
    ∧ (∀ k ∈ groupAssignments.map (fun a => a.Id),
        ((syncGroups J S d tfGroups groupAssignments).map (fun g => g.id)).count k = 1)
    ∧ (∀ k ∈ (syncGroups J S d tfGroups groupAssignments).map (fun g => g.id),
        k ∈ groupAssignments.map (fun a => a.Id)) := by
  have hnd := syncGroups_ids_nodup J S d tfGroups groupAssignments htf hga
  have hmem := syncGroups_mem_ids J S d tfGroups groupAssignments
  have hperm := (List.perm_ext_iff_of_nodup hnd hga).mpr hmem
  refine ⟨hperm, ?_, fun k hk => (hmem k).mp hk⟩
  intro k hk
  rw [hperm.count_eq]
  exact List.count_eq_one_of_mem hga hk

/-- C22, at the declaration `A, B, E` with the fetched assignments `B, X, A`:
the ids of the view are `A, B, X`. -/
theorem syncGroups_ids_perm_witness :
    ((syncGroups refJSON insertionSorter
        { app_id := "app",
          group := [{ id := "A", priority := none, profile := "\x7b\x7d" },
                    { id := "B", priority := none, profile := "\x7b\x7d" },
                    { id := "E", priority := none, profile := "\x7b\x7d" }] }
        [{ id := "A", priority := some 0, profile := some "\x7b\x7d" },
         { id := "B", priority := some 0, profile := some "\x7b\x7d" },
         { id := "E", priority := some 0, profile := some "\x7b\x7d" }]
        [{ Id := "B", PriorityPtr := none, Profile := .object [] },
         { Id := "X", PriorityPtr := none, Profile := .object [] },
         { Id := "A", PriorityPtr := none, Profile := .object [] }]).map (fun g => g.id)).Perm
      ["B", "X", "A"] :=
  (syncGroups_ids_perm refJSON insertionSorter
    { app_id := "app",
      group := [{ id := "A", priority := none, profile := "\x7b\x7d" },
                { id := "B", priority := none, profile := "\x7b\x7d" },
                { id := "E", priority := none, profile := "\x7b\x7d" }] }
    [{ id := "A", priority := some 0, profile := some "\x7b\x7d" },
     { id := "B", priority := some 0, profile := some "\x7b\x7d" },
     { id := "E", priority := some 0, profile := some "\x7b\x7d" }]
    [{ Id := "B", PriorityPtr := none, Profile := .object [] },
     { Id := "X", PriorityPtr := none, Profile := .object [] },
     { Id := "A", PriorityPtr := none, Profile := .object [] }]
    (by decide) (by decide)).1

/-- C23: an id that is not among the fetched assignments does not occur in the
view returned by `syncGroups`, whether it is declared or not. -/
theorem syncGroups_drops_unfetched (J : JSONLib) (S : SliceSorter) (d : ResourceData)
    (tfGroups : List TFGroup) (groupAssignments : List ApplicationGroupAssignment) (id : String)
    (hnot : id ∉ groupAssignments.map (fun a => a.Id)) :
    id ∉ (syncGroups J S d tfGroups groupAssignments).map (fun g => g.id) := by
  rw [syncGroups_eq, List.map_append, syncGroups.firstPass_ids, syncGroups.secondPass_ids,
    List.mem_append, List.mem_filter, List.mem_filter]
  rintro (h | h)
  · exact hnot (of_decide_eq_true h.2)
  · exact hnot h.1

/-- C23, at the declaration `A, E` with the fetched assignment `A` alone: the
view has no entry for `E`. -/
theorem syncGroups_drops_unfetched_witness :
    "E" ∉ (syncGroups refJSON insertionSorter
        { app_id := "app",
          group := [{ id := "A", priority := none, profile := "\x7b\x7d" },
                    { id := "E", priority := none, profile := "\x7b\x7d" }] }
        [{ id := "A", priority := some 0, profile := some "\x7b\x7d" },
         { id := "E", priority := some 0, profile := some "\x7b\x7d" }]
        [{ Id := "A", PriorityPtr := none, Profile := .object [] }]).map (fun g => g.id) :=
  syncGroups_drops_unfetched refJSON insertionSorter
    { app_id := "app",
      group := [{ id := "A", priority := none, profile := "\x7b\x7d" },
                { id := "E", priority := none, profile := "\x7b\x7d" }] }
    [{ id := "A", priority := some 0, profile := some "\x7b\x7d" },
     { id := "E", priority := some 0, profile := some "\x7b\x7d" }]
    [{ Id := "A", PriorityPtr := none, Profile := .object [] }] "E" (by decide)
/-- C24: for every fetched assignment whose id is not declared, the view
returned by `syncGroups` has an entry of its second pass with that id, with the
priority of the assignment (none when the assignment has none), and with the
whole payload of the assignment: the text `{}` for a nil payload, the string
itself for a string payload, the JSON encoding of the payload otherwise. -/
theorem syncGroups_drift_entry (J : JSONLib) (S : SliceSorter) (d : ResourceData)
    (tfGroups : List TFGroup) (groupAssignments : List ApplicationGroupAssignment)
    (a : ApplicationGroupAssignment) (ha : a ∈ groupAssignments)
    (hnot : a.Id ∉ tfGroups.map (fun g => g.id)) :
    ∃ g ∈ syncGroups.secondPass J tfGroups groupAssignments,
      g ∈ syncGroups J S d tfGroups groupAssignments
      ∧ g.id = a.Id
      ∧ g.priority = a.PriorityPtr
      ∧ (a.Profile = .null → g.profile = some "\x7b\x7d")
      ∧ (∀ p, a.Profile = .string p → g.profile = some p)
      ∧ (a.Profile ≠ .null → (∀ p, a.Profile ≠ .string p) →
          g.profile = some (J.Marshal a.Profile)) := by
  have h2 : (tfGroups.any fun group => decide (group.id = a.Id)) = false := by
    simpa using hnot
  have hmem : ({ id := a.Id
                 profile :=
                   match a.Profile with
                   | .null => some "\x7b\x7d"
                   | .string p => some p
                   | v => some (J.Marshal v)
                 priority := a.PriorityPtr } : TFGroup)
      ∈ syncGroups.secondPass J tfGroups groupAssignments := by
    unfold syncGroups.secondPass
    rw [List.mem_filterMap]
    exact ⟨a, ha, by rw [h2]; rfl⟩
  refine ⟨_, hmem, ?_, rfl, rfl, ?_, ?_, ?_⟩
  · rw [syncGroups_eq]
    exact List.mem_append_right _ hmem
  · intro hp
    simp only [hp]
  · intro p hp
    simp only [hp]
  · intro hn hs
    cases hp : a.Profile with
    | null => exact absurd hp hn
    | string p => exact absurd hp (hs p)
    | bool b => rfl
    | number t => rfl
    | array items => rfl
    | object fields => rfl

/-- C24, at the declaration `A` with the fetched assignments `A` and `X`, the
latter with priority 3 and the payload `{"role":"admin"}`: the view has an entry
for `X` with priority 3 and the text of that payload. -/
theorem syncGroups_drift_entry_witness :
    ∃ g ∈ syncGroups refJSON insertionSorter
        { app_id := "app", group := [{ id := "A", priority := none, profile := "\x7b\x7d" }] }
        [{ id := "A", priority := some 0, profile := some "\x7b\x7d" }]
        [{ Id := "A", PriorityPtr := none, Profile := .object [] },
         { Id := "X", PriorityPtr := some 3,
           Profile := .object [("role", .string "admin")] }],
      g.id = "X" ∧ g.priority = some 3
      ∧ g.profile = some "\x7b\"role\":\"admin\"\x7d" := by
  obtain ⟨g, _, hg, hid, hprio, _, _, hprofile⟩ :=
    syncGroups_drift_entry refJSON insertionSorter
      { app_id := "app", group := [{ id := "A", priority := none, profile := "\x7b\x7d" }] }
      [{ id := "A", priority := some 0, profile := some "\x7b\x7d" }]
      [{ Id := "A", PriorityPtr := none, Profile := .object [] },
       { Id := "X", PriorityPtr := some 3,
         Profile := .object [("role", .string "admin")] }]
      { Id := "X", PriorityPtr := some 3, Profile := .object [("role", .string "admin")] }
      (List.mem_cons_of_mem _ (List.mem_cons_self _ _)) (by decide)
  refine ⟨g, hg, hid, hprio, ?_⟩
  rw [hprofile (fun h => by cases h) (fun p h => by cases h)]
  decide

/-- C27: `resourceAppGroupAssignmentsRead` issues one call, the list call, which
is neither a create-or-update nor a delete; and when that call succeeds, every
fetched assignment, declared or not, has an entry in the view it stores. -/
theorem resourceAppGroupAssignmentsRead_no_mutation {σ : Type} (J : JSONLib) (S : SliceSorter)
    (T : Client σ) (w : World σ) (d : ResourceData) :
    (∃ c : CallRecord, (resourceAppGroupAssignmentsRead J S T w d).1.calls = w.calls ++ [c]
        ∧ c.call = Call.listApplicationGroupAssignments d.app_id
        ∧ c.call.isCreate = false ∧ c.call.isDelete = false)
    ∧ (∀ current, (T.list w.state d.app_id).2.1 = some current →
        suppressErrorOn404 (T.list w.state d.app_id).2.2.1 (T.list w.state d.app_id).2.2.2 = none →
        ∀ a ∈ current,
          a.Id ∈ (resourceAppGroupAssignmentsRead J S T w d).2.1.group.map (fun g => g.id)) := by
  constructor
  · exact ⟨_, resourceAppGroupAssignmentsRead_log J S T w d, rfl, rfl, rfl⟩
  · intro current hlist herr a ha
    have haid : a.Id ∈ current.map (fun a => a.Id) := List.mem_map_of_mem _ ha
    unfold resourceAppGroupAssignmentsRead
    simp only [listApplicationGroupAssignments, herr, hlist]
    split
    · have hids : ((d.Set_group (syncGroups J S d d.GetOk_group.1 current)).group.map
          (fun g => g.id))
          = (syncGroups J S d d.GetOk_group.1 current).map (fun g => g.id) := by
        simp [ResourceData.Set_group, List.map_map, Function.comp]
      rw [hids, syncGroups_eq, List.map_append, syncGroups.firstPass_ids,
        syncGroups.secondPass_ids, List.mem_append, List.mem_filter, List.mem_filter]
      by_cases hk : a.Id ∈ d.GetOk_group.1.map (fun g => g.id)
      · exact Or.inl ⟨hk, decide_eq_true haid⟩
      · exact Or.inr ⟨haid, decide_eq_true hk⟩
    · simp only [ResourceData.Set_group, List.map_map, List.mem_map, Function.comp,
        groupAssignmentToTFGroup]
      exact ⟨a, ha, rfl⟩

/-- C27, at the declaration `g1` with the fetched assignments `g1` and `g2`:
the record of calls is the list call alone and the view stored has an entry for
`g2`. -/
theorem resourceAppGroupAssignmentsRead_no_mutation_witness :
    (resourceAppGroupAssignmentsRead refJSON insertionSorter
        (stubClient (fun _ => none) (fun _ => (none, none))
          (some [{ Id := "g1", PriorityPtr := none, Profile := .object [] },
                 { Id := "g2", PriorityPtr := none, Profile := .object [] }]))
        { state := (), calls := [] }
        { app_id := "app",
          group := [{ id := "g1", priority := none, profile := "\x7b\x7d" }] }).1.calls.map
        (fun c => (c.call.isCreate, c.call.isDelete)) = [(false, false)]
    ∧ "g2" ∈ (resourceAppGroupAssignmentsRead refJSON insertionSorter
        (stubClient (fun _ => none) (fun _ => (none, none))
          (some [{ Id := "g1", PriorityPtr := none, Profile := .object [] },
                 { Id := "g2", PriorityPtr := none, Profile := .object [] }]))
        { state := (), calls := [] }
        { app_id := "app",
          group := [{ id := "g1", priority := none, profile := "\x7b\x7d" }] }).2.1.group.map
        (fun g => g.id) :=
  ⟨by decide,
   (resourceAppGroupAssignmentsRead_no_mutation refJSON insertionSorter
      (stubClient (fun _ => none) (fun _ => (none, none))
        (some [{ Id := "g1", PriorityPtr := none, Profile := .object [] },
               { Id := "g2", PriorityPtr := none, Profile := .object [] }]))
      { state := (), calls := [] }
      { app_id := "app",
        group := [{ id := "g1", priority := none, profile := "\x7b\x7d" }] }).2
      [{ Id := "g1", PriorityPtr := none, Profile := .object [] },
       { Id := "g2", PriorityPtr := none, Profile := .object [] }] rfl rfl
      { Id := "g2", PriorityPtr := none, Profile := .object [] }
      (List.mem_cons_of_mem _ (List.mem_cons_self _ _))⟩

/-! ## A profile that is not JSON -/

/-- What `splitAssignmentsTargets` puts into `toAssign` when the ids of the new
list are distinct: the assignment made from each group of the list. -/
theorem splitAssignmentsTargets_toAssign_perm (J : JSONLib) (rangeOld rangeNew : MapRange)
    (d : ResourceData) (hnd : (d.group.map (fun g => g.id)).Nodup) :
    (splitAssignmentsTargets J rangeOld rangeNew d).toAssign.Perm
      (d.group.map (fun g => splitAssignmentsTargets.assignment J g.id
        { id := g.id, priority := some (g.priority.getD 0), profile := some g.profile })) := by
  unfold splitAssignmentsTargets
  simp only []
  have hnd2 : (d.GetChange_group.2.map (fun o => o.id)).Nodup := by
    rw [ResourceData.GetChange_group_new_ids]
    exact hnd
  rw [splitAssignmentsTargets.ids_of_nodup _ hnd2]
  refine ((rangeNew.perm _).map _).trans ?_
  simp only [ResourceData.GetChange_group, ResourceData.Get_group, List.map_map]
  exact List.Perm.of_eq (List.map_congr_left (fun g _ => rfl))

/-- C25, at the declaration of `g1` with priority 1 and the profile `not json`:
the assignment both functions make has the id and the priority, and its payload
is nil, which is not the empty object. -/
theorem invalid_profile_counterexample :
    (refJSON.Unmarshal "not json").isNone = true
    ∧ (splitAssignmentsTargets refJSON rangeInOrder rangeInOrder
        { app_id := "app",
          group := [{ id := "g1", priority := some 1, profile := "not json" }] }).toAssign.map
        (fun a => (a.Id, a.PriorityPtr, a.Profile.isNil)) = [("g1", some 1, true)]
    ∧ (tfGroupsToGroupAssignments refJSON
        { app_id := "app",
          group := [{ id := "g1", priority := some 1, profile := "not json" }] }).map
        (fun a => (a.Id, a.PriorityPtr, a.Profile.isNil)) = [("g1", some 1, true)]
    ∧ (JSONValue.object []).isNil = false := by
  refine ⟨by decide, by decide, by decide, by decide⟩

/-- C25, amended: for a declared entry whose profile is not JSON, in a
declaration without a repeated id, `splitAssignmentsTargets` returns no error
and `toAssign` has an assignment with the id of the entry, with its priority if
that is explicit and not `0`, and with a nil payload; the assignment
`tfGroupsToGroupAssignments` makes for the entry is of the same kind. -/
theorem invalid_profile_left_nil (J : JSONLib) (rangeOld rangeNew : MapRange) (d : ResourceData)
    (i : Nat) (g : GroupBlock)
    (hnd : (d.group.map (fun g => g.id)).Nodup)
    (hg : d.group.get? i = some g)
    (hbad : J.Unmarshal g.profile = none) :
    (splitAssignmentsTargets J rangeOld rangeNew d).err = none
    ∧ (∃ a ∈ (splitAssignmentsTargets J rangeOld rangeNew d).toAssign,
        a.Id = g.id ∧ a.Profile = JSONValue.null
        ∧ ∀ p, p ≠ 0 → g.priority = some p → a.PriorityPtr = some p)
    ∧ (∃ a, (tfGroupsToGroupAssignments J d).get? i = some a
        ∧ a.Id = g.id ∧ a.Profile = JSONValue.null
        ∧ ∀ p, p ≠ 0 → g.priority = some p → a.PriorityPtr = some p) := by
  have hmem : g ∈ d.group := List.get?_mem hg
  refine ⟨rfl, ?_, ?_⟩
  · have hperm := splitAssignmentsTargets_toAssign_perm J rangeOld rangeNew d hnd
    refine ⟨_, hperm.mem_iff.mpr (List.mem_map_of_mem _ hmem), rfl, ?_, ?_⟩
    · simp [splitAssignmentsTargets.assignment, hbad]
    · intro p _ hp
      simp [splitAssignmentsTargets.assignment, int64Ptr, hp]
  · have hi : i < d.group.length := by
      rw [List.get?_eq_some] at hg
      exact hg.1
    have hlen : i < (List.range d.Get_group.length).length := by
      simpa [ResourceData.Get_group] using hi
    have hget : (tfGroupsToGroupAssignments J d).get? i
        = some { Id := d.Get_id i
                 Profile := (J.Unmarshal (d.Get_profile i)).getD .null
                 PriorityPtr :=
                   if (d.GetOk_priority i).2 then int64Ptr (d.GetOk_priority i).1 else none } := by
      unfold tfGroupsToGroupAssignments
      rw [List.get?_eq_getElem?, List.getElem?_map, List.getElem?_eq_getElem hlen]
      simp
    refine ⟨_, hget, ?_, ?_, ?_⟩
    · simp only [ResourceData.Get_id, hg]
    · simp only [ResourceData.Get_profile, hg, hbad]
      rfl
    · intro p hp0 hp
      simp only [ResourceData.GetOk_priority, hg, hp, int64Ptr]
      simp [hp0]

/-- C25, amended, at the declaration of `g1` with priority 1 and the profile
`not json`. -/
theorem invalid_profile_left_nil_witness :
    ∃ a ∈ (splitAssignmentsTargets refJSON rangeInOrder rangeInOrder
        { app_id := "app",
          group := [{ id := "g1", priority := some 1, profile := "not json" }] }).toAssign,
      a.Id = "g1" ∧ a.Profile = JSONValue.null
      ∧ ∀ p, p ≠ 0 → some (1 : Int) = some p → a.PriorityPtr = some p :=
  (invalid_profile_left_nil refJSON rangeInOrder rangeInOrder
    { app_id := "app",
      group := [{ id := "g1", priority := some 1, profile := "not json" }] }
    0 { id := "g1", priority := some 1, profile := "not json" }
    (by decide) rfl rfl).2.1

/-! ## Camel case to underscores -/

theorem camelCaseToUnderscore.body_lower (i : Nat) (a : List Char) (spare : Nat)
    (h : unicode.IsLower (a.getD i (Char.ofNat 0)) = true) :
    camelCaseToUnderscore.body i { a := a, ranged := none, spare := spare }
      = { a := a, ranged := none, spare := spare } := by
  unfold camelCaseToUnderscore.body
  simp only [h, Bool.not_true, Bool.false_eq_true, if_false]

theorem camelCaseToUnderscore.body_lower_moved (i : Nat) (a old : List Char) (spare : Nat)
    (h : unicode.IsLower (old.getD i (Char.ofNat 0)) = true) :
    camelCaseToUnderscore.body i { a := a, ranged := some old, spare := spare }
      = { a := a, ranged := some old, spare := spare } := by
  unfold camelCaseToUnderscore.body
  simp only [h, Bool.not_true, Bool.false_eq_true, if_false]

theorem camelCaseToUnderscore.foldl_lower (l : List Nat) (a : List Char) (spare : Nat)
    (h : ∀ i ∈ l, unicode.IsLower (a.getD i (Char.ofNat 0)) = true) :
    l.foldl (fun st i => camelCaseToUnderscore.body i st) { a := a, ranged := none, spare := spare }
      = { a := a, ranged := none, spare := spare } := by
  induction l with
  | nil => rfl
  | cons i l ih =>
    rw [List.foldl_cons, camelCaseToUnderscore.body_lower i a spare (h i (List.mem_cons_self i l))]
    exact ih (fun k hk => h k (List.mem_cons_of_mem i hk))

theorem camelCaseToUnderscore.foldl_lower_moved (l : List Nat) (a old : List Char) (spare : Nat)
    (h : ∀ i ∈ l, unicode.IsLower (old.getD i (Char.ofNat 0)) = true) :
    l.foldl (fun st i => camelCaseToUnderscore.body i st)
        { a := a, ranged := some old, spare := spare }
      = { a := a, ranged := some old, spare := spare } := by
  induction l with
  | nil => rfl
  | cons i l ih =>
    rw [List.foldl_cons,
      camelCaseToUnderscore.body_lower_moved i a old spare (h i (List.mem_cons_self i l))]
    exact ih (fun k hk => h k (List.mem_cons_of_mem i hk))

theorem camelCaseToUnderscore.body_insert (pre post : List Char) (U : Char) (spare : Nat)
    (hU : unicode.IsLower U = false) :
    camelCaseToUnderscore.body pre.length
        { a := pre ++ U :: post, ranged := none, spare := spare }
      = { a := pre ++ '_' :: unicode.ToLower U :: post
          ranged := if spare = 0 then some (pre ++ U :: post) else none
          spare := spare - 1 } := by
  unfold camelCaseToUnderscore.body
  have hr : (pre ++ U :: post).getD pre.length (Char.ofNat 0) = U := by
    rw [List.getD_eq_getElem?_getD, List.getElem?_append_right (Nat.le_refl _)]
    simp
  simp only [hr, hU, Bool.not_false, if_true]
  congr 1
  have h1 : (pre ++ U :: post ++ [Char.ofNat 0]).set pre.length (unicode.ToLower U)
      = pre ++ unicode.ToLower U :: (post ++ [Char.ofNat 0]) := by
    rw [List.append_assoc, List.set_append_right _ _ (Nat.le_refl _)]
    simp
  rw [h1]
  have h2 : List.take (pre.length + 1) (pre ++ unicode.ToLower U :: (post ++ [Char.ofNat 0]))
      = pre ++ [unicode.ToLower U] := by
    rw [List.take_append_eq_append_take]
    simp
  have h3 : List.drop pre.length (pre ++ unicode.ToLower U :: (post ++ [Char.ofNat 0]))
      = unicode.ToLower U :: (post ++ [Char.ofNat 0]) := by
    rw [List.drop_append_eq_append_drop]
    simp
  have h4 : (pre ++ unicode.ToLower U :: (post ++ [Char.ofNat 0])).length - (pre.length + 1)
      = post.length + 1 := by
    simp
    omega
  rw [h2, h3, h4]
  have h5 : List.take (post.length + 1) (unicode.ToLower U :: (post ++ [Char.ofNat 0]))
      = unicode.ToLower U :: post := by
    rw [List.take_succ_cons, List.take_append_eq_append_take]
    simp
  rw [h5, List.append_assoc, List.set_append_right _ _ (Nat.le_refl _)]
  simp

theorem camelCaseToUnderscore.getD_append_right (pre rest : List Char) (i : Nat)
    (hi : pre.length ≤ i) (c : Char) :
    (pre ++ rest).getD i c = rest.getD (i - pre.length) c := by
  rw [List.getD_eq_getElem?_getD, List.getD_eq_getElem?_getD, List.getElem?_append_right hi]

theorem camelCaseToUnderscore.getD_mem (l : List Char) (k : Nat) (hk : k < l.length) (c : Char) :
    l.getD k c ∈ l := by
  rw [List.getD_eq_getElem?_getD, List.getElem?_eq_getElem hk]
  exact List.getElem_mem hk

theorem underscoreSeparated.lower (l : List Char) (h : ∀ c ∈ l, unicode.IsLower c = true) :
    l.flatMap (fun r =>
      if 'A'.toNat ≤ r.toNat ∧ r.toNat ≤ 'Z'.toNat then ['_', Char.ofNat (r.toNat + 32)] else [r])
      = l := by
  induction l with
  | nil => rfl
  | cons c l ih =>
    have hc := h c (List.mem_cons_self c l)
    have hnot : ¬ ('A'.toNat ≤ c.toNat ∧ c.toNat ≤ 'Z'.toNat) := by
      unfold unicode.IsLower at hc
      have h2 := of_decide_eq_true hc
      have ha : 'a'.toNat = 97 := by decide
      have hz : 'Z'.toNat = 90 := by decide
      omega
    rw [List.flatMap_cons, if_neg hnot, ih (fun x hx => h x (List.mem_cons_of_mem c hx))]
    rfl

/-- What `camelCaseToUnderscore` returns for a string of lower-case letters with
one upper-case letter among them, whatever the capacity of the slice: the
string in which that letter is replaced by an underscore and its lower-case
form, as in the words of the specification. -/
theorem camelCaseToUnderscore_one_upper_case (spare : Nat) (pre post : List Char) (U : Char)
    (hpre : ∀ c ∈ pre, unicode.IsLower c = true)
    (hpost : ∀ c ∈ post, unicode.IsLower c = true)
    (hU : U ∈ "ABCDEFGHIJKLMNOPQRSTUVWXYZ".data) :
    camelCaseToUnderscore spare (String.mk (pre ++ U :: post))
        = String.mk (pre ++ '_' :: unicode.ToLower U :: post)
    ∧ underscoreSeparated (String.mk (pre ++ U :: post))
        = String.mk (pre ++ '_' :: unicode.ToLower U :: post) := by
  have hletters : ∀ V ∈ "ABCDEFGHIJKLMNOPQRSTUVWXYZ".data,
      unicode.IsLower V = false ∧ unicode.IsLower (unicode.ToLower V) = true
        ∧ ('A'.toNat ≤ V.toNat ∧ V.toNat ≤ 'Z'.toNat) := by decide
  obtain ⟨hU1, hU2, hU3⟩ := hletters U hU
  constructor
  · unfold camelCaseToUnderscore
    have hrange : List.range (pre ++ U :: post).length
        = List.range' 0 pre.length ++ pre.length :: List.range' (pre.length + 1) post.length := by
      rw [List.range_eq_range', List.length_append, List.length_cons,
        Nat.add_comm pre.length (post.length + 1),
        ← List.range'_append 0 pre.length (post.length + 1) 1]
      simp [List.range'_succ]
    simp only [hrange, List.foldl_append, List.foldl_cons]
    rw [camelCaseToUnderscore.foldl_lower _ _ _ (by
      intro i hi
      have hlt : i < pre.length := by simpa using hi
      rw [List.getD_eq_getElem?_getD, List.getElem?_append_left hlt,
        List.getElem?_eq_getElem hlt]
      exact hpre _ (List.getElem_mem hlt))]
    rw [camelCaseToUnderscore.body_insert pre post U spare hU1]
    cases spare with
    | zero =>
      simp only [if_true]
      rw [camelCaseToUnderscore.foldl_lower_moved _ _ _ _ (by
        intro i hi
        have hi2 : pre.length + 1 ≤ i ∧ i < pre.length + 1 + post.length := by simpa using hi
        rw [camelCaseToUnderscore.getD_append_right pre (U :: post) i (by omega)]
        have hk : i - pre.length = (i - pre.length - 1) + 1 := by omega
        rw [hk, List.getD_cons_succ]
        exact hpost _ (camelCaseToUnderscore.getD_mem post _ (by omega) _))]
    | succ n =>
      simp only [Nat.add_one_ne_zero, if_false]
      rw [camelCaseToUnderscore.foldl_lower _ _ _ (by
        intro i hi
        have hi2 : pre.length + 1 ≤ i ∧ i < pre.length + 1 + post.length := by simpa using hi
        rw [camelCaseToUnderscore.getD_append_right pre _ i (by omega)]
        have hk : i - pre.length = (i - pre.length - 1) + 1 := by omega
        rw [hk, List.getD_cons_succ]
        have hin := camelCaseToUnderscore.getD_mem (unicode.ToLower U :: post)
          (i - pre.length - 1) (by simp; omega) (Char.ofNat 0)
        rcases List.mem_cons.mp hin with h | h
        · rw [h]
          exact hU2
        · exact hpost _ h)]
  · unfold underscoreSeparated
    congr 1
    show (pre ++ U :: post).flatMap _ = _
    rw [List.flatMap_append, List.flatMap_cons, underscoreSeparated.lower pre hpre,
      underscoreSeparated.lower post hpost, if_pos hU3]
    unfold unicode.ToLower
    rw [if_pos hU3]
    rfl

/-- C29, at the strings `aBC` and `firstName`.  The underscore separated form
of `aBC` is `a_b_c`.  `camelCaseToUnderscore` returns `a__cC` when the
slice has no spare capacity and `a_bC` when it has some: the loop ranges over
the slice it inserts into, so the runes it reads after the first insertion are
not the runes that followed in the string.  With the single upper-case letter
of `firstName` it returns `first_name`, whatever the capacity. -/
theorem camelCaseToUnderscore_two_upper_case :
    underscoreSeparated "aBC" = "a_b_c"
    ∧ camelCaseToUnderscore 0 "aBC" = "a__cC"
    ∧ (∀ spare, camelCaseToUnderscore (spare + 1) "aBC" = "a_bC")
    ∧ (∀ spare, camelCaseToUnderscore spare "aBC" ≠ underscoreSeparated "aBC")
    ∧ (∀ spare, camelCaseToUnderscore spare "firstName" = "first_name") := by
  have h0 : camelCaseToUnderscore 0 "aBC" = "a__cC" := by decide
  have h1 : ∀ spare, camelCaseToUnderscore (spare + 1) "aBC" = "a_bC" := by
    intro n
    have hB : camelCaseToUnderscore.body 1 { a := "aBC".data, ranged := none, spare := n + 1 }
        = { a := "a_bC".data, ranged := none, spare := n } := by
      simp [camelCaseToUnderscore.body, unicode.IsLower, unicode.ToLower]
    unfold camelCaseToUnderscore
    have hr : List.range "aBC".data.length = [0, 1, 2] := by decide
    rw [hr]
    simp only [List.foldl_cons, List.foldl_nil]
    rw [camelCaseToUnderscore.body_lower 0 "aBC".data (n + 1) (by decide), hB,
      camelCaseToUnderscore.body_lower 2 "a_bC".data n (by decide)]
  have hspec : underscoreSeparated "aBC" = "a_b_c" := by decide
  refine ⟨hspec, h0, h1, ?_, ?_⟩
  · intro spare
    rw [hspec]
    cases spare with
    | zero =>
      rw [h0]
      decide
    | succ n =>
      rw [h1 n]
      decide
  · intro spare
    exact (camelCaseToUnderscore_one_upper_case spare "first".data "ame".data 'N'
      (by decide) (by decide) (by decide)).1

/-! ## Two JSON texts of one object -/

theorem GoMap.get?_eq_some_iff_mem {β : Type} (m : GoMap β) (hm : (GoMap.keys m).Nodup)
    (k : String) (v : β) : m.get? k = some v ↔ (k, v) ∈ m := by
  induction m with
  | nil => simp [GoMap.get?]
  | cons e m ih =>
    obtain ⟨a, b⟩ := e
    have hm2 : (GoMap.keys m).Nodup := (List.nodup_cons.mp hm).2
    have ha : a ∉ GoMap.keys m := (List.nodup_cons.mp hm).1
    rw [GoMap.get?_cons]
    by_cases hk : k = a
    · subst hk
      rw [if_pos rfl]
      constructor
      · intro h
        cases h
        exact List.mem_cons_self _ _
      · intro h
        rcases List.mem_cons.mp h with h | h
        · cases h
          rfl
        · exact absurd (List.mem_map_of_mem Prod.fst h) ha
    · rw [if_neg hk, ih hm2]
      constructor
      · exact fun h => List.mem_cons_of_mem _ h
      · intro h
        rcases List.mem_cons.mp h with h | h
        · cases h
          exact absurd rfl hk
        · exact h

theorem GoMap.get?_perm {β : Type} (m1 m2 : GoMap β) (h : m1.Perm m2)
    (hm : (GoMap.keys m2).Nodup) (k : String) : m1.get? k = m2.get? k := by
  have hm1 : (GoMap.keys m1).Nodup := ((h.map Prod.fst).nodup_iff).mpr hm
  apply Option.ext
  intro v
  simp only [Option.mem_def]
  rw [GoMap.get?_eq_some_iff_mem m1 hm1, GoMap.get?_eq_some_iff_mem m2 hm, h.mem_iff]

theorem reflect.DeepEqual.fields_iff (m1 m2 : GoMap JSONValue) :
    reflect.DeepEqual.fields m1 m2 = true
      ↔ ∀ e ∈ m1, ∃ w, m2.get? e.1 = some w ∧ reflect.DeepEqual e.2 w = true := by
  induction m1 with
  | nil => simp [reflect.DeepEqual.fields]
  | cons e m1 ih =>
    obtain ⟨k, v⟩ := e
    unfold reflect.DeepEqual.fields
    rw [Bool.and_eq_true, ih]
    constructor
    · rintro ⟨h1, h2⟩ e he
      rcases List.mem_cons.mp he with he | he
      · subst he
        cases hw : m2.get? k with
        | none => simp [hw] at h1
        | some w => exact ⟨w, rfl, by simpa [hw] using h1⟩
      · exact h2 e he
    · intro h
      refine ⟨?_, fun e he => h e (List.mem_cons_of_mem _ he)⟩
      obtain ⟨w, hw, hd⟩ := h (k, v) (List.mem_cons_self _ _)
      simp only [hw]
      exact hd

/-- C30, at the texts `null` and `null`: neither is an object, and
`noChangeInObjectFromUnmarshaledJSON` returns true. -/
theorem noChangeInObjectFromUnmarshaledJSON_null_counterexample :
    (refJSON.Unmarshal "null").isSome = true
    ∧ ((refJSON.Unmarshal "null").getD (.object [])).isNil = true
    ∧ noChangeInObjectFromUnmarshaledJSON refJSON "null" "null" = true := by
  refine ⟨by decide, by decide, by decide⟩

/-- C30, amended: `noChangeInObjectFromUnmarshaledJSON` returns true exactly
when the new text is empty, or both texts are objects of the same length in
which every key of the old one has a deeply equal value in the new one, or both
texts are the literal `null`.  The comparison of two objects does not depend on
the order of their keys, and the decoding does not depend on white space. -/
theorem noChangeInObjectFromUnmarshaledJSON_iff (J : JSONLib) (oldJSON newJSON : String) :
    (noChangeInObjectFromUnmarshaledJSON J oldJSON newJSON = true
      ↔ newJSON = ""
        ∨ (∃ m1 m2 : GoMap JSONValue, J.Unmarshal oldJSON = some (.object m1)
            ∧ J.Unmarshal newJSON = some (.object m2)
            ∧ m1.length = m2.length
            ∧ ∀ e ∈ m1, ∃ w, GoMap.get? m2 e.1 = some w ∧ reflect.DeepEqual e.2 w = true)
        ∨ (J.Unmarshal oldJSON = some .null ∧ J.Unmarshal newJSON = some .null))
    ∧ (∀ m1 m1p m2 m2p : GoMap JSONValue, m1p.Perm m1 → m2p.Perm m2 → (GoMap.keys m2).Nodup →
        reflect.DeepEqual.maps (some m1p) (some m2p) = reflect.DeepEqual.maps (some m1) (some m2))
    ∧ noChangeInObjectFromUnmarshaledJSON refJSON "\x7b\"a\":1,\"b\":[true,null]\x7d"
        " \x7b \"b\" : [true, null],\n \"a\" : 1 \x7d " = true
    ∧ noChangeInObjectFromUnmarshaledJSON refJSON "\x7b\"a\":1\x7d" "\x7b\"a\":2\x7d" = false
    ∧ noChangeInObjectFromUnmarshaledJSON refJSON "\x7b\"a\":1\x7d" "\x7b\"a\":1,\"b\":2\x7d" = false
    ∧ noChangeInObjectFromUnmarshaledJSON refJSON "[1]" "\x7b\x7d" = false
    ∧ noChangeInObjectFromUnmarshaledJSON refJSON "\x7b\x7d" "not json" = false
    ∧ noChangeInObjectFromUnmarshaledJSON refJSON "null" "\x7b\x7d" = false := by
  refine ⟨?_, ?_, by decide, by decide, by decide, by decide, by decide, by decide⟩
  · unfold noChangeInObjectFromUnmarshaledJSON
    by_cases hnew : newJSON = ""
    · simp [hnew]
    · rw [if_neg hnew]
      simp only [hnew, false_or]
      unfold JSONLib.UnmarshalNilMap
      cases ho : J.Unmarshal oldJSON with
      | none => simp
      | some vo =>
        cases hn : J.Unmarshal newJSON with
        | none => cases vo <;> simp
        | some vn =>
          cases vo <;> cases vn <;>
            simp [reflect.DeepEqual.maps, reflect.DeepEqual.fields_iff]
  · intro m1 m1p m2 m2p h1 h2 hnd
    have hf : reflect.DeepEqual.fields m1p m2p = reflect.DeepEqual.fields m1 m2 := by
      rw [Bool.eq_iff_iff, reflect.DeepEqual.fields_iff, reflect.DeepEqual.fields_iff]
      constructor
      · intro h e he
        obtain ⟨w, hw, hd⟩ := h e (h1.mem_iff.mpr he)
        exact ⟨w, by rw [← GoMap.get?_perm m2p m2 h2 hnd]; exact hw, hd⟩
      · intro h e he
        obtain ⟨w, hw, hd⟩ := h e (h1.mem_iff.mp he)
        exact ⟨w, by rw [GoMap.get?_perm m2p m2 h2 hnd]; exact hw, hd⟩
    simp only [reflect.DeepEqual.maps, hf, h1.length_eq, h2.length_eq]

/-! ## Building the view a second time -/

theorem mergedPayload_idem (P A : GoMap JSONValue) :
    mergedPayload (mergedPayload P A) A = mergedPayload P A := by
  unfold mergedPayload
  rw [List.map_map]
  apply List.map_congr_left
  intro e _
  simp only [Function.comp]
  cases h : GoMap.get? A e.1 with
  | none => simp only [h]
  | some v =>
    by_cases hv : v.isNil = true
    · simp only [hv, if_true, h]
    · simp only [hv, if_false, h, Bool.false_eq_true]

theorem mergedPayload_self (A : GoMap JSONValue) (hA : (GoMap.keys A).Nodup) :
    mergedPayload A A = A := by
  unfold mergedPayload
  conv_rhs => rw [← List.map_id A]
  apply List.map_congr_left
  intro e he
  have h : GoMap.get? A e.1 = some e.2 := (GoMap.get?_eq_some_iff_mem A hA e.1 e.2).mpr he
  simp only [h, id]
  split <;> rfl

theorem syncGroups.apiGroupsMap_fold_of_nodup (l : List ApplicationGroupAssignment)
    (m : GoMap ApplicationGroupAssignment)
    (hl : (l.map (fun a => a.Id)).Nodup) (hm : ∀ a ∈ l, m.contains a.Id = false) :
    l.foldl (fun m a => m.set a.Id a) m = m ++ l.map (fun a => (a.Id, a)) := by
  induction l generalizing m with
  | nil => simp
  | cons o l ih =>
    rw [List.foldl_cons]
    have ho : m.contains o.Id = false := hm o (List.mem_cons_self o l)
    have hset : m.set o.Id o = m ++ [(o.Id, o)] := by
      unfold GoMap.set
      simp [ho]
    rw [List.map_cons, List.nodup_cons] at hl
    rw [hset, ih _ hl.2]
    · simp
    · intro x hx
      have hne : x.Id ≠ o.Id := by
        intro heq
        exact hl.1 (heq ▸ List.mem_map_of_mem (fun a => a.Id) hx)
      rw [← hset, GoMap.contains_set, hm x (List.mem_cons_of_mem o hx)]
      simp [hne]

theorem syncGroups.apiGroupsMap_of_nodup (l : List ApplicationGroupAssignment)
    (hl : (l.map (fun a => a.Id)).Nodup) :
    syncGroups.apiGroupsMap l = l.map (fun a => (a.Id, a)) := by
  unfold syncGroups.apiGroupsMap
  rw [syncGroups.apiGroupsMap_fold_of_nodup l [] hl (by simp [GoMap.contains, GoMap.get?])]
  simp

theorem syncGroups.apiGroupsMap_get?_iff_mem (l : List ApplicationGroupAssignment)
    (hl : (l.map (fun a => a.Id)).Nodup) (k : String) (a : ApplicationGroupAssignment) :
    (syncGroups.apiGroupsMap l).get? k = some a ↔ a ∈ l ∧ a.Id = k := by
  have hkeys : (GoMap.keys (l.map (fun a : ApplicationGroupAssignment => (a.Id, a)))).Nodup := by
    simpa [GoMap.keys, List.map_map, Function.comp] using hl
  rw [syncGroups.apiGroupsMap_of_nodup l hl, GoMap.get?_eq_some_iff_mem _ hkeys, List.mem_map]
  constructor
  · rintro ⟨b, hb, hbe⟩
    cases hbe
    exact ⟨hb, rfl⟩
  · rintro ⟨ha, rfl⟩
    exact ⟨a, ha, rfl⟩

/-- Where an entry of the view comes from, for fetched assignments without a
repeated id: it has the id of a fetched assignment, and either it is the entry
of the first pass for a declared group with that id, with the profile
`buildProfile` returns and with the fetched priority if `configPriorities` has
the id, or no group with that id is declared and it is the entry of the second
pass, with the priority and the payload of the assignment. -/
theorem syncGroups_entry (J : JSONLib) (S : SliceSorter) (d : ResourceData)
    (groupAssignments : List ApplicationGroupAssignment)
    (hga : (groupAssignments.map (fun a => a.Id)).Nodup) (e : TFGroup)
    (he : e ∈ syncGroups J S d d.Get_group groupAssignments) :
    ∃ a ∈ groupAssignments, a.Id = e.id
      ∧ ((∃ i g, d.group.get? i = some g ∧ g.id = a.Id
            ∧ e.priority = a.PriorityPtr.bind (fun p =>
                if (syncGroups.configPriorities d d.Get_group).contains a.Id then some p else none)
            ∧ e.profile = some (buildProfile J d (i : Int) (some a)))
        ∨ (a.Id ∉ d.group.map (fun g => g.id)
            ∧ e.priority = a.PriorityPtr
            ∧ e.profile = (match a.Profile with
              | .null => some "\x7b\x7d"
              | .string p => some p
              | v => some (J.Marshal v)))) := by
  rw [syncGroups_eq, List.mem_append] at he
  rcases he with he | he
  · unfold syncGroups.firstPass at he
    rw [List.mem_filterMap] at he
    obtain ⟨⟨i, t⟩, hit, hf⟩ := he
    rw [List.mk_mem_enum_iff_getElem?] at hit
    simp only [ResourceData.Get_group, List.getElem?_map, Option.map_eq_some'] at hit
    obtain ⟨g, hg, hgt⟩ := hit
    cases hget : (syncGroups.apiGroupsMap groupAssignments).get? t.id with
    | none => simp [hget] at hf
    | some a =>
      simp only [hget, Option.some.injEq] at hf
      obtain ⟨ha, haid⟩ := (syncGroups.apiGroupsMap_get?_iff_mem groupAssignments hga t.id a).mp hget
      have htid : t.id = g.id := by rw [← hgt]
      refine ⟨a, ha, by rw [← hf], Or.inl ⟨i, g, ?_, ?_, ?_, by rw [← hf]⟩⟩
      · rw [List.get?_eq_getElem?]
        exact hg
      · rw [← htid, haid]
      · rw [← hf, haid]
        cases a.PriorityPtr <;> rfl
  · unfold syncGroups.secondPass at he
    rw [List.mem_filterMap] at he
    obtain ⟨a, ha, hf⟩ := he
    by_cases hany : (d.Get_group.any fun group => decide (group.id = a.Id)) = true
    · simp [hany] at hf
    · have hnot : a.Id ∉ d.group.map (fun g => g.id) := by
        intro hin
        apply hany
        rw [List.any_eq_true]
        obtain ⟨g, hg, hgid⟩ := List.mem_map.mp hin
        exact ⟨_, List.mem_map_of_mem _ hg, by simpa using hgid⟩
      simp only [hany, Bool.false_eq_true, if_false, Option.some.injEq] at hf
      exact ⟨a, ha, by rw [← hf],
        Or.inr ⟨hnot, by rw [← hf], by subst hf; cases a.Profile <;> rfl⟩⟩

/-- Two entries of the view with the same id have the same priority, for
fetched assignments without a repeated id. -/
theorem syncGroups_same_priority (J : JSONLib) (S : SliceSorter) (d : ResourceData)
    (groupAssignments : List ApplicationGroupAssignment)
    (hga : (groupAssignments.map (fun a => a.Id)).Nodup) (e1 e2 : TFGroup)
    (h1 : e1 ∈ syncGroups J S d d.Get_group groupAssignments)
    (h2 : e2 ∈ syncGroups J S d d.Get_group groupAssignments) (hid : e1.id = e2.id) :
    e1.priority = e2.priority := by
  obtain ⟨a1, ha1, hid1, hc1⟩ := syncGroups_entry J S d groupAssignments hga e1 h1
  obtain ⟨a2, ha2, hid2, hc2⟩ := syncGroups_entry J S d groupAssignments hga e2 h2
  have ha : a1 = a2 :=
    List.inj_on_of_nodup_map hga ha1 ha2 (by rw [hid1, hid2, hid])
  subst ha
  rcases hc1 with ⟨i1, g1, hg1, hgid1, hp1, _⟩ | ⟨hnot1, hp1, _⟩
  · rcases hc2 with ⟨i2, g2, hg2, hgid2, hp2, _⟩ | ⟨hnot2, hp2, _⟩
    · rw [hp1, hp2]
    · exact absurd (List.mem_map.mpr ⟨g1, List.get?_mem hg1, hgid1⟩) hnot2
  · rcases hc2 with ⟨i2, g2, hg2, hgid2, hp2, _⟩ | ⟨hnot2, hp2, _⟩
    · exact absurd (List.mem_map.mpr ⟨g2, List.get?_mem hg2, hgid2⟩) hnot1
    · rw [hp1, hp2]

/-- When `configPriorities` has an id: when a declared group with that id has a
priority other than `0`. -/
theorem syncGroups.configPriorities_contains_iff (d : ResourceData) (k : String) :
    (syncGroups.configPriorities d d.Get_group).contains k = true
      ↔ ∃ g ∈ d.group, g.id = k ∧ ∃ n, g.priority = some n ∧ n ≠ 0 := by
  unfold syncGroups.configPriorities
  rw [syncGroups.configPriorities_fold_contains]
  simp only [GoMap.contains, GoMap.get?, List.lookup, Option.isSome_none, Bool.false_or,
    List.any_eq_true, Bool.and_eq_true, decide_eq_true_eq]
  constructor
  · rintro ⟨⟨i, t⟩, hit, hid, hok⟩
    rw [List.mk_mem_enum_iff_getElem?] at hit
    simp only [ResourceData.Get_group, List.getElem?_map, Option.map_eq_some'] at hit
    obtain ⟨g, hg, hgt⟩ := hit
    have hg2 : d.group.get? i = some g := by rw [List.get?_eq_getElem?]; exact hg
    refine ⟨g, List.get?_mem hg2, by rw [← hid, ← hgt], ?_⟩
    simp only [ResourceData.GetOk_priority, hg2] at hok
    cases hp : g.priority with
    | none => simp [hp] at hok
    | some n =>
      simp only [hp, bne_iff_ne, ne_eq] at hok
      exact ⟨n, rfl, hok⟩
  · rintro ⟨g, hg, hid, n, hp, hn⟩
    obtain ⟨i, hi⟩ := List.mem_iff_getElem?.mp hg
    have hg2 : d.group.get? i = some g := by rw [List.get?_eq_getElem?]; exact hi
    refine ⟨(i, { id := g.id, priority := some (g.priority.getD 0), profile := some g.profile }),
      ?_, hid, ?_⟩
    · rw [List.mk_mem_enum_iff_getElem?]
      simp [ResourceData.Get_group, hi]
    · simp only [ResourceData.GetOk_priority, hg2, hp, bne_iff_ne, ne_eq]
      exact hn

/-- What `buildProfile` returns for a fetched assignment whose payload is not an
object: the empty string, whatever the resource data and the index. -/
theorem buildProfile_not_object (J : JSONLib) (d : ResourceData) (i : Int)
    (a : ApplicationGroupAssignment) (h : ∀ Ae, a.Profile ≠ .object Ae) :
    buildProfile J d i (some a) = "" := by
  unfold buildProfile
  simp only []
  split
  · rfl
  · cases hU : J.UnmarshalMap (d.Get_profile i.toNat) with
    | none => rfl
    | some opm =>
      cases hAp : a.Profile with
      | object Ae => exact absurd hAp (h Ae)
      | null => rfl
      | bool b => rfl
      | number t => rfl
      | string s => rfl
      | array items => rfl

/-- What `buildProfile` returns when the profile it reads from the resource
data is the text it returned before for the same fetched assignment: that text
again, provided the library rejects the empty text, decodes the encoding of nil
to nil and decodes the encoding of the merged payload to that payload. -/
theorem buildProfile_again (J : JSONLib) (d d2 : ResourceData) (i j : Nat)
    (a : ApplicationGroupAssignment)
    (hprofile : d2.Get_profile j = buildProfile J d (i : Int) (some a))
    (hempty : J.Unmarshal "" = none)
    (hnull : J.Unmarshal (J.Marshal .null) = some .null)
    (hkeys : ∀ Ae, a.Profile = .object Ae → (GoMap.keys Ae).Nodup)
    (hround : ∀ P Ae, J.UnmarshalMap (d.Get_profile i) = some (some P) →
      a.Profile = .object Ae →
      J.Unmarshal (J.Marshal (.object (buildProfile.merge P Ae)))
        = some (.object (buildProfile.merge P Ae))) :
    buildProfile J d2 (j : Int) (some a) = buildProfile J d (i : Int) (some a) := by
  have hi : ¬ ((i : Int) < 0) := by omega
  have hj : ¬ ((j : Int) < 0) := by omega
  have hemptyMap : J.UnmarshalMap "" = none := by
    unfold JSONLib.UnmarshalMap
    rw [hempty]
  by_cases hobj : ∀ Ae, a.Profile ≠ .object Ae
  · rw [buildProfile_not_object J d2 _ a hobj, buildProfile_not_object J d _ a hobj]
  · push_neg at hobj
    obtain ⟨Ae, hAp⟩ := hobj
    cases hP : J.UnmarshalMap (d.Get_profile i) with
    | none =>
      have h1 : buildProfile J d (i : Int) (some a) = "" := by
        unfold buildProfile
        simp only [hi, if_false, Int.toNat_ofNat, hP]
      rw [h1] at hprofile ⊢
      unfold buildProfile
      simp only [hj, if_false, Int.toNat_ofNat, hprofile, hemptyMap]
    | some opm =>
      cases opm with
      | none =>
        have h1 : buildProfile J d (i : Int) (some a) = J.Marshal .null := by
          unfold buildProfile
          simp only [hi, if_false, Int.toNat_ofNat, hP, hAp]
        rw [h1] at hprofile ⊢
        have h2 : J.UnmarshalMap (d2.Get_profile j) = some none := by
          unfold JSONLib.UnmarshalMap
          rw [hprofile, hnull]
        unfold buildProfile
        simp only [hj, if_false, Int.toNat_ofNat, h2, hAp]
      | some P =>
        have h1 : buildProfile J d (i : Int) (some a)
            = J.Marshal (.object (buildProfile.merge P Ae)) := by
          unfold buildProfile
          simp only [hi, if_false, Int.toNat_ofNat, hP, hAp]
        rw [h1] at hprofile ⊢
        have h2 : J.UnmarshalMap (d2.Get_profile j) = some (some (buildProfile.merge P Ae)) := by
          unfold JSONLib.UnmarshalMap
          rw [hprofile, hround P Ae hP hAp]
        unfold buildProfile
        simp only [hj, if_false, Int.toNat_ofNat, h2, hAp]
        rw [buildProfile.merge_eq_mergedPayload P Ae (hkeys Ae hAp),
          buildProfile.merge_eq_mergedPayload _ Ae (hkeys Ae hAp), mergedPayload_idem]

/-- C26, at the declaration of `g1` with the fetched assignments `g1` and `g2`,
the latter with a nil payload: the first view gives `g2` the profile `{}`; the
view built again from that view and the same fetched assignments gives `g2` the
empty profile, because `buildProfile` returns the empty string for a payload
that is not an object. -/
theorem syncGroups_refresh_counterexample :
    syncGroups refJSON insertionSorter
        { app_id := "app", group := [{ id := "g1", priority := none, profile := "\x7b\x7d" }] }
        (ResourceData.Get_group
          { app_id := "app", group := [{ id := "g1", priority := none, profile := "\x7b\x7d" }] })
        [{ Id := "g1", PriorityPtr := none, Profile := .object [] },
         { Id := "g2", PriorityPtr := none, Profile := .null }]
      = [{ id := "g1", priority := none, profile := some "\x7b\x7d" },
         { id := "g2", priority := none, profile := some "\x7b\x7d" }]
    ∧ ResourceData.Set_group
        { app_id := "app", group := [{ id := "g1", priority := none, profile := "\x7b\x7d" }] }
        [{ id := "g1", priority := none, profile := some "\x7b\x7d" },
         { id := "g2", priority := none, profile := some "\x7b\x7d" }]
      = { app_id := "app",
          group := [{ id := "g1", priority := none, profile := "\x7b\x7d" },
                    { id := "g2", priority := none, profile := "\x7b\x7d" }] }
    ∧ syncGroups refJSON insertionSorter
        { app_id := "app",
          group := [{ id := "g1", priority := none, profile := "\x7b\x7d" },
                    { id := "g2", priority := none, profile := "\x7b\x7d" }] }
        (ResourceData.Get_group
          { app_id := "app",
            group := [{ id := "g1", priority := none, profile := "\x7b\x7d" },
                      { id := "g2", priority := none, profile := "\x7b\x7d" }] })
        [{ Id := "g1", PriorityPtr := none, Profile := .object [] },
         { Id := "g2", PriorityPtr := none, Profile := .null }]
      = [{ id := "g1", priority := none, profile := some "\x7b\x7d" },
         { id := "g2", priority := none, profile := some "" }] := by
  refine ⟨by decide, by decide, by decide⟩

/-- C26, amended: for fetched assignments without a repeated id, the view built
again from the view and the same fetched assignments is the view, and setting
it leaves the resource data as it is, when no entry of the view has the
priority `0`, every fetched payload that is an object has distinct keys, every
fetched assignment that is not declared has an object or the empty string as
payload, and the library rejects the empty text, decodes the encoding of nil to
nil and decodes the encoding of each object the view holds to that object.  For
a fetched assignment that is not declared and whose payload is not an object,
every entry of the second view with its id has the empty string as profile, so
the second view is not the first when that payload is nil, a string other than
the empty string, or another value whose encoding is not the empty text. -/
theorem syncGroups_refresh_stable (J : JSONLib) (S : SliceSorter) (d : ResourceData)
    (groupAssignments : List ApplicationGroupAssignment)
    (hA : (groupAssignments.map (fun a => a.Id)).Nodup) :
    ((∀ e ∈ syncGroups J S d d.Get_group groupAssignments, e.priority ≠ some 0) →
      (∀ a ∈ groupAssignments, ∀ Ae, a.Profile = .object Ae → (GoMap.keys Ae).Nodup) →
      (∀ a ∈ groupAssignments, a.Id ∉ d.group.map (fun g => g.id) →
        a.Profile = .string "" ∨ ∃ Ae, a.Profile = .object Ae
          ∧ J.Unmarshal (J.Marshal (.object Ae)) = some (.object Ae)) →
      (∀ a ∈ groupAssignments, ∀ g ∈ d.group, g.id = a.Id →
        ∀ P Ae, J.UnmarshalMap g.profile = some (some P) → a.Profile = .object Ae →
          J.Unmarshal (J.Marshal (.object (buildProfile.merge P Ae)))
            = some (.object (buildProfile.merge P Ae))) →
      J.Unmarshal "" = none →
      J.Unmarshal (J.Marshal .null) = some .null →
      syncGroups J S (d.Set_group (syncGroups J S d d.Get_group groupAssignments))
          (d.Set_group (syncGroups J S d d.Get_group groupAssignments)).Get_group groupAssignments
        = syncGroups J S d d.Get_group groupAssignments
      ∧ (d.Set_group (syncGroups J S d d.Get_group groupAssignments)).Set_group
          (syncGroups J S (d.Set_group (syncGroups J S d d.Get_group groupAssignments))
            (d.Set_group (syncGroups J S d d.Get_group groupAssignments)).Get_group
            groupAssignments)
        = d.Set_group (syncGroups J S d d.Get_group groupAssignments))
    ∧ (∀ a ∈ groupAssignments, a.Id ∉ d.group.map (fun g => g.id) →
        (∀ Ae, a.Profile ≠ .object Ae) →
        (∀ e2 ∈ syncGroups J S (d.Set_group (syncGroups J S d d.Get_group groupAssignments))
            (d.Set_group (syncGroups J S d d.Get_group groupAssignments)).Get_group
            groupAssignments,
          e2.id = a.Id → e2.profile = some "")
        ∧ (a.Profile = .null →
            syncGroups J S (d.Set_group (syncGroups J S d d.Get_group groupAssignments))
              (d.Set_group (syncGroups J S d d.Get_group groupAssignments)).Get_group
              groupAssignments
            ≠ syncGroups J S d d.Get_group groupAssignments)
        ∧ (∀ p, a.Profile = .string p → p ≠ "" →
            syncGroups J S (d.Set_group (syncGroups J S d d.Get_group groupAssignments))
              (d.Set_group (syncGroups J S d d.Get_group groupAssignments)).Get_group
              groupAssignments
            ≠ syncGroups J S d d.Get_group groupAssignments)
        ∧ (a.Profile ≠ .null → (∀ p, a.Profile ≠ .string p) → J.Marshal a.Profile ≠ "" →
            syncGroups J S (d.Set_group (syncGroups J S d d.Get_group groupAssignments))
              (d.Set_group (syncGroups J S d d.Get_group groupAssignments)).Get_group
              groupAssignments
            ≠ syncGroups J S d d.Get_group groupAssignments)) := by
  have hmem1 := syncGroups_mem_ids J S d d.Get_group groupAssignments
  have hentry := syncGroups_entry J S d groupAssignments hA
  have hsame := syncGroups_same_priority J S d groupAssignments hA
  have hentry2 := fun view1 => syncGroups_entry J S (d.Set_group view1) groupAssignments hA
  have hdriftmem : ∀ a ∈ groupAssignments, a.Id ∉ d.group.map (fun g => g.id) →
      ∃ e1 ∈ syncGroups J S d d.Get_group groupAssignments, e1.id = a.Id
        ∧ (a.Profile = .null → e1.profile = some "\x7b\x7d")
        ∧ (∀ p, a.Profile = .string p → e1.profile = some p)
        ∧ (a.Profile ≠ .null → (∀ p, a.Profile ≠ .string p) →
            e1.profile = some (J.Marshal a.Profile)) := by
    intro a ha hnot
    have h2 : (d.Get_group.any fun group => decide (group.id = a.Id)) = false := by
      rw [List.any_eq_false]
      intro t ht
      simp only [ResourceData.Get_group, List.mem_map] at ht
      obtain ⟨g, hg, hgt⟩ := ht
      have hne : g.id ≠ a.Id := fun h => hnot (List.mem_map.mpr ⟨g, hg, h⟩)
      rw [← hgt]
      simpa using hne
    refine ⟨{ id := a.Id
              profile :=
                match a.Profile with
                | .null => some "\x7b\x7d"
                | .string p => some p
                | v => some (J.Marshal v)
              priority := a.PriorityPtr }, ?_, rfl, ?_, ?_, ?_⟩
    · rw [syncGroups_eq]
      apply List.mem_append_right
      unfold syncGroups.secondPass
      rw [List.mem_filterMap]
      exact ⟨a, ha, by rw [h2]; rfl⟩
    · intro hp
      simp only [hp]
    · intro p hp
      simp only [hp]
    · intro hn hs
      cases hp : a.Profile with
      | null => exact absurd hp hn
      | string p => exact absurd hp (hs p)
      | bool b => rfl
      | number t => rfl
      | array items => rfl
      | object fields => rfl
  generalize syncGroups J S d d.Get_group groupAssignments = view1
    at hmem1 hentry hsame hdriftmem ⊢
  have hgroup2 : ∀ (j : Nat) (e : TFGroup), view1[j]? = some e →
      (d.Set_group view1).group.get? j
        = some { id := e.id, priority := e.priority, profile := e.profile.getD "" } := by
    intro j e hje
    simp [ResourceData.Set_group, List.get?_eq_getElem?, List.getElem?_map, hje]
  have hids2 : (d.Set_group view1).group.map (fun b => b.id) = view1.map (fun g => g.id) := by
    simp [ResourceData.Set_group, List.map_map, Function.comp]
  constructor
  · intro hzero hkeys hdrift hmatched hempty hnull
    have hmain : syncGroups J S (d.Set_group view1) (d.Set_group view1).Get_group groupAssignments
        = view1 := by
      have htf2 : (d.Set_group view1).Get_group
          = view1.map (fun e => ({ id := e.id, priority := some (e.priority.getD 0),
                                   profile := some (e.profile.getD "") } : TFGroup)) := by
        simp [ResourceData.Get_group, ResourceData.Set_group, List.map_map, Function.comp]
      have htf2ids : (d.Set_group view1).Get_group.map (fun g => g.id)
          = view1.map (fun g => g.id) := by
        rw [htf2, List.map_map]
        rfl
      have hcp : ∀ e ∈ view1,
          (syncGroups.configPriorities (d.Set_group view1) (d.Set_group view1).Get_group).contains
            e.id = e.priority.isSome := by
        intro e he
        rw [Bool.eq_iff_iff, syncGroups.configPriorities_contains_iff]
        constructor
        · rintro ⟨g, hg, hgid, n, hp, _⟩
          simp only [ResourceData.Set_group, List.mem_map] at hg
          obtain ⟨e1, he1, hge⟩ := hg
          have hid : e1.id = e.id := by rw [← hgid, ← hge]
          have hpe : e1.priority = some n := by rw [← hp, ← hge]
          rw [← hsame e1 e he1 he hid, hpe]
          rfl
        · intro hsome
          obtain ⟨n, hn⟩ := Option.isSome_iff_exists.mp hsome
          refine ⟨{ id := e.id, priority := e.priority, profile := e.profile.getD "" }, ?_, rfl,
            n, hn, ?_⟩
          · simp only [ResourceData.Set_group, List.mem_map]
            exact ⟨e, he, rfl⟩
          · intro h0
            exact hzero e he (by rw [hn, h0])
      rw [syncGroups_eq]
      have hsp : syncGroups.secondPass J (d.Set_group view1).Get_group groupAssignments = [] := by
        have h := syncGroups.secondPass_ids J (d.Set_group view1).Get_group groupAssignments
        rw [htf2ids] at h
        have hnil : (groupAssignments.map (fun a => a.Id)).filter
            (fun id => decide (id ∉ view1.map (fun g => g.id))) = [] := by
          rw [List.filter_eq_nil_iff]
          intro k hk
          simpa using (hmem1 k).mpr hk
        rw [hnil] at h
        exact List.map_eq_nil_iff.mp h
      rw [hsp, List.append_nil]
      have key : ∀ (l : List (Nat × TFGroup)) (F : Nat × TFGroup → Option TFGroup),
          (∀ je ∈ l, F je = some je.2) → l.filterMap F = l.map Prod.snd := by
        intro l F h
        rw [List.filterMap_congr h]
        exact congrFun (List.filterMap_eq_map Prod.snd) l
      unfold syncGroups.firstPass
      generalize syncGroups.configPriorities (d.Set_group view1) (d.Set_group view1).Get_group
        = cp2 at hcp ⊢
      rw [htf2, List.enum_map, List.filterMap_map]
      refine (key _ _ ?_).trans (List.enum_map_snd view1)
      rintro ⟨j, e⟩ hje
      rw [List.mk_mem_enum_iff_getElem?] at hje
      have he : e ∈ view1 := List.mem_iff_getElem?.mpr ⟨j, hje⟩
      obtain ⟨a, ha, haid, hcase⟩ := hentry e he
      have hget : (syncGroups.apiGroupsMap groupAssignments).get? e.id = some a :=
        (syncGroups.apiGroupsMap_get?_iff_mem groupAssignments hA e.id a).mpr ⟨ha, haid⟩
      have hprofile2 : (d.Set_group view1).Get_profile j = e.profile.getD "" := by
        unfold ResourceData.Get_profile
        rw [hgroup2 j e hje]
      have hprio : e.priority = none ∨ e.priority = a.PriorityPtr := by
        rcases hcase with ⟨i, g, _, _, hp, _⟩ | ⟨_, hp, _⟩
        · rw [hp]
          cases a.PriorityPtr with
          | none => exact Or.inl rfl
          | some p =>
            by_cases hc : (syncGroups.configPriorities d d.Get_group).contains a.Id = true
            · exact Or.inr (by simp [hc])
            · exact Or.inl (by simp [hc])
        · exact Or.inr hp
      have hj : ¬ ((j : Int) < 0) := by omega
      simp only [Function.comp, Prod.map, id, hget, hcp e he]
      obtain ⟨eid, eprio, eprof⟩ := e
      simp only at haid hprio hcase hprofile2 ⊢
      rw [Option.some.injEq, TFGroup.mk.injEq]
      refine ⟨haid, ?_, ?_⟩
      · rcases hprio with hp | hp
        · subst hp
          cases a.PriorityPtr <;> simp
        · subst hp
          cases hq : a.PriorityPtr with
          | none => rfl
          | some p => simp
      · rcases hcase with ⟨i, g, hg, hgid, _, hpr⟩ | ⟨hnot, _, hpr⟩
        · subst hpr
          simp only [Option.getD_some] at hprofile2
          have hgp : d.Get_profile i = g.profile := by
            unfold ResourceData.Get_profile
            rw [hg]
          rw [buildProfile_again J d (d.Set_group view1) i j a hprofile2 hempty hnull
            (hkeys a ha)
            (fun P Ae hP hAe =>
              hmatched a ha g (List.get?_mem hg) hgid P Ae (by rw [← hgp]; exact hP) hAe)]
        · rcases hdrift a ha hnot with hstr | ⟨Ae, hAe, hround⟩
          · rw [hstr] at hpr
            simp only at hpr
            subst hpr
            rw [buildProfile_not_object J (d.Set_group view1) _ a
              (by intro Ae hAe; rw [hstr] at hAe; cases hAe)]
          · rw [hAe] at hpr
            simp only at hpr
            subst hpr
            simp only [Option.getD_some] at hprofile2
            have h2 : J.UnmarshalMap ((d.Set_group view1).Get_profile j) = some (some Ae) := by
              unfold JSONLib.UnmarshalMap
              rw [hprofile2, hround]
            unfold buildProfile
            simp only [hj, if_false, Int.toNat_ofNat, h2, hAe]
            rw [buildProfile.merge_eq_mergedPayload Ae Ae (hkeys a ha Ae hAe),
              mergedPayload_self Ae (hkeys a ha Ae hAe)]
    exact ⟨hmain, by rw [hmain]; simp [ResourceData.Set_group]⟩
  · intro a ha hnot hobj
    obtain ⟨e1, he1, he1id, hnullp, hstrp, hotherp⟩ := hdriftmem a ha hnot
    have hsecond : ∀ e2 ∈ syncGroups J S (d.Set_group view1) (d.Set_group view1).Get_group
        groupAssignments, e2.id = a.Id → e2.profile = some "" := by
      intro e2 he2 hid2
      obtain ⟨a2, ha2, haid2, hcase⟩ := hentry2 view1 e2 he2
      have haa : a2 = a := List.inj_on_of_nodup_map hA ha2 ha (by rw [haid2, hid2])
      subst haa
      rcases hcase with ⟨i, g, _, _, _, hpr⟩ | ⟨hnot2, _, _⟩
      · rw [hpr, buildProfile_not_object J (d.Set_group view1) _ a2 hobj]
      · exfalso
        apply hnot2
        rw [hids2]
        exact List.mem_map.mpr ⟨e1, he1, he1id⟩
    have hdiff : ∀ t : String, e1.profile = some t → t ≠ "" →
        syncGroups J S (d.Set_group view1) (d.Set_group view1).Get_group groupAssignments
          ≠ view1 := by
      intro t ht hne heq
      have h := hsecond e1 (by rw [heq]; exact he1) he1id
      rw [ht, Option.some.injEq] at h
      exact hne h
    refine ⟨hsecond, ?_, ?_, ?_⟩
    · intro hp
      exact hdiff _ (hnullp hp) (by decide)
    · intro p hp hne
      exact hdiff _ (hstrp p hp) hne
    · intro hn hs hne
      exact hdiff _ (hotherp hn hs) hne

/-- C26, amended, at the declaration of `A` with priority 1 and the profile
`{"x":1}`, fetched with priority 5 and the payload `{"x":2,"y":9}` next to the
undeclared `X` with priority 3 and the payload `{"role":"admin"}` and the
undeclared `Y` with the empty string as payload: the view is `A` with priority 5
and the profile `{"x":2}`, then `X`, then `Y`; built again from that view, it is
the same.  At the declaration of `g1`, fetched next to the undeclared `g2` with
the string `x` as payload: the view gives `g2` the profile `x`, and the view
built again from it is another, with the empty profile for `g2`. -/
theorem syncGroups_refresh_stable_witness :
    (syncGroups refJSON insertionSorter
        { app_id := "app", group := [{ id := "A", priority := some 1, profile := "\x7b\"x\":1\x7d" }] }
        (ResourceData.Get_group
          { app_id := "app",
            group := [{ id := "A", priority := some 1, profile := "\x7b\"x\":1\x7d" }] })
        [{ Id := "A", PriorityPtr := some 5,
           Profile := .object [("x", .number "2"), ("y", .number "9")] },
         { Id := "X", PriorityPtr := some 3, Profile := .object [("role", .string "admin")] },
         { Id := "Y", PriorityPtr := none, Profile := .string "" }]
      = [{ id := "A", priority := some 5, profile := some "\x7b\"x\":2\x7d" },
         { id := "X", priority := some 3, profile := some "\x7b\"role\":\"admin\"\x7d" },
         { id := "Y", priority := none, profile := some "" }]
    ∧ syncGroups refJSON insertionSorter
        { app_id := "app",
          group := [{ id := "A", priority := some 5, profile := "\x7b\"x\":2\x7d" },
                    { id := "X", priority := some 3, profile := "\x7b\"role\":\"admin\"\x7d" },
                    { id := "Y", priority := none, profile := "" }] }
        (ResourceData.Get_group
          { app_id := "app",
            group := [{ id := "A", priority := some 5, profile := "\x7b\"x\":2\x7d" },
                      { id := "X", priority := some 3, profile := "\x7b\"role\":\"admin\"\x7d" },
                      { id := "Y", priority := none, profile := "" }] })
        [{ Id := "A", PriorityPtr := some 5,
           Profile := .object [("x", .number "2"), ("y", .number "9")] },
         { Id := "X", PriorityPtr := some 3, Profile := .object [("role", .string "admin")] },
         { Id := "Y", PriorityPtr := none, Profile := .string "" }]
      = [{ id := "A", priority := some 5, profile := some "\x7b\"x\":2\x7d" },
         { id := "X", priority := some 3, profile := some "\x7b\"role\":\"admin\"\x7d" },
         { id := "Y", priority := none, profile := some "" }])
    ∧ (syncGroups refJSON insertionSorter
        { app_id := "app", group := [{ id := "g1", priority := none, profile := "\x7b\x7d" }] }
        (ResourceData.Get_group
          { app_id := "app", group := [{ id := "g1", priority := none, profile := "\x7b\x7d" }] })
        [{ Id := "g1", PriorityPtr := none, Profile := .object [] },
         { Id := "g2", PriorityPtr := none, Profile := .string "x" }]
      = [{ id := "g1", priority := none, profile := some "\x7b\x7d" },
         { id := "g2", priority := none, profile := some "x" }]
    ∧ syncGroups refJSON insertionSorter
        { app_id := "app",
          group := [{ id := "g1", priority := none, profile := "\x7b\x7d" },
                    { id := "g2", priority := none, profile := "x" }] }
        (ResourceData.Get_group
          { app_id := "app",
            group := [{ id := "g1", priority := none, profile := "\x7b\x7d" },
                      { id := "g2", priority := none, profile := "x" }] })
        [{ Id := "g1", PriorityPtr := none, Profile := .object [] },
         { Id := "g2", PriorityPtr := none, Profile := .string "x" }]
      ≠ [{ id := "g1", priority := none, profile := some "\x7b\x7d" },
         { id := "g2", priority := none, profile := some "x" }]) :=
  ⟨⟨by decide,
    (show syncGroups refJSON insertionSorter
        { app_id := "app",
          group := [{ id := "A", priority := some 5, profile := "\x7b\"x\":2\x7d" },
                    { id := "X", priority := some 3, profile := "\x7b\"role\":\"admin\"\x7d" },
                    { id := "Y", priority := none, profile := "" }] }
        (ResourceData.Get_group
          { app_id := "app",
            group := [{ id := "A", priority := some 5, profile := "\x7b\"x\":2\x7d" },
                      { id := "X", priority := some 3, profile := "\x7b\"role\":\"admin\"\x7d" },
                      { id := "Y", priority := none, profile := "" }] })
        [{ Id := "A", PriorityPtr := some 5,
           Profile := .object [("x", .number "2"), ("y", .number "9")] },
         { Id := "X", PriorityPtr := some 3, Profile := .object [("role", .string "admin")] },
         { Id := "Y", PriorityPtr := none, Profile := .string "" }]
      = syncGroups refJSON insertionSorter
        { app_id := "app", group := [{ id := "A", priority := some 1, profile := "\x7b\"x\":1\x7d" }] }
        (ResourceData.Get_group
          { app_id := "app",
            group := [{ id := "A", priority := some 1, profile := "\x7b\"x\":1\x7d" }] })
        [{ Id := "A", PriorityPtr := some 5,
           Profile := .object [("x", .number "2"), ("y", .number "9")] },
         { Id := "X", PriorityPtr := some 3, Profile := .object [("role", .string "admin")] },
         { Id := "Y", PriorityPtr := none, Profile := .string "" }]
    from ((syncGroups_refresh_stable refJSON insertionSorter
      { app_id := "app", group := [{ id := "A", priority := some 1, profile := "\x7b\"x\":1\x7d" }] }
      [{ Id := "A", PriorityPtr := some 5,
         Profile := .object [("x", .number "2"), ("y", .number "9")] },
       { Id := "X", PriorityPtr := some 3, Profile := .object [("role", .string "admin")] },
       { Id := "Y", PriorityPtr := none, Profile := .string "" }]
      (by decide)).1
      (by decide)
      (by
        intro a ha Ae hAe
        simp only [List.mem_cons, List.mem_singleton, List.not_mem_nil, or_false] at ha
        rcases ha with rfl | rfl | rfl <;> (cases hAe <;> decide))
      (by
        intro a ha hnot
        simp only [List.mem_cons, List.mem_singleton, List.not_mem_nil, or_false] at ha
        rcases ha with rfl | rfl | rfl
        · exact absurd (by decide) hnot
        · exact Or.inr ⟨_, rfl, rfl⟩
        · exact Or.inl rfl)
      (by
        intro a ha g hg hgid P Ae hP hAe
        simp only [List.mem_cons, List.mem_singleton, List.not_mem_nil, or_false] at ha hg
        subst hg
        rcases ha with rfl | rfl | rfl
        · cases hAe
          have hdec : refJSON.UnmarshalMap "\x7b\"x\":1\x7d" = some (some [("x", .number "1")]) :=
            rfl
          rw [hdec] at hP
          cases hP
          rfl
        · exact absurd hgid (by decide)
        · exact absurd hgid (by decide))
      rfl rfl).1).trans (by decide)⟩,
   by decide,
   (show syncGroups refJSON insertionSorter
        { app_id := "app",
          group := [{ id := "g1", priority := none, profile := "\x7b\x7d" },
                    { id := "g2", priority := none, profile := "x" }] }
        (ResourceData.Get_group
          { app_id := "app",
            group := [{ id := "g1", priority := none, profile := "\x7b\x7d" },
                      { id := "g2", priority := none, profile := "x" }] })
        [{ Id := "g1", PriorityPtr := none, Profile := .object [] },
         { Id := "g2", PriorityPtr := none, Profile := .string "x" }]
      ≠ syncGroups refJSON insertionSorter
        { app_id := "app", group := [{ id := "g1", priority := none, profile := "\x7b\x7d" }] }
        (ResourceData.Get_group
          { app_id := "app", group := [{ id := "g1", priority := none, profile := "\x7b\x7d" }] })
        [{ Id := "g1", PriorityPtr := none, Profile := .object [] },
         { Id := "g2", PriorityPtr := none, Profile := .string "x" }]
    from ((syncGroups_refresh_stable refJSON insertionSorter
      { app_id := "app", group := [{ id := "g1", priority := none, profile := "\x7b\x7d" }] }
      [{ Id := "g1", PriorityPtr := none, Profile := .object [] },
       { Id := "g2", PriorityPtr := none, Profile := .string "x" }]
      (by decide)).2
      { Id := "g2", PriorityPtr := none, Profile := .string "x" }
      (List.mem_cons_of_mem _ (List.mem_cons_self _ _))
      (by decide)
      (by intro Ae hAe; cases hAe)).2.2.1 "x" rfl (by decide))⟩

/-! ## The search criteria of the data source `okta_user` -/

/-- C31: `getSearchCriteria` joins the clauses of the filters, in the order of
the list, with the compound search operator between single spaces, ` and ` when
the operator is empty.  The clause of a filter with a non-empty expression is
that expression, whatever its name, value and comparison; the clause of any
other filter is its name, a space and its comparison, followed by a space and
the value in double quotes only when the value is not empty. -/
theorem getSearchCriteria_clauses (d : UserSearchData) :
    getSearchCriteria d
      = String.intercalate (" " ++ (if d.compound_search_operator = "" then "and"
            else d.compound_search_operator) ++ " ")
          (d.search.map getSearchCriteria.filter)
    ∧ (∀ f : SearchFilter, f.expression ≠ "" → getSearchCriteria.filter f = f.expression)
    ∧ (∀ f g : SearchFilter, f.expression ≠ "" → g.expression = f.expression →
        getSearchCriteria.filter g = getSearchCriteria.filter f)
    ∧ (∀ f : SearchFilter, f.expression = "" → f.value = "" →
        getSearchCriteria.filter f = f.name ++ " " ++ f.comparison)
    ∧ (∀ f : SearchFilter, f.expression = "" → f.value ≠ "" →
        getSearchCriteria.filter f = f.name ++ " " ++ f.comparison ++ " \"" ++ f.value ++ "\"")
    ∧ getSearchCriteria
        { search := [{ name := "profile.firstName", value := "Some", comparison := "eq",
                       expression := "" },
                     { name := "profile.email", value := "", comparison := "pr",
                       expression := "" },
                     { name := "ignored", value := "ignored", comparison := "eq",
                       expression := "profile.lastName sw \"O\"" }],
          compound_search_operator := "or" }
      = "profile.firstName eq \"Some\" or profile.email pr or profile.lastName sw \"O\""
    ∧ getSearchCriteria
        { search := [{ name := "profile.firstName", value := "Some", comparison := "eq",
                       expression := "" },
                     { name := "profile.lastName", value := "One", comparison := "eq",
                       expression := "" }],
          compound_search_operator := "" }
      = "profile.firstName eq \"Some\" and profile.lastName eq \"One\"" := by
  refine ⟨?_, ?_, ?_, ?_, ?_, by decide, by decide⟩
  · unfold getSearchCriteria
    by_cases h : d.compound_search_operator = ""
    · simp only [h, ne_eq, not_true_eq_false, if_false, if_true]
      rfl
    · simp only [h, ne_eq, not_false_eq_true, if_true, if_false]
  · intro f hf
    unfold getSearchCriteria.filter
    rw [if_pos hf]
  · intro f g hf hg
    unfold getSearchCriteria.filter
    rw [if_pos hf, if_pos (hg ▸ hf), hg]
  · intro f hf hv
    unfold getSearchCriteria.filter
    simp only [hf, hv, ne_eq, not_true_eq_false, if_false]
  · intro f hf hv
    unfold getSearchCriteria.filter
    simp only [hf, hv, ne_eq, not_true_eq_false, not_false_eq_true, if_false, if_true]

/-! ## The conditional validation of a list of strings -/

theorem contains_iff (s : List String) (e : String) : contains s e = true ↔ e ∈ s := by
  unfold contains
  rw [List.any_eq_true]
  constructor
  · rintro ⟨a, ha, hae⟩
    have : a = e := by simpa using hae
    exact this ▸ ha
  · intro h
    exact ⟨e, h, by simp⟩

/-- C32: `conditionalValidator` returns no error exactly when every element of
`require` is in `actual` and every element of `actual` is in `valid`; in every
other case it returns an error, whose message ends with the elements
received. -/
theorem conditionalValidator_iff (field typeValue : String) (require valid actual : List String) :
    (conditionalValidator field typeValue require valid actual = none
      ↔ (∀ r ∈ require, r ∈ actual) ∧ (∀ a ∈ actual, a ∈ valid))
    ∧ (¬ ((∀ r ∈ require, r ∈ actual) ∧ (∀ a ∈ actual, a ∈ valid)) →
        ∃ explanation : String,
          conditionalValidator field typeValue require valid actual
            = some (.new (explanation ++ ", received " ++ String.intercalate ", " actual)))
    ∧ conditionalValidator "scopes" "openid" ["openid"] ["openid", "email"] ["openid", "email"]
        = none
    ∧ (conditionalValidator "scopes" "openid" ["openid"] ["openid", "email"] ["email"]).map
        GoError.Error
      = some ("failed conditional validation for field \"scopes\" of type \"openid\", "
          ++ "it can contain openid, email and must contain openid, received email")
    ∧ (conditionalValidator "scopes" "openid" [] ["openid", "email"] ["phone"]).map
        GoError.Error
      = some ("failed conditional validation for field \"scopes\" of type \"openid\", "
          ++ "it can contain openid, email, received phone") := by
  have hreq : require.any (fun val => !contains actual val) = true ↔ ¬ ∀ r ∈ require, r ∈ actual := by
    rw [List.any_eq_true]
    constructor
    · rintro ⟨r, hr, hc⟩ hall
      have h1 := (contains_iff actual r).mpr (hall r hr)
      simp [h1] at hc
    · intro h
      push_neg at h
      obtain ⟨r, hr, hnot⟩ := h
      refine ⟨r, hr, ?_⟩
      have h1 : contains actual r = false := by
        cases hc : contains actual r with
        | false => rfl
        | true => exact absurd ((contains_iff actual r).mp hc) hnot
      simp [h1]
  have hact : actual.any (fun val => !contains valid val) = true ↔ ¬ ∀ a ∈ actual, a ∈ valid := by
    rw [List.any_eq_true]
    constructor
    · rintro ⟨r, hr, hc⟩ hall
      have h1 := (contains_iff valid r).mpr (hall r hr)
      simp [h1] at hc
    · intro h
      push_neg at h
      obtain ⟨r, hr, hnot⟩ := h
      refine ⟨r, hr, ?_⟩
      have h1 : contains valid r = false := by
        cases hc : contains valid r with
        | false => rfl
        | true => exact absurd ((contains_iff valid r).mp hc) hnot
      simp [h1]
  refine ⟨?_, ?_, by decide, by decide, by decide⟩
  · unfold conditionalValidator
    simp only []
    by_cases h1 : ∀ r ∈ require, r ∈ actual
    · have h1b : ¬ require.any (fun val => !contains actual val) = true := fun h => hreq.mp h h1
      rw [if_neg h1b]
      by_cases h2 : ∀ a ∈ actual, a ∈ valid
      · have h2b : ¬ actual.any (fun val => !contains valid val) = true := fun h => hact.mp h h2
        rw [if_neg h2b]
        exact ⟨fun _ => ⟨h1, h2⟩, fun _ => rfl⟩
      · rw [if_pos (hact.mpr h2)]
        exact ⟨fun h => (by cases h), fun h => absurd h.2 h2⟩
    · rw [if_pos (hreq.mpr h1)]
      exact ⟨fun h => (by cases h), fun h => absurd h.1 h1⟩
  · intro hnot
    unfold conditionalValidator
    simp only []
    by_cases h1 : ∀ r ∈ require, r ∈ actual
    · have h1b : ¬ require.any (fun val => !contains actual val) = true := fun h => hreq.mp h h1
      have h2 : ¬ ∀ a ∈ actual, a ∈ valid := fun h2 => hnot ⟨h1, h2⟩
      rw [if_neg h1b, if_pos (hact.mpr h2)]
      exact ⟨_, rfl⟩
    · rw [if_pos (hreq.mpr h1)]
      exact ⟨_, rfl⟩

/-! ## The intersection of two lists of strings -/

theorem Intersection.elementMap_get? (l : List String) (m : GoMap Bool) (k : String) :
    ((l.foldl (fun m o => m.set o true) m).get? k).getD false
      = ((m.get? k).getD false || decide (k ∈ l)) := by
  induction l generalizing m with
  | nil => simp
  | cons o l ih =>
    rw [List.foldl_cons, ih, GoMap.get?_set]
    by_cases h : k = o
    · simp [h]
    · simp [h]

theorem Intersection.split_fold (p : String → Bool) (l : List String) (acc : List String × List String) :
    l.foldl (fun (acc : List String × List String) n =>
        if p n then (acc.1 ++ [n], acc.2) else (acc.1, acc.2 ++ [n])) acc
      = (acc.1 ++ l.filter p, acc.2 ++ l.filter (fun n => !p n)) := by
  induction l generalizing acc with
  | nil => simp
  | cons n l ih =>
    rw [List.foldl_cons, ih]
    by_cases h : p n = true
    · simp [h]
    · simp [h]

theorem Intersection.filter_fold (p : String → Bool) (l : List String) (acc : List String) :
    l.foldl (fun (acc : List String) o => if p o then acc ++ [o] else acc) acc
      = acc ++ l.filter p := by
  induction l generalizing acc with
  | nil => simp
  | cons n l ih =>
    rw [List.foldl_cons, ih]
    by_cases h : p n = true
    · simp [h]
    · simp [h]

theorem Intersection.count_filter_add (p : String → Bool) (l : List String) (n : String) :
    (l.filter p).count n + (l.filter (fun x => !p x)).count n = l.count n := by
  induction l with
  | nil => rfl
  | cons x l ih =>
    by_cases h : p x = true
    · simp only [List.filter_cons, h, if_true, Bool.not_true, Bool.false_eq_true, if_false,
        List.count_cons]
      omega
    · have h2 : p x = false := by simpa using h
      simp only [List.filter_cons, h2, Bool.false_eq_true, if_false, Bool.not_false, if_true,
        List.count_cons]
      omega

/-- C39: `Intersection` returns the elements of `new` that are in `old`, the
elements of `old` that are not in `new` and the elements of `new` that are not
in `old`, each list in the order of the list it is taken from; every element of
`new` is in exactly one of `intersection` and `exclusiveNew`, as often as it is
in `new`. -/
theorem Intersection_eq (old new : List String) :
    Intersection old new
      = (new.filter (fun n => decide (n ∈ old)), old.filter (fun o => decide (o ∉ new)),
          new.filter (fun n => decide (n ∉ old)))
    ∧ (∀ n ∈ new, (n ∈ (Intersection old new).1 ∧ n ∉ (Intersection old new).2.2)
        ∨ (n ∉ (Intersection old new).1 ∧ n ∈ (Intersection old new).2.2))
    ∧ (∀ n, (Intersection old new).1.count n + (Intersection old new).2.2.count n = new.count n)
    ∧ Intersection ["a", "b", "c", "b"] ["b", "d", "b", "a"] = (["b", "b", "a"], ["c"], ["d"]) := by
  have heq : Intersection old new
      = (new.filter (fun n => decide (n ∈ old)), old.filter (fun o => decide (o ∉ new)),
          new.filter (fun n => decide (n ∉ old))) := by
    unfold Intersection
    simp only []
    rw [Intersection.split_fold (fun n => (GoMap.get? (old.foldl
        (fun (m : GoMap Bool) o => m.set o true) []) n).getD false),
      Intersection.filter_fold (fun o => !(GoMap.get? (new.foldl
        (fun (m : GoMap Bool) n => m.set n true) []) o).getD false)]
    have hmap : ∀ (l : List String) (k : String),
        (GoMap.get? (l.foldl (fun (m : GoMap Bool) o => m.set o true) []) k).getD false
          = decide (k ∈ l) := by
      intro l k
      rw [Intersection.elementMap_get?]
      simp [GoMap.get?]
    simp only [hmap, List.nil_append]
    simp
  refine ⟨heq, ?_, ?_, by decide⟩
  · intro n hn
    rw [heq]
    simp only [List.mem_filter, decide_eq_true_eq]
    by_cases h : n ∈ old
    · exact Or.inl ⟨⟨hn, h⟩, fun hh => hh.2 h⟩
    · exact Or.inr ⟨fun hh => h hh.2, ⟨hn, h⟩⟩
  · intro n
    rw [heq]
    have hneg : (fun n => decide (n ∉ old)) = (fun n => !decide (n ∈ old)) := by
      funext x
      simp
    rw [hneg]
    exact Intersection.count_filter_add (fun x => decide (x ∈ old)) new n

/-! ## The error of a delete that fails -/

/-- C33: when the deletes before the one of group `a.Id` succeed and that one
fails with the error `e`, `deleteGroupAssignments` returns an error that wraps
`e` and whose message is `could not delete assignment for group`, the id of the
group, `, to application`, the id of the application, a colon and the message
of `e`. -/
theorem deleteGroupAssignments_error_message {σ : Type} (T : Client σ) (appID : String)
    (l : List ApplicationGroupAssignment) (w : World σ) (k : Nat)
    (a : ApplicationGroupAssignment) (e : GoError)
    (hk : l.get? k = some a)
    (hok : ∀ j b, j < k → l.get? j = some b →
      (T.delete (T.afterDeletes appID ((l.take j).map (fun a => a.Id)) w.state) appID b.Id).2.2 = none)
    (hfail : (T.delete (T.afterDeletes appID ((l.take k).map (fun a => a.Id)) w.state)
      appID a.Id).2.2 = some e) :
    ∃ err, (deleteGroupAssignments T.DeleteApplicationGroupAssignment appID l w).2 = some err
      ∧ errors.Unwrap err = some e
      ∧ err.Error = "could not delete assignment for group " ++ a.Id ++ ", to application "
          ++ appID ++ ": " ++ e.Error := by
  refine ⟨_, (deleteGroupAssignments_first_failure T appID l w k a e hk hok hfail).1, rfl, rfl⟩

/-- C33, at the removal of `g1, g2, g3` from the application `app` on a
transport that fails on `g2` with the error `boom`. -/
theorem deleteGroupAssignments_error_message_witness :
    ∃ err, (deleteGroupAssignments
        (stubClient (fun _ => none)
          (fun g => if g = "g2" then (none, some (.new "boom")) else (none, none))
          none).DeleteApplicationGroupAssignment "app"
        [{ Id := "g1", PriorityPtr := none, Profile := .null },
         { Id := "g2", PriorityPtr := none, Profile := .null },
         { Id := "g3", PriorityPtr := none, Profile := .null }]
        { state := (), calls := [] }).2 = some err
      ∧ errors.Unwrap err = some (.new "boom")
      ∧ err.Error = "could not delete assignment for group g2, to application app: boom" :=
  deleteGroupAssignments_error_message
    (stubClient (fun _ => none)
      (fun g => if g = "g2" then (none, some (.new "boom")) else (none, none)) none)
    "app"
    [{ Id := "g1", PriorityPtr := none, Profile := .null },
     { Id := "g2", PriorityPtr := none, Profile := .null },
     { Id := "g3", PriorityPtr := none, Profile := .null }]
    { state := (), calls := [] } 1
    { Id := "g2", PriorityPtr := none, Profile := .null } (.new "boom") rfl
    (by
      intro j b hj hb
      have hj0 : j = 0 := by omega
      subst hj0
      simp only [List.get?_cons_zero, Option.some.injEq] at hb
      subst hb
      rfl)
    rfl

/-! ## The view when no group is declared -/

/-- C34: when no group is declared and the list call succeeds with a list
whose payloads have a non-empty encoding, `resourceAppGroupAssignmentsRead`
returns no diagnostic and stores one group for each fetched assignment, in
fetched order: the id of the assignment, its priority if it has one, and the
JSON encoding of its payload as profile, which is what
`groupAssignmentToTFGroup` makes of it. -/
theorem resourceAppGroupAssignmentsRead_imports {σ : Type} (J : JSONLib) (S : SliceSorter)
    (T : Client σ) (w : World σ) (d : ResourceData) (current : List ApplicationGroupAssignment)
    (hgroup : d.group = [])
    (hlist : (T.list w.state d.app_id).2.1 = some current)
    (herr : suppressErrorOn404 (T.list w.state d.app_id).2.2.1 (T.list w.state d.app_id).2.2.2
      = none)
    (hmarshal : ∀ a ∈ current, J.Marshal a.Profile ≠ "") :
    (resourceAppGroupAssignmentsRead J S T w d).2.2 = []
    ∧ (resourceAppGroupAssignmentsRead J S T w d).2.1
        = d.Set_group (current.map (groupAssignmentToTFGroup J))
    ∧ (resourceAppGroupAssignmentsRead J S T w d).2.1.group
        = current.map (fun a =>
            { id := a.Id, priority := a.PriorityPtr, profile := J.Marshal a.Profile })
    ∧ (∀ a ∈ current, groupAssignmentToTFGroup J a
        = { id := a.Id, priority := a.PriorityPtr, profile := some (J.Marshal a.Profile) }) := by
  have hok : d.GetOk_group.2 = false := by
    simp [ResourceData.GetOk_group, hgroup]
  have hread : (resourceAppGroupAssignmentsRead J S T w d).2
      = (d.Set_group (current.map (groupAssignmentToTFGroup J)), []) := by
    unfold resourceAppGroupAssignmentsRead
    simp only [listApplicationGroupAssignments, herr, hlist, hok, Bool.false_eq_true, if_false]
  have henc : ∀ a ∈ current, groupAssignmentToTFGroup J a
      = { id := a.Id, priority := a.PriorityPtr, profile := some (J.Marshal a.Profile) } := by
    intro a ha
    unfold groupAssignmentToTFGroup
    simp only [hmarshal a ha, ne_eq, not_false_eq_true, if_true]
  refine ⟨by rw [hread], by rw [hread], ?_, henc⟩
  rw [hread]
  simp only [ResourceData.Set_group, List.map_map]
  apply List.map_congr_left
  intro a ha
  simp only [Function.comp, henc a ha, Option.getD_some]

/-- C34, at an empty declaration with the fetched assignments `g1`, with
priority 2 and the payload `{"role":"admin"}`, and `g2`, with no priority and a
nil payload: both are stored, in that order. -/
theorem resourceAppGroupAssignmentsRead_imports_witness :
    (resourceAppGroupAssignmentsRead refJSON insertionSorter
        (stubClient (fun _ => none) (fun _ => (none, none))
          (some [{ Id := "g1", PriorityPtr := some 2,
                   Profile := .object [("role", .string "admin")] },
                 { Id := "g2", PriorityPtr := none, Profile := .null }]))
        { state := (), calls := [] }
        { app_id := "app", group := [] }).2.1.group
      = [{ id := "g1", priority := some 2, profile := "\x7b\"role\":\"admin\"\x7d" },
         { id := "g2", priority := none, profile := "null" }] :=
  ((resourceAppGroupAssignmentsRead_imports refJSON insertionSorter
      (stubClient (fun _ => none) (fun _ => (none, none))
        (some [{ Id := "g1", PriorityPtr := some 2,
                 Profile := .object [("role", .string "admin")] },
               { Id := "g2", PriorityPtr := none, Profile := .null }]))
      { state := (), calls := [] }
      { app_id := "app", group := [] }
      [{ Id := "g1", PriorityPtr := some 2, Profile := .object [("role", .string "admin")] },
       { Id := "g2", PriorityPtr := none, Profile := .null }]
      rfl rfl rfl
      (by
        intro a ha
        simp only [List.mem_cons, List.mem_singleton, List.not_mem_nil, or_false] at ha
        rcases ha with rfl | rfl <;> decide)).2.2.1).trans (by decide)

/-- C35, at the undeclared assignment `g2` next to the declared group `g1`:
with a nil payload `groupAssignmentToTFGroup` gives the profile `null` and the
second pass of `syncGroups` the profile `{}`; with the string payload `x` the
one gives the string in quotes and the other the string itself.  For a payload
that is neither nil nor a string, and whose encoding is not empty, the two
entries are the same. -/
theorem groupAssignmentToTFGroup_differs_from_drift_entry :
    groupAssignmentToTFGroup refJSON { Id := "g2", PriorityPtr := none, Profile := .null }
      = { id := "g2", priority := none, profile := some "null" }
    ∧ syncGroups refJSON insertionSorter
        { app_id := "app", group := [{ id := "g1", priority := none, profile := "\x7b\x7d" }] }
        [{ id := "g1", priority := some 0, profile := some "\x7b\x7d" }]
        [{ Id := "g2", PriorityPtr := none, Profile := .null }]
      = [{ id := "g2", priority := none, profile := some "\x7b\x7d" }]
    ∧ groupAssignmentToTFGroup refJSON { Id := "g2", PriorityPtr := none, Profile := .string "x" }
      = { id := "g2", priority := none, profile := some "\"x\"" }
    ∧ syncGroups refJSON insertionSorter
        { app_id := "app", group := [{ id := "g1", priority := none, profile := "\x7b\x7d" }] }
        [{ id := "g1", priority := some 0, profile := some "\x7b\x7d" }]
        [{ Id := "g2", PriorityPtr := none, Profile := .string "x" }]
      = [{ id := "g2", priority := none, profile := some "x" }]
    ∧ (∀ (J : JSONLib) (tfGroups : List TFGroup) (a : ApplicationGroupAssignment),
        a.Id ∉ tfGroups.map (fun g => g.id) → a.Profile.isNil = false →
        (∀ p, a.Profile ≠ .string p) → J.Marshal a.Profile ≠ "" →
        syncGroups.secondPass J tfGroups [a] = [groupAssignmentToTFGroup J a]) := by
  refine ⟨by decide, by decide, by decide, by decide, ?_⟩
  intro J tfGroups a hnot hnil hstr hm
  have h2 : (tfGroups.any fun group => decide (group.id = a.Id)) = false := by
    simpa using hnot
  unfold syncGroups.secondPass groupAssignmentToTFGroup
  simp only [List.filterMap_cons, List.filterMap_nil, h2, Bool.false_eq_true, if_false, hm,
    ne_eq, not_false_eq_true, if_true]
  cases hp : a.Profile with
  | null => rw [hp] at hnil; cases hnil
  | string p => exact absurd hp (hstr p)
  | bool b => rfl
  | number t => rfl
  | array items => rfl
  | object fields => rfl

/-! ## Removals and upserts do not overlap -/

/-- C36: no id is both in `toRemove` and in `toAssign`, and the ids of
`toAssign` are the ids of the new list, each once. -/
theorem splitAssignmentsTargets_disjoint (J : JSONLib) (rangeOld rangeNew : MapRange)
    (d : ResourceData) :
    (∀ k ∈ (splitAssignmentsTargets J rangeOld rangeNew d).toRemove.map (fun a => a.Id),
      k ∉ (splitAssignmentsTargets J rangeOld rangeNew d).toAssign.map (fun a => a.Id))
    ∧ ((splitAssignmentsTargets J rangeOld rangeNew d).toAssign.map (fun a => a.Id)).Nodup
    ∧ (∀ k, k ∈ (splitAssignmentsTargets J rangeOld rangeNew d).toAssign.map (fun a => a.Id)
        ↔ k ∈ d.group.map (fun g => g.id))
    ∧ ((splitAssignmentsTargets J rangeOld rangeNew d).toAssign.map (fun a => a.Id)).Perm
        (d.group.map (fun g => g.id)).dedup := by
  have hassign : (splitAssignmentsTargets J rangeOld rangeNew d).toAssign.map (fun a => a.Id)
      = (rangeNew.order (splitAssignmentsTargets.ids d.GetChange_group.2)).map Prod.fst := by
    unfold splitAssignmentsTargets
    simp only [List.map_map]
    exact List.map_congr_left (fun e _ => rfl)
  have hperm : ((rangeNew.order (splitAssignmentsTargets.ids d.GetChange_group.2)).map Prod.fst).Perm
      (GoMap.keys (splitAssignmentsTargets.ids d.GetChange_group.2)) :=
    (rangeNew.perm _).map Prod.fst
  have hnd : ((splitAssignmentsTargets J rangeOld rangeNew d).toAssign.map (fun a => a.Id)).Nodup := by
    rw [hassign]
    exact hperm.nodup_iff.mpr (splitAssignmentsTargets.ids_nodup _)
  have hcontains : ∀ k, k ∈ (splitAssignmentsTargets J rangeOld rangeNew d).toAssign.map
      (fun a => a.Id) ↔ (splitAssignmentsTargets.ids d.GetChange_group.2).contains k = true := by
    intro k
    rw [hassign, hperm.mem_iff, GoMap.mem_keys_iff_contains]
  have hmem : ∀ k, k ∈ (splitAssignmentsTargets J rangeOld rangeNew d).toAssign.map
      (fun a => a.Id) ↔ k ∈ d.group.map (fun g => g.id) := by
    intro k
    rw [hcontains, splitAssignmentsTargets.ids_contains, ResourceData.GetChange_group_new_ids]
    simp
  refine ⟨?_, hnd, hmem, ?_⟩
  · intro k hk hk2
    rw [splitAssignmentsTargets.toRemove_ids, List.mem_filter] at hk
    rw [(hcontains k).mp hk2] at hk
    simp at hk
  · apply (List.perm_ext_iff_of_nodup hnd (List.nodup_dedup _)).mpr
    intro k
    rw [hmem, List.mem_dedup]

/-! ## The order in which the assignments are fetched -/

/-- C37: for two lists of fetched assignments without a repeated id that are
rearrangements of each other, the first pass of `syncGroups` gives the same
entries in the same order and the second pass gives the same entries up to
their order; the view is the one followed by the other. -/
theorem syncGroups_fetch_order (J : JSONLib) (S : SliceSorter) (d : ResourceData)
    (tfGroups : List TFGroup) (A B : List ApplicationGroupAssignment)
    (hA : (A.map (fun a => a.Id)).Nodup) (hperm : A.Perm B) :
    syncGroups.firstPass J d tfGroups A = syncGroups.firstPass J d tfGroups B
    ∧ (syncGroups.secondPass J tfGroups A).Perm (syncGroups.secondPass J tfGroups B)
    ∧ syncGroups J S d tfGroups A
        = syncGroups.firstPass J d tfGroups A ++ syncGroups.secondPass J tfGroups A
    ∧ syncGroups J S d tfGroups B
        = syncGroups.firstPass J d tfGroups A ++ syncGroups.secondPass J tfGroups B := by
  have hB : (B.map (fun a => a.Id)).Nodup := ((hperm.map _).nodup_iff).mp hA
  have hget : ∀ k, (syncGroups.apiGroupsMap A).get? k = (syncGroups.apiGroupsMap B).get? k := by
    intro k
    apply Option.ext
    intro a
    simp only [Option.mem_def]
    rw [syncGroups.apiGroupsMap_get?_iff_mem A hA, syncGroups.apiGroupsMap_get?_iff_mem B hB,
      hperm.mem_iff]
  have hfirst : syncGroups.firstPass J d tfGroups A = syncGroups.firstPass J d tfGroups B := by
    unfold syncGroups.firstPass
    simp only [hget]
  refine ⟨hfirst, ?_, syncGroups_eq J S d tfGroups A, ?_⟩
  · unfold syncGroups.secondPass
    exact hperm.filterMap _
  · rw [syncGroups_eq, hfirst]

/-- C37, at the declaration `g1, g2` with the fetched assignments
`g2, x, g1, y` and `y, g1, x, g2`: the views are `g1, g2, x, y` and
`g1, g2, y, x`. -/
theorem syncGroups_fetch_order_witness :
    (syncGroups refJSON insertionSorter
        { app_id := "app",
          group := [{ id := "g1", priority := none, profile := "\x7b\x7d" },
                    { id := "g2", priority := none, profile := "\x7b\x7d" }] }
        [{ id := "g1", priority := some 0, profile := some "\x7b\x7d" },
         { id := "g2", priority := some 0, profile := some "\x7b\x7d" }]
        [{ Id := "g2", PriorityPtr := none, Profile := .object [] },
         { Id := "x", PriorityPtr := none, Profile := .object [] },
         { Id := "g1", PriorityPtr := none, Profile := .object [] },
         { Id := "y", PriorityPtr := none, Profile := .object [] }]).map (fun g => g.id)
      = ["g1", "g2", "x", "y"]
    ∧ (syncGroups refJSON insertionSorter
        { app_id := "app",
          group := [{ id := "g1", priority := none, profile := "\x7b\x7d" },
                    { id := "g2", priority := none, profile := "\x7b\x7d" }] }
        [{ id := "g1", priority := some 0, profile := some "\x7b\x7d" },
         { id := "g2", priority := some 0, profile := some "\x7b\x7d" }]
        [{ Id := "y", PriorityPtr := none, Profile := .object [] },
         { Id := "g1", PriorityPtr := none, Profile := .object [] },
         { Id := "x", PriorityPtr := none, Profile := .object [] },
         { Id := "g2", PriorityPtr := none, Profile := .object [] }]).map (fun g => g.id)
      = ["g1", "g2", "y", "x"]
    ∧ syncGroups.firstPass refJSON
        { app_id := "app",
          group := [{ id := "g1", priority := none, profile := "\x7b\x7d" },
                    { id := "g2", priority := none, profile := "\x7b\x7d" }] }
        [{ id := "g1", priority := some 0, profile := some "\x7b\x7d" },
         { id := "g2", priority := some 0, profile := some "\x7b\x7d" }]
        [{ Id := "g2", PriorityPtr := none, Profile := .object [] },
         { Id := "x", PriorityPtr := none, Profile := .object [] },
         { Id := "g1", PriorityPtr := none, Profile := .object [] },
         { Id := "y", PriorityPtr := none, Profile := .object [] }]
      = syncGroups.firstPass refJSON
        { app_id := "app",
          group := [{ id := "g1", priority := none, profile := "\x7b\x7d" },
                    { id := "g2", priority := none, profile := "\x7b\x7d" }] }
        [{ id := "g1", priority := some 0, profile := some "\x7b\x7d" },
         { id := "g2", priority := some 0, profile := some "\x7b\x7d" }]
        [{ Id := "y", PriorityPtr := none, Profile := .object [] },
         { Id := "g1", PriorityPtr := none, Profile := .object [] },
         { Id := "x", PriorityPtr := none, Profile := .object [] },
         { Id := "g2", PriorityPtr := none, Profile := .object [] }] :=
  ⟨by decide, by decide,
   (syncGroups_fetch_order refJSON insertionSorter
    { app_id := "app",
      group := [{ id := "g1", priority := none, profile := "\x7b\x7d" },
                { id := "g2", priority := none, profile := "\x7b\x7d" }] }
    [{ id := "g1", priority := some 0, profile := some "\x7b\x7d" },
     { id := "g2", priority := some 0, profile := some "\x7b\x7d" }]
    [{ Id := "g2", PriorityPtr := none, Profile := .object [] },
     { Id := "x", PriorityPtr := none, Profile := .object [] },
     { Id := "g1", PriorityPtr := none, Profile := .object [] },
     { Id := "y", PriorityPtr := none, Profile := .object [] }]
    [{ Id := "y", PriorityPtr := none, Profile := .object [] },
     { Id := "g1", PriorityPtr := none, Profile := .object [] },
     { Id := "x", PriorityPtr := none, Profile := .object [] },
     { Id := "g2", PriorityPtr := none, Profile := .object [] }]
    (by decide)
    (List.reverse_perm
      ([{ Id := "y", PriorityPtr := none, Profile := .object [] },
        { Id := "g1", PriorityPtr := none, Profile := .object [] },
        { Id := "x", PriorityPtr := none, Profile := .object [] },
        { Id := "g2", PriorityPtr := none, Profile := .object [] }] :
        List ApplicationGroupAssignment))).1⟩

/-! ## The creation of the resource -/

/-- C38: `resourceAppGroupAssignmentsCreate` issues the create-or-update calls
of the declared groups in declaration order.  If the call for one of them is
the first to fail, no further call is issued and the function returns the error
with the resource data as it was, the id not set; if no call fails, it sets
the id to `app_id` and goes on with `resourceAppGroupAssignmentsRead`. -/
theorem resourceAppGroupAssignmentsCreate_first_failure {σ : Type} (J : JSONLib)
    (S : SliceSorter) (T : Client σ) (w : World σ) (d : ResourceData) :
    (tfGroupsToGroupAssignments J d).map (fun a => a.Id) = d.group.map (fun g => g.id)
    ∧ (∀ k a e, (tfGroupsToGroupAssignments J d).get? k = some a →
        (∀ j b, j < k → (tfGroupsToGroupAssignments J d).get? j = some b →
          (T.create (T.afterCreates d.app_id ((tfGroupsToGroupAssignments J d).take j) w.state)
            d.app_id b.Id b).2.2 = none) →
        (T.create (T.afterCreates d.app_id ((tfGroupsToGroupAssignments J d).take k) w.state)
            d.app_id a.Id a).2.2 = some e →
        (resourceAppGroupAssignmentsCreate J S T w d).2.2
            = diag.Errorf ("failed to create application group assignment: " ++ e.Error)
        ∧ (resourceAppGroupAssignmentsCreate J S T w d).2.1 = d
        ∧ (resourceAppGroupAssignmentsCreate J S T w d).1.calls.map (fun c => c.call)
            = w.calls.map (fun c => c.call)
              ++ ((tfGroupsToGroupAssignments J d).take (k + 1)).map
                  (fun a => Call.CreateApplicationGroupAssignment d.app_id a.Id a))
    ∧ ((∀ j b, (tfGroupsToGroupAssignments J d).get? j = some b →
          (T.create (T.afterCreates d.app_id ((tfGroupsToGroupAssignments J d).take j) w.state)
            d.app_id b.Id b).2.2 = none) →
        resourceAppGroupAssignmentsCreate J S T w d
            = resourceAppGroupAssignmentsRead J S T
                (addGroupAssignments T.CreateApplicationGroupAssignment d.app_id
                  (tfGroupsToGroupAssignments J d) w).1 (d.SetId d.app_id)
        ∧ (resourceAppGroupAssignmentsCreate J S T w d).1.calls.map (fun c => c.call)
            = w.calls.map (fun c => c.call)
              ++ (tfGroupsToGroupAssignments J d).map
                  (fun a => Call.CreateApplicationGroupAssignment d.app_id a.Id a)
              ++ [Call.listApplicationGroupAssignments d.app_id]) := by
  refine ⟨?_, ?_, ?_⟩
  · have h := congrArg (List.map Prod.fst) (tfGroupsToGroupAssignments_sent J d)
    simpa [List.map_map, Function.comp] using h
  · intro k a e hk hok hfail
    obtain ⟨h1, h2⟩ := addGroupAssignments_first_failure T d.app_id
      (tfGroupsToGroupAssignments J d) w k a e hk hok hfail
    unfold resourceAppGroupAssignmentsCreate
    simp only [resourceAppGroupAssignmentsCreate.loop_eq]
    cases hadd : addGroupAssignments T.CreateApplicationGroupAssignment d.app_id
        (tfGroupsToGroupAssignments J d) w with
    | mk w1 e1 =>
      rw [hadd] at h1 h2
      simp only at h1 h2
      subst h1
      exact ⟨rfl, rfl, h2⟩
  · intro hok
    obtain ⟨h1, h2⟩ := addGroupAssignments_no_failure T d.app_id
      (tfGroupsToGroupAssignments J d) w hok
    unfold resourceAppGroupAssignmentsCreate
    simp only [resourceAppGroupAssignmentsCreate.loop_eq]
    cases hadd : addGroupAssignments T.CreateApplicationGroupAssignment d.app_id
        (tfGroupsToGroupAssignments J d) w with
    | mk w1 e1 =>
      rw [hadd] at h1 h2
      simp only at h1 h2
      subst h1
      refine ⟨rfl, ?_⟩
      simp only [resourceAppGroupAssignmentsRead_log, List.map_append, h2]
      rfl

/-- C38, at the declaration `g1, g2, g3` on a transport that fails on `g2`: the
calls are the ones for `g1` and `g2`, the error is returned and the id is not
set; on a transport that does not fail the id is `app`. -/
theorem resourceAppGroupAssignmentsCreate_first_failure_witness :
    (resourceAppGroupAssignmentsCreate refJSON insertionSorter
        (stubClient (fun g => if g = "g2" then some (.new "boom") else none)
          (fun _ => (none, none)) (some []))
        { state := (), calls := [] }
        { app_id := "app",
          group := [{ id := "g1", priority := none, profile := "\x7b\x7d" },
                    { id := "g2", priority := none, profile := "\x7b\x7d" },
                    { id := "g3", priority := none, profile := "\x7b\x7d" }] }).2.2
      = [{ severity := .Error
           Summary := "failed to create application group assignment: boom" }]
    ∧ (resourceAppGroupAssignmentsCreate refJSON insertionSorter
        (stubClient (fun g => if g = "g2" then some (.new "boom") else none)
          (fun _ => (none, none)) (some []))
        { state := (), calls := [] }
        { app_id := "app",
          group := [{ id := "g1", priority := none, profile := "\x7b\x7d" },
                    { id := "g2", priority := none, profile := "\x7b\x7d" },
                    { id := "g3", priority := none, profile := "\x7b\x7d" }] }).2.1.id = ""
    ∧ (resourceAppGroupAssignmentsCreate refJSON insertionSorter
        (stubClient (fun g => if g = "g2" then some (.new "boom") else none)
          (fun _ => (none, none)) (some []))
        { state := (), calls := [] }
        { app_id := "app",
          group := [{ id := "g1", priority := none, profile := "\x7b\x7d" },
                    { id := "g2", priority := none, profile := "\x7b\x7d" },
                    { id := "g3", priority := none, profile := "\x7b\x7d" }] }).1.calls.map
        (fun c => (c.call.isCreate, c.call.groupID)) = [(true, some "g1"), (true, some "g2")]
    ∧ (resourceAppGroupAssignmentsCreate refJSON insertionSorter
        (stubClient (fun _ => none) (fun _ => (none, none))
          (some [{ Id := "g1", PriorityPtr := none, Profile := .object [] }]))
        { state := (), calls := [] }
        { app_id := "app",
          group := [{ id := "g1", priority := none, profile := "\x7b\x7d" }] }).2.1.id = "app" :=
  ⟨((resourceAppGroupAssignmentsCreate_first_failure refJSON insertionSorter
      (stubClient (fun g => if g = "g2" then some (.new "boom") else none)
        (fun _ => (none, none)) (some []))
      { state := (), calls := [] }
      { app_id := "app",
        group := [{ id := "g1", priority := none, profile := "\x7b\x7d" },
                  { id := "g2", priority := none, profile := "\x7b\x7d" },
                  { id := "g3", priority := none, profile := "\x7b\x7d" }] }).2.1 1
      { Id := "g2", PriorityPtr := none, Profile := .object [] } (.new "boom") rfl
      (by
        intro j b hj hb
        have hj0 : j = 0 := by omega
        subst hj0
        have hb2 : b = { Id := "g1", PriorityPtr := none, Profile := .object [] } :=
          (Option.some.inj hb).symm
        subst hb2
        rfl)
      rfl).1,
   by decide, by decide, by decide⟩

/-! ## Entries that carry the same priority -/

theorem splitAssignmentsTargets.ids_fold_get? (l : List TFGroup) (m : GoMap TFGroup) (k : String) :
    (l.foldl (fun m o => m.set o.id o) m).get? k
      = ((l.filter (fun o => decide (o.id = k))).getLast?).or (m.get? k) := by
  induction l generalizing m with
  | nil => simp
  | cons x l ih =>
    rw [List.foldl_cons, ih, GoMap.get?_set]
    by_cases h : x.id = k
    · subst h
      simp only [List.filter_cons, decide_True, if_true, List.getLast?_cons]
      cases (List.filter (fun o => decide (o.id = x.id)) l).getLast? <;> rfl
    · have hk : ¬ k = x.id := fun hh => h hh.symm
      simp only [List.filter_cons, h, decide_False, Bool.false_eq_true, if_false, hk]

/-- Of the elements of a list of the state with one id, the map
`splitAssignmentsTargets` builds holds the last. -/
theorem splitAssignmentsTargets.ids_get? (l : List TFGroup) (k : String) :
    (splitAssignmentsTargets.ids l).get? k
      = (l.filter (fun o => decide (o.id = k))).getLast? := by
  unfold splitAssignmentsTargets.ids
  rw [splitAssignmentsTargets.ids_fold_get?]
  cases (List.filter (fun o => decide (o.id = k)) l).getLast? <;> rfl

/-- C28, at the declaration of `g1` with priority 1, `g1` again with priority 2
and `g2` with priority 1: the first and the third entry carry the same explicit
priority, `splitAssignmentsTargets` returns no error, and what it sends for `g1`
has the priority 2 of the second entry, so the first entry is not in `toAssign`
with its priority. -/
theorem splitAssignmentsTargets_duplicate_priorities_counterexample :
    (splitAssignmentsTargets refJSON rangeInOrder rangeInOrder
        { app_id := "app",
          group := [{ id := "g1", priority := some 1, profile := "\x7b\x7d" },
                    { id := "g1", priority := some 2, profile := "\x7b\x7d" },
                    { id := "g2", priority := some 1, profile := "\x7b\x7d" }] }).toAssign.map
        (fun a => (a.Id, a.PriorityPtr)) = [("g1", some 2), ("g2", some 1)]
    ∧ ("g1", some (1 : Int)) ∉ (splitAssignmentsTargets refJSON rangeInOrder rangeInOrder
        { app_id := "app",
          group := [{ id := "g1", priority := some 1, profile := "\x7b\x7d" },
                    { id := "g1", priority := some 2, profile := "\x7b\x7d" },
                    { id := "g2", priority := some 1, profile := "\x7b\x7d" }] }).toAssign.map
        (fun a => (a.Id, a.PriorityPtr))
    ∧ ("g1", some (1 : Int)) ∉ (splitAssignmentsTargets refJSON rangeReversed rangeReversed
        { app_id := "app",
          group := [{ id := "g1", priority := some 1, profile := "\x7b\x7d" },
                    { id := "g1", priority := some 2, profile := "\x7b\x7d" },
                    { id := "g2", priority := some 1, profile := "\x7b\x7d" }] }).toAssign.map
        (fun a => (a.Id, a.PriorityPtr))
    ∧ (splitAssignmentsTargets refJSON rangeInOrder rangeInOrder
        { app_id := "app",
          group := [{ id := "g1", priority := some 1, profile := "\x7b\x7d" },
                    { id := "g1", priority := some 2, profile := "\x7b\x7d" },
                    { id := "g2", priority := some 1, profile := "\x7b\x7d" }] }).err = none := by
  refine ⟨by decide, by decide, by decide, rfl⟩

/-- C28, amended: `splitAssignmentsTargets` returns no error whatever the
priorities are; of two entries of a declaration that carry the same explicit
priority, each of them the last entry of the declaration with its id, `toAssign`
has an assignment for each, with the id of the entry and with the priority both
declare; and every assignment of `toAssign` has the id of the last entry of the
declaration with that id, and the priority of that entry if it declares one. -/
theorem splitAssignmentsTargets_duplicate_priorities (J : JSONLib) (rangeOld rangeNew : MapRange)
    (d : ResourceData) (g1 g2 : GroupBlock) (p : Int)
    (h1 : (d.group.filter (fun g => decide (g.id = g1.id))).getLast? = some g1)
    (h2 : (d.group.filter (fun g => decide (g.id = g2.id))).getLast? = some g2)
    (hp1 : g1.priority = some p) (hp2 : g2.priority = some p) :
    (splitAssignmentsTargets J rangeOld rangeNew d).err = none
    ∧ (∃ a1 ∈ (splitAssignmentsTargets J rangeOld rangeNew d).toAssign,
        a1.Id = g1.id ∧ a1.PriorityPtr = some p)
    ∧ (∃ a2 ∈ (splitAssignmentsTargets J rangeOld rangeNew d).toAssign,
        a2.Id = g2.id ∧ a2.PriorityPtr = some p)
    ∧ (∀ a ∈ (splitAssignmentsTargets J rangeOld rangeNew d).toAssign,
        ∃ g, (d.group.filter (fun b => decide (b.id = a.Id))).getLast? = some g
          ∧ ∀ q, g.priority = some q → a.PriorityPtr = some q) := by
  have hlast : ∀ (k : String),
      (splitAssignmentsTargets.ids d.GetChange_group.2).get? k
        = ((d.group.filter (fun b => decide (b.id = k))).getLast?).map (fun g =>
            ({ id := g.id, priority := some (g.priority.getD 0), profile := some g.profile }
              : TFGroup)) := by
    intro k
    rw [splitAssignmentsTargets.ids_get?]
    simp only [ResourceData.GetChange_group, ResourceData.Get_group, List.filter_map,
      List.getLast?_map]
    rfl
  have hsent : ∀ g : GroupBlock,
      (d.group.filter (fun b => decide (b.id = g.id))).getLast? = some g → g.priority = some p →
      ∃ a ∈ (splitAssignmentsTargets J rangeOld rangeNew d).toAssign,
        a.Id = g.id ∧ a.PriorityPtr = some p := by
    intro g hg hp
    have hget : (splitAssignmentsTargets.ids d.GetChange_group.2).get? g.id
        = some { id := g.id, priority := some (g.priority.getD 0), profile := some g.profile } := by
      rw [hlast, hg]
      rfl
    have hmem := (GoMap.get?_eq_some_iff_mem _ (splitAssignmentsTargets.ids_nodup _) _ _).mp hget
    have hmem2 := (rangeNew.perm _).mem_iff.mpr hmem
    refine ⟨splitAssignmentsTargets.assignment J g.id
      { id := g.id, priority := some (g.priority.getD 0), profile := some g.profile }, ?_, rfl, ?_⟩
    · unfold splitAssignmentsTargets
      exact List.mem_map_of_mem
        (fun e : String × TFGroup => splitAssignmentsTargets.assignment J e.1 e.2) hmem2
    · simp [splitAssignmentsTargets.assignment, int64Ptr, hp]
  refine ⟨rfl, hsent g1 h1 hp1, hsent g2 h2 hp2, ?_⟩
  intro a ha
  unfold splitAssignmentsTargets at ha
  simp only [List.mem_map] at ha
  obtain ⟨e, he, hae⟩ := ha
  have hmem := (rangeNew.perm _).mem_iff.mp he
  have hget := (GoMap.get?_eq_some_iff_mem _ (splitAssignmentsTargets.ids_nodup _) e.1 e.2).mpr hmem
  rw [hlast] at hget
  obtain ⟨g, hg, hge⟩ := Option.map_eq_some'.mp hget
  have haid : a.Id = e.1 := by rw [← hae]; rfl
  refine ⟨g, by rw [haid]; exact hg, ?_⟩
  intro q hq
  rw [← hae, ← hge]
  simp [splitAssignmentsTargets.assignment, int64Ptr, hq]

/-- C28, amended, at the declaration of `g1` with priority 1, `g1` again with
priority 2 and `g2` with priority 2, where the second and the third entry are
the last with their id and carry the same priority: no error, `toAssign` has an
assignment for `g1` and one for `g2`, both with priority 2, and these two are
all it has. -/
theorem splitAssignmentsTargets_duplicate_priorities_witness :
    (splitAssignmentsTargets refJSON rangeInOrder rangeInOrder
        { app_id := "app",
          group := [{ id := "g1", priority := some 1, profile := "\x7b\x7d" },
                    { id := "g1", priority := some 2, profile := "\x7b\x7d" },
                    { id := "g2", priority := some 2, profile := "\x7b\x7d" }] }).err = none
    ∧ (∃ a1 ∈ (splitAssignmentsTargets refJSON rangeInOrder rangeInOrder
        { app_id := "app",
          group := [{ id := "g1", priority := some 1, profile := "\x7b\x7d" },
                    { id := "g1", priority := some 2, profile := "\x7b\x7d" },
                    { id := "g2", priority := some 2, profile := "\x7b\x7d" }] }).toAssign,
        a1.Id = "g1" ∧ a1.PriorityPtr = some 2)
    ∧ (∃ a2 ∈ (splitAssignmentsTargets refJSON rangeInOrder rangeInOrder
        { app_id := "app",
          group := [{ id := "g1", priority := some 1, profile := "\x7b\x7d" },
                    { id := "g1", priority := some 2, profile := "\x7b\x7d" },
                    { id := "g2", priority := some 2, profile := "\x7b\x7d" }] }).toAssign,
        a2.Id = "g2" ∧ a2.PriorityPtr = some 2)
    ∧ (splitAssignmentsTargets refJSON rangeInOrder rangeInOrder
        { app_id := "app",
          group := [{ id := "g1", priority := some 1, profile := "\x7b\x7d" },
                    { id := "g1", priority := some 2, profile := "\x7b\x7d" },
                    { id := "g2", priority := some 2, profile := "\x7b\x7d" }] }).toAssign.map
        (fun a => (a.Id, a.PriorityPtr)) = [("g1", some 2), ("g2", some 2)] :=
  have h := splitAssignmentsTargets_duplicate_priorities refJSON rangeInOrder rangeInOrder
        { app_id := "app",
          group := [{ id := "g1", priority := some 1, profile := "\x7b\x7d" },
                    { id := "g1", priority := some 2, profile := "\x7b\x7d" },
                    { id := "g2", priority := some 2, profile := "\x7b\x7d" }] }
        { id := "g1", priority := some 2, profile := "\x7b\x7d" }
        { id := "g2", priority := some 2, profile := "\x7b\x7d" } 2
        (by decide) (by decide) rfl rfl
  ⟨h.1, h.2.1, h.2.2.1, by decide⟩

end Okta
